import Mathlib

/-!
The program ecs-pilot: the API adapter (`awslib/ecs.go`) and the command shell
(`interactive/interactive.go`).

A shallow embedding of the two Go source files.

Conventions of the embedding

* A Go pointer field `*T` is an `Option T`; `none` is the nil pointer.  Reading
  through a nil pointer is a run-time panic, which is the `Except.error` branch of
  `Except Panic`.
* A Go slice of pointers `[]*T` handed back by the SDK is a `List T` (the
  response decoder produces no nil elements); slices of identifiers `[]*string`
  are likewise lists of strings.
* A Go `map[string]*T` whose values are never nil is an association list with
  unique keys (`GoMap`); the iteration order of a Go map is unspecified, so
  statements about maps are made through `GoMap.get` and membership.
* A Go `error` is an `Option Error`; `none` is the nil error.
* The kingpin library is a parameter (`Kingpin`): it answers the lines that the
  declarations of `init` do not settle.
-/

namespace EcsPilot

/-! ## Run-time model -/

/-- The two ways the Go run time aborts the code modelled here. -/
inductive Panic where
  | nilDereference
  | indexOutOfRange
  deriving DecidableEq, Repr

/-- Values of the Go interface type `error`.  `EOF` is the sentinel `io.EOF`,
which is compared by identity; `msg s` is any other error, such as the value of
`errors.New(s)` or an error handed back by a remote call. -/
inductive Error where
  | EOF
  | msg (s : String)
  deriving DecidableEq, Repr

/-- The text `%s` prints for an error (its `Error()` method). -/
def Error.text : Error → String
  | .EOF => "EOF"
  | .msg s => s

/-- The Go expression `*p`. -/
def deref {α : Type} : Option α → Except Panic α
  | some a => .ok a
  | none => .error .nilDereference

/-- A Go `map[string]*T` with non-nil values. -/
abbrev GoMap (α : Type) := List (String × α)

namespace GoMap

/-- The Go expression `m[k]`; `none` is the nil pointer of a missing key. -/
def get {α : Type} (m : GoMap α) (k : String) : Option α :=
  match m with
  | [] => none
  | (k', v) :: rest => if k' = k then some v else get rest k

/-- The Go statement `m[k] = v`. -/
def set {α : Type} (m : GoMap α) (k : String) (v : α) : GoMap α :=
  match m with
  | [] => [(k, v)]
  | (k', v') :: rest => if k' = k then (k, v) :: rest else (k', v') :: set rest k v

/-- The keys of the map. -/
def keys {α : Type} (m : GoMap α) : List String := m.map Prod.fst

end GoMap

/-! ## The SDK records, with the fields the repository reads -/

/-- A Go `float64`, carried by the text `%v` prints for it. -/
structure Float64 where
  text : String
  deriving DecidableEq, Repr

/-- The record `ecs.Cluster`. -/
structure EcsCluster where
  ClusterName : Option String := none
  ClusterArn : Option String := none
  RegisteredContainerInstancesCount : Option Int := none
  PendingTasksCount : Option Int := none
  RunningTasksCount : Option Int := none
  ActiveServicesCount : Option Int := none
  Status : Option String := none
  deriving DecidableEq, Repr

/-- The record `ecs.Resource`. -/
structure Resource where
  Name : Option String := none
  Type_ : Option String := none
  IntegerValue : Option Int := none
  DoubleValue : Option Float64 := none
  LongValue : Option Int := none
  StringSetValue : List String := []
  deriving DecidableEq, Repr

/-- The record `ecs.Attribute`. -/
structure Attribute where
  Name : Option String := none
  Value : Option String := none
  deriving DecidableEq, Repr

/-- The record `ecs.ContainerInstance`. -/
structure EcsContainerInstance where
  ContainerInstanceArn : Option String := none
  Ec2InstanceId : Option String := none
  Status : Option String := none
  RunningTasksCount : Option Int := none
  PendingTasksCount : Option Int := none
  RegisteredResources : List Resource := []
  RemainingResources : List Resource := []
  AgentConnected : Option Bool := none
  AgentUpdateStatus : Option String := none
  Attributes : List Attribute := []
  deriving DecidableEq, Repr

/-- The record `ecs.Failure`. -/
structure Failure where
  Arn : Option String := none
  Reason : Option String := none
  deriving DecidableEq, Repr

/-- The record `ecs.NetworkBinding`. -/
structure NetworkBinding where
  BindIP : Option String := none
  ContainerPort : Option Int := none
  HostPort : Option Int := none
  Protocol : Option String := none
  deriving DecidableEq, Repr

/-- The record `ecs.Container`. -/
structure Container where
  Name : Option String := none
  ContainerArn : Option String := none
  TaskArn : Option String := none
  Reason : Option String := none
  LastStatus : Option String := none
  ExitCode : Option Int := none
  NetworkBindings : List NetworkBinding := []
  deriving DecidableEq, Repr

/-- The record `ecs.Task`. -/
structure Task where
  TaskArn : Option String := none
  ClusterArn : Option String := none
  ContainerInstanceArn : Option String := none
  Containers : List Container := []
  deriving DecidableEq, Repr

/-- The response `ecs.DescribeContainerInstancesOutput`. -/
structure DescribeContainerInstancesOutput where
  ContainerInstances : List EcsContainerInstance := []
  Failures : List Failure := []
  deriving DecidableEq, Repr

/-- The response `ecs.DescribeTasksOutput`. -/
structure DescribeTasksOutput where
  Tasks : List Task := []
  Failures : List Failure := []
  deriving DecidableEq, Repr

/-! ## `awslib/ecs.go`: the merged lookup structures -/

/-- The Go type `awslib.ContainerInstance`. -/
structure ContainerInstance where
  Instance : Option EcsContainerInstance := none
  Failure : Option Failure := none
  deriving DecidableEq, Repr

/-- The Go type `awslib.ContainerInstanceMap`. -/
abbrev ContainerInstanceMap := GoMap ContainerInstance

/-- The first loop of `makeCIMapFromDescribeContainerInstancesOutput`: every
described instance gets a fresh record, stored under its identifier. -/
def ciInstancesLoop : List EcsContainerInstance → ContainerInstanceMap →
    Except Panic ContainerInstanceMap
  | [], ciMap => .ok ciMap
  | inst :: rest, ciMap =>
    match inst.ContainerInstanceArn with
    | none => .error .nilDereference
    | some arn => ciInstancesLoop rest (ciMap.set arn { Instance := some inst, Failure := none })

/-- The second loop of `makeCIMapFromDescribeContainerInstancesOutput`: a failure
is attached to the record stored under its identifier, or gets a fresh record. -/
def ciFailuresLoop : List Failure → ContainerInstanceMap → Except Panic ContainerInstanceMap
  | [], ciMap => .ok ciMap
  | failure :: rest, ciMap =>
    match failure.Arn with
    | none => .error .nilDereference
    | some arn =>
      match ciMap.get arn with
      | none => ciFailuresLoop rest (ciMap.set arn { Instance := none, Failure := some failure })
      | some ci => ciFailuresLoop rest (ciMap.set arn { ci with Failure := some failure })

/-- The function `makeCIMapFromDescribeContainerInstancesOutput`. -/
def makeCIMapFromDescribeContainerInstancesOutput (dcio : DescribeContainerInstancesOutput) :
    Except Panic ContainerInstanceMap :=
  match ciInstancesLoop dcio.ContainerInstances [] with
  | .error p => .error p
  | .ok ciMap => ciFailuresLoop dcio.Failures ciMap

/-- The Go type `awslib.ContainerTask`. -/
structure ContainerTask where
  Task : Option Task := none
  Failure : Option Failure := none
  deriving DecidableEq, Repr

/-- The Go type `awslib.ContainerTaskMap`. -/
abbrev ContainerTaskMap := GoMap ContainerTask

/-- The first loop of `makeCTMapFromDescribeTasksOutput`. -/
def ctTasksLoop : List Task → ContainerTaskMap → Except Panic ContainerTaskMap
  | [], ctMap => .ok ctMap
  | task :: rest, ctMap =>
    match task.TaskArn with
    | none => .error .nilDereference
    | some arn => ctTasksLoop rest (ctMap.set arn { Task := some task, Failure := none })

/-- The second loop of `makeCTMapFromDescribeTasksOutput`. -/
def ctFailuresLoop : List Failure → ContainerTaskMap → Except Panic ContainerTaskMap
  | [], ctMap => .ok ctMap
  | failure :: rest, ctMap =>
    match failure.Arn with
    | none => .error .nilDereference
    | some arn =>
      match ctMap.get arn with
      | none => ctFailuresLoop rest (ctMap.set arn { Task := none, Failure := some failure })
      | some ct => ctFailuresLoop rest (ctMap.set arn { ct with Failure := some failure })

/-- The function `makeCTMapFromDescribeTasksOutput`. -/
def makeCTMapFromDescribeTasksOutput (dto : DescribeTasksOutput) : Except Panic ContainerTaskMap :=
  match ctTasksLoop dto.Tasks [] with
  | .error p => .error p
  | .ok ctMap => ctFailuresLoop dto.Failures ctMap

/-! ## The remote services -/

/-- A request sent to the orchestration service or to the host service. -/
inductive Call where
  | ListClusters (maxResults : Int)
  | DescribeClusters (clusters : List String)
  | ListContainerInstances (cluster : String) (maxResults : Int)
  | DescribeContainerInstances (cluster : String) (containerInstances : List String)
  | ListTasks (cluster : String) (maxResults : Int)
  | DescribeTasks (cluster : String) (tasks : List String)
  | RunTask (cluster : String) (taskDefinition : String) (count : Int)
  | StopTask (cluster : String) (task : String)
  | ListTaskDefinitions (maxResults : Int)
  | DescribeTaskDefinition (taskDefinition : String)
  | TerminateInstances (instanceId : String)
  | RunInstances (cluster : String)
  deriving DecidableEq, Repr

/-- The response `ecs.ListClustersOutput`. -/
structure ListClustersOutput where
  ClusterArns : List String := []
  deriving DecidableEq, Repr

/-- The response `ecs.DescribeClustersOutput`. -/
structure DescribeClustersOutput where
  Clusters : List EcsCluster := []
  deriving DecidableEq, Repr

/-- The response `ecs.ListContainerInstancesOutput`. -/
structure ListContainerInstancesOutput where
  ContainerInstanceArns : List String := []
  deriving DecidableEq, Repr

/-- The response `ecs.ListTasksOutput`. -/
structure ListTasksOutput where
  TaskArns : List String := []
  deriving DecidableEq, Repr

/-- The response `ecs.RunTaskOutput`. -/
structure RunTaskOutput where
  Failures : List Failure := []
  Tasks : List Task := []
  deriving DecidableEq, Repr

/-- The response `ecs.StopTaskOutput`. -/
structure StopTaskOutput where
  Task : Option Task := none
  deriving DecidableEq, Repr

/-- The response `ecs.ListTaskDefinitionsOutput`. -/
structure ListTaskDefinitionsOutput where
  TaskDefinitionArns : List String := []
  deriving DecidableEq, Repr

/-- The record `ecs.TaskDefinition`; the repository only prints it, so it is
carried by the text its `String` method gives. -/
structure TaskDefinition where
  text : String
  deriving DecidableEq, Repr

/-- The response `ecs.DescribeTaskDefinitionOutput`. -/
structure DescribeTaskDefinitionOutput where
  TaskDefinition : Option TaskDefinition := none
  deriving DecidableEq, Repr

/-- The response `ec2.TerminateInstancesOutput`; only printed, so carried by its
text. -/
structure TerminateInstancesOutput where
  text : String
  deriving DecidableEq, Repr

/-- The response of the host service to a launch; only printed, so carried by
its text. -/
structure RunInstancesOutput where
  text : String
  deriving DecidableEq, Repr

/-- The client `*ecs.ECS`.  Each operation answers with a response record and an
error (the SDK allocates the response record also when the call fails).  The
answer may depend on the requests sent before (`past`, oldest first), so that
every behaviour of the remote service over a run is covered. -/
structure ECS where
  ListClusters : (past : List Call) → (maxResults : Int) → ListClustersOutput × Option Error
  DescribeClusters : (past : List Call) → (clusters : List String) →
    DescribeClustersOutput × Option Error
  ListContainerInstances : (past : List Call) → (cluster : String) → (maxResults : Int) →
    ListContainerInstancesOutput × Option Error
  DescribeContainerInstances : (past : List Call) → (cluster : String) →
    (containerInstances : List String) → DescribeContainerInstancesOutput × Option Error
  ListTasks : (past : List Call) → (cluster : String) → (maxResults : Int) →
    ListTasksOutput × Option Error
  DescribeTasks : (past : List Call) → (cluster : String) → (tasks : List String) →
    DescribeTasksOutput × Option Error
  RunTask : (past : List Call) → (cluster : String) → (taskDefinition : String) →
    (count : Int) → RunTaskOutput × Option Error
  StopTask : (past : List Call) → (cluster : String) → (task : String) →
    StopTaskOutput × Option Error
  ListTaskDefinitions : (past : List Call) → (maxResults : Int) →
    ListTaskDefinitionsOutput × Option Error
  DescribeTaskDefinition : (past : List Call) → (taskDefinition : String) →
    DescribeTaskDefinitionOutput × Option Error

/-- The client `*ec2.EC2` of the host service. -/
structure EC2 where
  TerminateInstances : (past : List Call) → (instanceId : String) →
    Option TerminateInstancesOutput × Option Error
  RunInstances : (past : List Call) → (cluster : String) →
    Option RunInstancesOutput × Option Error

/-- Which state a background wait waits for. -/
inductive WaitKind where
  | running
  | stopped
  deriving DecidableEq, Repr

/-- A background wait scheduled by `OnTaskRunning` or `OnTaskStopped`: the
goroutine calls `WaitUntilTasksRunning` / `WaitUntilTasksStopped` for one task of
one cluster and then runs the callback.  When it completes is not modelled. -/
structure Wait where
  kind : WaitKind
  cluster : String
  task : String
  deriving DecidableEq, Repr

/-- The levels of the logging library. -/
inductive Level where
  | CRITICAL
  | ERROR
  | WARNING
  | NOTICE
  | INFO
  | DEBUG
  deriving DecidableEq, Repr

/-- Everything a command can change: the requests sent, the text printed on
standard output (one element per print call), the background waits scheduled,
the line history, the logging level of the default module, and the package
variables of the shell. -/
structure World where
  calls : List Call := []
  out : List String := []
  waits : List Wait := []
  history : List String := []
  logLevel : Level := Level.DEBUG
  iVerbose : Bool := false
  interTestString : List String := []
  interClusterName : String := ""
  interContainerArn : String := ""
  interTaskDefinitionArn : String := ""
  interTaskArn : String := ""
  deriving DecidableEq, Repr

/-- Record a request as sent. -/
def World.send (w : World) (c : Call) : World := { w with calls := w.calls ++ [c] }

/-- The effect of `fmt.Printf` / `fmt.Println` with the finished text. -/
def World.print (w : World) (s : String) : World := { w with out := w.out ++ [s] }

/-! ## `awslib/ecs.go`: the adapter functions

Each function takes the world before the call and hands back the Go results
together with the world after it. -/

/-- The Go type `awslib.Cluster`. -/
structure Cluster where
  Arn : Option String := none
  deriving DecidableEq, Repr

/-- The function `GetClusters`. -/
def GetClusters (svc : ECS) (w : World) : (List Cluster × Option Error) × World :=
  let (output, err) := svc.ListClusters w.calls 100
  let w1 := w.send (.ListClusters 100)
  match err with
  | some e => (([], some e), w1)
  | none => ((output.ClusterArns.map (fun arn => { Arn := some arn }), none), w1)

/-- The function `DescribeCluster` (the shell calls it `GetClusterDescription`). -/
def DescribeCluster (clusterName : String) (svc : ECS) (w : World) :
    (List EcsCluster × Option Error) × World :=
  let (resp, err) := svc.DescribeClusters w.calls [clusterName]
  ((resp.Clusters, err), w.send (.DescribeClusters [clusterName]))

/-- The function `GetContainerInstances`. -/
def GetContainerInstances (clusterName : String) (svc : ECS) (w : World) :
    (List String × Option Error) × World :=
  let (resp, err) := svc.ListContainerInstances w.calls clusterName 100
  let w1 := w.send (.ListContainerInstances clusterName 100)
  match err with
  | some e => (([], some e), w1)
  | none => ((resp.ContainerInstanceArns, none), w1)

/-- The function `GetAllContainerInstanceDescriptions`. -/
def GetAllContainerInstanceDescriptions (clusterName : String) (svc : ECS) (w : World) :
    Except Panic ((ContainerInstanceMap × Option Error) × World) :=
  let ((instanceArns, err), w1) := GetContainerInstances clusterName svc w
  match err with
  | some e => .ok (([], some e), w1)
  | none =>
    if instanceArns.length ≤ 0 then .ok (([], none), w1)
    else
      let (resp, err) := svc.DescribeContainerInstances w1.calls clusterName instanceArns
      let w2 := w1.send (.DescribeContainerInstances clusterName instanceArns)
      match makeCIMapFromDescribeContainerInstancesOutput resp with
      | .error p => .error p
      | .ok ciMap => .ok ((ciMap, err), w2)

/-- The function `GetContainerInstanceDescription`. -/
def GetContainerInstanceDescription (clusterName : String) (containerArn : String) (ecs_svc : ECS)
    (w : World) : Except Panic ((ContainerInstanceMap × Option Error) × World) :=
  let (resp, err) := ecs_svc.DescribeContainerInstances w.calls clusterName [containerArn]
  let w1 := w.send (.DescribeContainerInstances clusterName [containerArn])
  match makeCIMapFromDescribeContainerInstancesOutput resp with
  | .error p => .error p
  | .ok ciMap => .ok ((ciMap, err), w1)

/-- The loop of `getInstanceId`, with the current value of the named result
`instanceId`. -/
def getInstanceIdLoop : List EcsContainerInstance → String → Option String →
    Except Panic (Option String)
  | [], _, instanceId => .ok instanceId
  | inst :: rest, containerArn, instanceId =>
    match inst.ContainerInstanceArn with
    | none => .error .nilDereference
    | some arn =>
      if arn = containerArn then getInstanceIdLoop rest containerArn inst.Ec2InstanceId
      else getInstanceIdLoop rest containerArn instanceId

/-- The function `getInstanceId`. -/
def getInstanceId (containerInstances : List EcsContainerInstance) (containerArn : String) :
    Except Panic (Option String) :=
  getInstanceIdLoop containerInstances containerArn none

/-- Modelled from the spec: the function `TerminateInstance` of the repository is
not in the sources; following the spec ("issue a termination request against that
host identifier") it sends one termination request for the host identifier to
the host service and hands back the answer. -/
def TerminateInstance (instanceId : String) (ec2Svc : EC2) (w : World) :
    (Option TerminateInstancesOutput × Option Error) × World :=
  (ec2Svc.TerminateInstances w.calls instanceId, w.send (.TerminateInstances instanceId))

/-- The function `TerminateContainerInstance`. -/
def TerminateContainerInstance (clusterName : String) (containerArn : String) (ecs_svc : ECS)
    (ec2Svc : EC2) (w : World) :
    Except Panic ((Option TerminateInstancesOutput × Option Error) × World) :=
  let (dci_resp, err) := ecs_svc.DescribeContainerInstances w.calls clusterName [containerArn]
  let w1 := w.send (.DescribeContainerInstances clusterName [containerArn])
  match err with
  | some e => .ok ((none, some e), w1)
  | none =>
    match getInstanceId dci_resp.ContainerInstances containerArn with
    | .error p => .error p
    | .ok none =>
      let errMessage :=
        "TerminateContainerInstance: Can't find the Ec2 Instance ID for container arn: " ++
          containerArn
      .ok ((none, some (.msg errMessage)), w1)
    | .ok (some instanceId) => .ok (TerminateInstance instanceId ec2Svc w1)

/-- The function `ListTasksForCluster`. -/
def ListTasksForCluster (clusterName : String) (ecs_svc : ECS) (w : World) :
    (List String × Option Error) × World :=
  let (resp, err) := ecs_svc.ListTasks w.calls clusterName 100
  ((resp.TaskArns, err), w.send (.ListTasks clusterName 100))

/-- The function `GetAllTaskDescriptions`. -/
def GetAllTaskDescriptions (clusterName : String) (ecs_svc : ECS) (w : World) :
    Except Panic ((ContainerTaskMap × Option Error) × World) :=
  let ((taskArns, err), w1) := ListTasksForCluster clusterName ecs_svc w
  match err with
  | some e => .ok (([], some e), w1)
  | none =>
    if taskArns.length ≤ 0 then .ok (([], none), w1)
    else
      let (resp, err) := ecs_svc.DescribeTasks w1.calls clusterName taskArns
      let w2 := w1.send (.DescribeTasks clusterName taskArns)
      match makeCTMapFromDescribeTasksOutput resp with
      | .error p => .error p
      | .ok ctMap => .ok ((ctMap, err), w2)

/-- The function `RunTask`. -/
def RunTask (clusterName : String) (taskDef : String) (ecs_svc : ECS) (w : World) :
    (RunTaskOutput × Option Error) × World :=
  (ecs_svc.RunTask w.calls clusterName taskDef 1, w.send (.RunTask clusterName taskDef 1))

/-- The function `OnTaskRunning`: it starts the goroutine and returns. -/
def OnTaskRunning (clusterName taskDefArn : String) (w : World) : World :=
  { w with waits := w.waits ++ [{ kind := .running, cluster := clusterName, task := taskDefArn }] }

/-- The function `StopTask`. -/
def StopTask (clusterName : String) (taskArn : String) (ecs_svc : ECS) (w : World) :
    (StopTaskOutput × Option Error) × World :=
  (ecs_svc.StopTask w.calls clusterName taskArn, w.send (.StopTask clusterName taskArn))

/-- The function `OnTaskStopped`: it starts the goroutine and returns. -/
def OnTaskStopped (clusterName taskArn : String) (w : World) : World :=
  { w with waits := w.waits ++ [{ kind := .stopped, cluster := clusterName, task := taskArn }] }

/-- The function `ListTaskDefinitions`. -/
def ListTaskDefinitions (ecs_svc : ECS) (w : World) : (List String × Option Error) × World :=
  let (resp, err) := ecs_svc.ListTaskDefinitions w.calls 100
  ((resp.TaskDefinitionArns, err), w.send (.ListTaskDefinitions 100))

/-- The function `GetTaskDefinition`. -/
def GetTaskDefinition (taskDefinitionArn : String) (ecs_svc : ECS) (w : World) :
    (Option TaskDefinition × Option Error) × World :=
  let (resp, err) := ecs_svc.DescribeTaskDefinition w.calls taskDefinitionArn
  ((resp.TaskDefinition, err), w.send (.DescribeTaskDefinition taskDefinitionArn))

/-- Modelled from the spec: the function `LaunchContainerInstance` of the
repository is not in the sources and the spec does not describe it; it is taken
as one launch request for the cluster to the host service. -/
def LaunchContainerInstance (clusterName : String) (ec2Svc : EC2) (w : World) :
    (Option RunInstancesOutput × Option Error) × World :=
  (ec2Svc.RunInstances w.calls clusterName, w.send (.RunInstances clusterName))

/-! ## `interactive/interactive.go`: the formatting functions -/

/-- The `String` methods of the SDK records that the shell prints with `%s` or
`%v`; they belong to the SDK and are taken as given. -/
structure Sdk where
  failureString : Failure → String
  taskString : Task → String

/-- A value of the Go type `interface{}` as `resourceValue` returns it. -/
inductive GoValue where
  | int (i : Int)
  | float (f : Float64)
  | str (s : String)
  | nil
  deriving DecidableEq, Repr

/-- The text `%+v` prints for such a value. -/
def GoValue.text : GoValue → String
  | .int i => toString i
  | .float f => f.text
  | .str s => s
  | .nil => "<nil>"

/-- The text `%+v` prints for a `bool`. -/
def boolText (b : Bool) : String := if b then "true" else "false"

/-- The function `printCluster`. -/
def printCluster (cluster : EcsCluster) (w : World) : Except Panic World := do
  let w := w.print ("Name: \"" ++ (← deref cluster.ClusterName) ++ "\"\n")
  let w := w.print ("ARN: " ++ (← deref cluster.ClusterArn) ++ "\n")
  let w := w.print ("Registered instances count: " ++
    toString (← deref cluster.RegisteredContainerInstancesCount) ++ "\n")
  let w := w.print ("Pending tasks count: " ++ toString (← deref cluster.PendingTasksCount) ++ "\n")
  let w := w.print ("Running tasks count: " ++ toString (← deref cluster.RunningTasksCount) ++ "\n")
  let w := w.print ("Active services count: " ++
    toString (← deref cluster.ActiveServicesCount) ++ "\n")
  let w := w.print ("Status: " ++ (← deref cluster.Status) ++ "\n")
  pure w

/-- The loop of `stringArrayToString`, at index `i` with the current `final`. -/
def stringArrayToStringLoop : List String → Nat → String → String
  | [], _, final => final
  | s :: rest, i, final =>
    stringArrayToStringLoop rest (i + 1) (if i = 0 then s else final ++ ", " ++ s)

/-- The function `stringArrayToString`. -/
def stringArrayToString (sA : List String) : String := stringArrayToStringLoop sA 0 ""

/-- The function `resourceValue`. -/
def resourceValue (r : Resource) : Except Panic GoValue := do
  let t ← deref r.Type_
  if t = "INTEGER" then pure (.int (← deref r.IntegerValue))
  else if t = "DOUBLE" then pure (.float (← deref r.DoubleValue))
  else if t = "LONG" then pure (.int (← deref r.LongValue))
  else if t = "STRINGSET" then pure (.str (stringArrayToString r.StringSetValue))
  else pure .nil

/-- The function `attributeString`. -/
def attributeString (attr : Attribute) : Except Panic String := do
  let value := match attr.Value with
    | none => "nil"
    | some v => v
  pure ((← deref attr.Name) ++ ": " ++ value)

/-- The two loops over resources in `ContainerInstanceDescriptionToString`, at
index `i` with the current `s`. -/
def resourceLines : List Resource → Nat → String → Except Panic String
  | [], _, s => .ok s
  | resource :: rest, i, s => do
    let name ← deref resource.Name
    let v ← resourceValue resource
    resourceLines rest (i + 1)
      (s ++ "\t " ++ toString (i + 1) ++ ". " ++ name ++ ": " ++ v.text ++ "\n")

/-- The loop over attributes in `ContainerInstanceDescriptionToString`. -/
def attributeLines : List Attribute → Nat → String → Except Panic String
  | [], _, s => .ok s
  | attr :: rest, i, s => do
    let a ← attributeString attr
    attributeLines rest (i + 1) (s ++ "\t" ++ toString (i + 1) ++ ".  " ++ a ++ "\n")

/-- The function `ContainerInstanceDescriptionToString`. -/
def ContainerInstanceDescriptionToString (container : EcsContainerInstance) :
    Except Panic String := do
  let s := ""
  let s := s ++ "Container ARN: " ++ (← deref container.ContainerInstanceArn) ++ "\n"
  let s := s ++ "EC2-ID: " ++ (← deref container.Ec2InstanceId) ++ "\n"
  let s := s ++ "Status:  " ++ (← deref container.Status) ++ "\n"
  let s := s ++ "Running Task Count: " ++ toString (← deref container.RunningTasksCount) ++ ".\n"
  let s := s ++ "Pending Task Count: " ++ toString (← deref container.PendingTasksCount) ++ "\n"
  let s := s ++ "There are (" ++ toString container.RegisteredResources.length ++
    ") registered resources.\n"
  let s ← resourceLines container.RegisteredResources 0 s
  let s := s ++ "There are (" ++ toString container.RemainingResources.length ++
    ") remaining resources.\n"
  let s ← resourceLines container.RemainingResources 0 s
  let s := s ++ "Agent connected: " ++ boolText (← deref container.AgentConnected) ++ "\n"
  let status := match container.AgentUpdateStatus with
    | some st => st
    | none => "never requested."
  let s := s ++ "Agent updated status: " ++ status ++ "\n"
  let s := s ++ "There are (" ++ toString container.Attributes.length ++ ") attributes.\n"
  attributeLines container.Attributes 0 s

/-- The text of `fmt.Sprintf("+v", *failure)`: the format has no verb, so the
argument is reported as an extra one. -/
def failureText (sdk : Sdk) (failure : Failure) : String :=
  "+v%!(EXTRA ecs.Failure=" ++ sdk.failureString failure ++ ")"

/-- The function `ContainerInstanceMapToString`, as a loop over the entries with
the current `s`.  The entries are visited in the order of the association list,
one of the orders in which Go may range over the map. -/
def ContainerInstanceMapToStringLoop (sdk : Sdk) :
    List (String × ContainerInstance) → String → Except Panic String
  | [], s => .ok s
  | (_, ci) :: rest, s => do
    let iString ← match ci.Instance with
      | some inst => ContainerInstanceDescriptionToString inst
      | none => pure "No instance description"
    let fString := match ci.Failure with
      | some failure => failureText sdk failure
      | none => ""
    ContainerInstanceMapToStringLoop sdk rest (s ++ iString ++ "\n" ++ fString ++ "\n")

/-- The function `ContainerInstanceMapToString`. -/
def ContainerInstanceMapToString (sdk : Sdk) (ciMap : ContainerInstanceMap) :
    Except Panic String :=
  ContainerInstanceMapToStringLoop sdk ciMap ""

/-- The loop over network bindings in `ContainerTaskDescriptionToString`, at
index `j` with the current `s`. -/
def networkLines : List NetworkBinding → Nat → String → Except Panic String
  | [], _, s => .ok s
  | network :: rest, j, s => do
    let s := s ++ "\t\t" ++ toString (j + 1) ++ ". IP: " ++ (← deref network.BindIP)
    let containerPort ← deref network.ContainerPort
    let hostPort ← deref network.HostPort
    let s := s ++ " Conatiner Port: " ++ toString containerPort ++ " -> Host Port: " ++
      toString hostPort
    let s := s ++ "  (" ++ (← deref network.Protocol) ++ ")\n"
    networkLines rest (j + 1) s

/-- The loop over sub-containers in `ContainerTaskDescriptionToString`, at index
`i` with the current `s`. -/
def containerLines : List Container → Nat → String → Except Panic String
  | [], _, s => .ok s
  | container :: rest, i, s => do
    let s := s ++ "\t" ++ toString (i + 1) ++ ". Name: " ++ (← deref container.Name) ++ "\n"
    let s := s ++ "\tContainer Arn: " ++ (← deref container.ContainerArn) ++ "\n"
    let s := s ++ "\tTask Arn: " ++ (← deref container.TaskArn) ++ "\n"
    let containerReason := match container.Reason with
      | some r => r
      | none => "<empty>"
    let s := s ++ "\tReason: " ++ containerReason ++ "\n"
    let s := s ++ "\tLast Status: " ++ (← deref container.LastStatus) ++ "\n"
    let s := match container.ExitCode with
      | some c => s ++ "\tExit Code: " ++ toString c ++ "\n"
      | none => s ++ "\tExit Code: " ++ "<empty>" ++ "\n"
    let s := s ++ "\tContainer Network Bindings:\n"
    let s ← networkLines container.NetworkBindings 0 s
    containerLines rest (i + 1) s

/-- The function `ContainerTaskDescriptionToString`; its argument is a pointer. -/
def ContainerTaskDescriptionToString (task : Option Task) : Except Panic String := do
  let task ← deref task
  let s := ""
  let s := s ++ "Task ARN: " ++ (← deref task.TaskArn) ++ "\n"
  let s := s ++ "Cluster ARN: " ++ (← deref task.ClusterArn) ++ "\n"
  let s := s ++ "Container ARN: " ++ (← deref task.ContainerInstanceArn) ++ "\n"
  let s := s ++ "There are (" ++ toString task.Containers.length ++ ") associated containers.\n"
  if task.Containers.length > 0 then containerLines task.Containers 0 s
  else pure s

/-- The function `ContainerTaskMapToString`, as a loop over the entries with the
current `count` and `s`; the entries are visited in the order of the association
list. -/
def ContainerTaskMapToStringLoop (sdk : Sdk) :
    List (String × ContainerTask) → Nat → String → Except Panic String
  | [], _, s => .ok s
  | (_, ct) :: rest, count, s =>
    match ct.Task with
    | some task => do
      let d ← ContainerTaskDescriptionToString (some task)
      let tString := toString count ++ ": " ++ d
      let fString := match ct.Failure with
        | some failure => failureText sdk failure
        | none => ""
      ContainerTaskMapToStringLoop sdk rest (count + 1) (s ++ tString ++ "\n" ++ fString)
    | none =>
      let tString := "No task description"
      let fString := match ct.Failure with
        | some failure => failureText sdk failure
        | none => ""
      ContainerTaskMapToStringLoop sdk rest count (s ++ tString ++ "\n" ++ fString)

/-- The function `ContainerTaskMapToString`. -/
def ContainerTaskMapToString (sdk : Sdk) (ctMap : ContainerTaskMap) : Except Panic String :=
  ContainerTaskMapToStringLoop sdk ctMap 1 ""

/-- The loop of `collectContainerNames`, with the current `s`. -/
def collectContainerNamesLoop : List Container → String → Except Panic String
  | [], s => .ok s
  | container :: rest, s =>
    match container.Name with
    | none => .error .nilDereference
    | some name => collectContainerNamesLoop rest (s ++ name ++ " ")

/-- The function `collectContainerNames`; its argument is a pointer. -/
def collectContainerNames (task : Option Task) : Except Panic String :=
  match task with
  | none => .error .nilDereference
  | some t => collectContainerNamesLoop t.Containers ""

/-- The numbered lines `"%d: %s\n"` (or with another ending) that several
commands print for a list of identifiers, starting at index `i`. -/
def printNumbered (ending : String) : List String → Nat → World → World
  | [], _, w => w
  | a :: rest, i, w => printNumbered ending rest (i + 1) (w.print (toString (i + 1) ++ ": " ++ a ++ ending))

/-! ## `interactive/interactive.go`: the commands

A command takes the world before it and hands back the Go `error` it returns
together with the world after it, or panics. -/

/-- The `*aws.Config` handed to the shell, carried by the client of the host
service that the adapter builds from it. -/
structure AwsConfig where
  ec2Svc : EC2

/-- The loop of `doListClusters`, at index `i`. -/
def doListClustersLoop : List Cluster → Nat → World → Except Panic World
  | [], _, w => .ok w
  | cluster :: rest, i, w =>
    match cluster.Arn with
    | none => .error .nilDereference
    | some arn => doListClustersLoop rest (i + 1) (w.print (toString (i + 1) ++ ": " ++ arn ++ "\n"))

/-- The function `doListClusters`. -/
def doListClusters (svc : ECS) (w : World) : Except Panic (Option Error × World) :=
  let ((clusters, err), w1) := GetClusters svc w
  match err with
  | some e => .ok (some e, w1)
  | none =>
    let w2 := w1.print ("There are " ++ toString clusters.length ++ " clusters\n")
    match doListClustersLoop clusters 0 w2 with
    | .error p => .error p
    | .ok w3 => .ok (none, w3)

/-- The function `doDescribeCluster`. -/
def doDescribeCluster (svc : ECS) (w : World) : Except Panic (Option Error × World) :=
  let ((clusters, err), w1) := DescribeCluster w.interClusterName svc w
  match err with
  | some e => .ok (some e, w1)
  | none =>
    match clusters with
    | [] => .error .indexOutOfRange
    | cluster :: _ =>
      match printCluster cluster w1 with
      | .error p => .error p
      | .ok w2 => .ok (none, w2)

/-- The function `doListContainerInstances`. -/
def doListContainerInstances (svc : ECS) (w : World) : Except Panic (Option Error × World) :=
  let ((instanceArns, err), w1) := GetContainerInstances w.interClusterName svc w
  match err with
  | some e => .ok (some e, w1)
  | none =>
    let w2 := w1.print (toString instanceArns.length ++ " instances for cluster \"" ++
      w1.interClusterName ++ "\"\n")
    .ok (none, printNumbered "\n" instanceArns 0 w2)

/-- The function `doDescribeContainerInstance`. -/
def doDescribeContainerInstance (sdk : Sdk) (svc : ECS) (w : World) :
    Except Panic (Option Error × World) :=
  match GetContainerInstanceDescription w.interClusterName w.interContainerArn svc w with
  | .error p => .error p
  | .ok ((ciMap, err), w1) =>
    match err with
    | some e => .ok (some e, w1)
    | none =>
      match ContainerInstanceMapToString sdk ciMap with
      | .error p => .error p
      | .ok text => .ok (none, w1.print (text ++ "\n"))

/-- The function `doDescribeAllContainerInstances`. -/
def doDescribeAllContainerInstances (sdk : Sdk) (svc : ECS) (w : World) :
    Except Panic (Option Error × World) :=
  match GetAllContainerInstanceDescriptions w.interClusterName svc w with
  | .error p => .error p
  | .ok ((ciMap, err), w1) =>
    match err with
    | some e => .ok (some e, w1)
    | none =>
      if ciMap.length ≤ 0 then
        .ok (none, w1.print ("There are no containers for: " ++ w1.interClusterName ++ ".\n"))
      else
        match ContainerInstanceMapToString sdk ciMap with
        | .error p => .error p
        | .ok text => .ok (none, w1.print (text ++ "\n"))

/-- The function `doNewContainerInstance`. -/
def doNewContainerInstance (awsConfig : AwsConfig) (w : World) :
    Except Panic (Option Error × World) :=
  let ((resp, err), w1) := LaunchContainerInstance w.interClusterName awsConfig.ec2Svc w
  match err with
  | some e => .ok (some e, w1)
  | none =>
    let text := match resp with
      | some r => r.text
      | none => "<nil>"
    .ok (none, w1.print (text ++ "\n"))

/-- The function `doTerminateContainerInstance`. -/
def doTerminateContainerInstance (svc : ECS) (awsConfig : AwsConfig) (w : World) :
    Except Panic (Option Error × World) :=
  match TerminateContainerInstance w.interClusterName w.interContainerArn svc awsConfig.ec2Svc w
    with
  | .error p => .error p
  | .ok ((resp, err), w1) =>
    match err with
    | some e => .ok (some e, w1)
    | none =>
      let w2 := w1.print ("Terminated container instance " ++ w1.interContainerArn ++ ".\n")
      let text := match resp with
        | some r => r.text
        | none => "<nil>"
      .ok (none, w2.print (text ++ "\n"))

/-- The loop of `doListTasks`, at index `i`. -/
def doListTasksLoop (tasksMap : ContainerTaskMap) : List String → Nat → World → Except Panic World
  | [], _, w => .ok w
  | arn :: rest, i, w =>
    match tasksMap.get arn with
    | none => .error .nilDereference
    | some containerTask =>
      match collectContainerNames containerTask.Task with
      | .error p => .error p
      | .ok names =>
        let w1 := w.print (toString (i + 1) ++ ": " ++ names ++ "\n")
        doListTasksLoop tasksMap rest (i + 1) (w1.print ("\t" ++ arn ++ ".\n"))

/-- The function `doListTasks`.  The error of the first adapter call is
overwritten by the second call. -/
def doListTasks (svc : ECS) (w : World) : Except Panic (Option Error × World) :=
  let ((arns, _), w1) := ListTasksForCluster w.interClusterName svc w
  match GetAllTaskDescriptions w1.interClusterName svc w1 with
  | .error p => .error p
  | .ok ((tasksMap, err), w2) =>
    match err with
    | some e => .ok (some e, w2)
    | none =>
      let w3 := w2.print ("There are (" ++ toString arns.length ++ ") tasks for cluster: " ++
        w2.interClusterName ++ "\n")
      match doListTasksLoop tasksMap arns 0 w3 with
      | .error p => .error p
      | .ok w4 => .ok (none, w4)

/-- The function `doDescribeAllTasks`. -/
def doDescribeAllTasks (sdk : Sdk) (svc : ECS) (w : World) : Except Panic (Option Error × World) :=
  match GetAllTaskDescriptions w.interClusterName svc w with
  | .error p => .error p
  | .ok ((resp, err), w1) =>
    match err with
    | some e => .ok (some e, w1)
    | none =>
      if resp.length ≤ 0 then
        .ok (none, w1.print ("No tasks for " ++ w1.interClusterName ++ ".\n"))
      else
        match ContainerTaskMapToString sdk resp with
        | .error p => .error p
        | .ok text => .ok (none, w1.print text)

/-- The function `doListTaskDefinitions`. -/
def doListTaskDefinitions (svc : ECS) (w : World) : Except Panic (Option Error × World) :=
  let ((arns, err), w1) := ListTaskDefinitions svc w
  match err with
  | some e => .ok (some e, w1)
  | none =>
    let w2 := w1.print ("There are (" ++ toString arns.length ++ ") task definitions.\n")
    .ok (none, printNumbered ".\n" arns 0 w2)

/-- The function `doDescribeTaskDefinition`. -/
def doDescribeTaskDefinition (svc : ECS) (w : World) : Except Panic (Option Error × World) :=
  let ((taskDefinition, err), w1) := GetTaskDefinition w.interTaskDefinitionArn svc w
  match err with
  | some e => .ok (some e, w1)
  | none =>
    let text := match taskDefinition with
      | some d => d.text
      | none => "<nil>"
    .ok (none, w1.print (text ++ "\n"))

/-- The function `doRunTask`. -/
def doRunTask (sdk : Sdk) (svc : ECS) (w : World) : Except Panic (Option Error × World) :=
  let ((runTaskOut, err), w1) := RunTask w.interClusterName w.interTaskDefinitionArn svc w
  match err with
  | some e => .ok (some e, w1)
  | none =>
    let w2 := w1.print ("There were (" ++ toString runTaskOut.Failures.length ++
      ") failures running the task.\n")
    let w3 := printNumbered ".\n" (runTaskOut.Failures.map sdk.failureString) 0 w2
    let w4 := w3.print ("There were (" ++ toString runTaskOut.Tasks.length ++ ") Tasks created.\n")
    let w5 := printNumbered ".\n" (runTaskOut.Tasks.map sdk.taskString) 0 w4
    .ok (none, OnTaskRunning w5.interClusterName w5.interTaskDefinitionArn w5)

/-- The function `doStopTask`. -/
def doStopTask (svc : ECS) (w : World) : Except Panic (Option Error × World) :=
  let w0 := w.print ("Stopping the task: " ++ w.interTaskArn ++ ".\n")
  let ((resp, err), w1) := StopTask w0.interClusterName w0.interTaskArn svc w0
  match err with
  | some e => .ok (some e, w1)
  | none =>
    let w2 := w1.print "This task is scheduled to stop.\n"
    match ContainerTaskDescriptionToString resp.Task with
    | .error p => .error p
    | .ok text =>
      let w3 := w2.print (text ++ "\n")
      .ok (none, OnTaskStopped w3.interClusterName w3.interTaskDefinitionArn w3)

/-- The function `toggleVerbose`. -/
def toggleVerbose (w : World) : Bool × World :=
  let w1 := { w with iVerbose := !w.iVerbose }
  (w1.iVerbose, w1)

/-- The function `doVerbose`. -/
def doVerbose (w : World) : Except Panic (Option Error × World) :=
  let (verbose, w1) := toggleVerbose w
  if verbose then
    .ok (none, { w1.print "Verbose is on.\n" with logLevel := Level.DEBUG })
  else
    .ok (none, { w1.print "Verbose is off.\n" with logLevel := Level.ERROR })

/-- The function `doQuit`. -/
def doQuit (w : World) : Except Panic (Option Error × World) := .ok (some .EOF, w)

/-! ## `interactive/interactive.go`: parsing and the prompt loop -/

/-- The white space of Go's `unicode.IsSpace`. -/
def isSpace (c : Char) : Bool :=
  let n := c.toNat
  (9 ≤ n && n ≤ 13) || n = 32 || n = 0x85 || n = 0xA0 || n = 0x1680 ||
    (0x2000 ≤ n && n ≤ 0x200A) || n = 0x2028 || n = 0x2029 || n = 0x202F || n = 0x205F ||
    n = 0x3000

/-- The call `strings.TrimRight(line, "\n")`. -/
def TrimRight (line : String) (cut : Char) : String :=
  String.mk (line.data.reverse.dropWhile (fun c => c = cut)).reverse

/-- The scan of `strings.Fields`: `cur` is the field being read, reversed, and
`acc` the fields read so far, last first. -/
def FieldsLoop : List Char → List Char → List String → List String
  | [], cur, acc => (if cur = [] then acc else String.mk cur.reverse :: acc).reverse
  | c :: cs, cur, acc =>
    if isSpace c then
      FieldsLoop cs [] (if cur = [] then acc else String.mk cur.reverse :: acc)
    else FieldsLoop cs (c :: cur) acc

/-- The function `strings.Fields`: the maximal runs of characters that are not
white space. -/
def Fields (line : String) : List String := FieldsLoop line.data [] []

/-- The package variables that `init` binds to positional arguments with
`StringVar`. -/
inductive Var where
  | interClusterName
  | interContainerArn
  | interTaskDefinitionArn
  | interTaskArn
  deriving DecidableEq, Repr

/-- Store the parsed arguments in the package variables they are bound to. -/
def World.setValues : World → List (Var × String) → World
  | w, [] => w
  | w, (.interClusterName, v) :: rest => World.setValues { w with interClusterName := v } rest
  | w, (.interContainerArn, v) :: rest => World.setValues { w with interContainerArn := v } rest
  | w, (.interTaskDefinitionArn, v) :: rest =>
    World.setValues { w with interTaskDefinitionArn := v } rest
  | w, (.interTaskArn, v) :: rest => World.setValues { w with interTaskArn := v } rest

/-- What a call of `Parse` of the kingpin library hands back for a list of
fields: the full name of the selected command and the error, and the values it
stores in the package variables bound with `StringVar` (it stores the values it
has read also when it then reports an error). -/
abbrev ParseResult := (String × Option Error) × List (Var × String)

/-- The kingpin library, taken as given on the lines that `init` does not settle:
lines with a field that starts with `-` (flags, the `--help` that kingpin adds,
`--` as the end of the flags) or with `@` (arguments read from a file), the
`help` command that kingpin adds, and every line that is not a declared command
followed by exactly its required arguments (whether it is rejected, with which
error, and which values are stored before the error).  `Terminate(doTerminate)`
makes the library return where it would leave the program.  The answer is a
function of the fields: the bound arguments are single strings, which each call
overwrites, and a file named by an `@` field is taken not to change during a
run.  The usage and help text that the library writes itself goes to its own
writer, which `init` leaves at the standard error stream; it is not recorded. -/
structure Kingpin where
  Parse : List String → ParseResult

/-- The result of `Parse` for a declared command with its arguments: no error,
the arguments stored. -/
def selected (command : String) (values : List (Var × String)) : ParseResult :=
  ((command, none), values)

/-- The grammar that `init` declares.  For a line that is a declared command
followed by exactly its required positional arguments, no field starting with
`-` or `@`, kingpin selects the command and stores the arguments; every other
line is answered by the library (`interApp`).  (`task-definition describe` takes
one argument, although its help text speaks of all definitions.) -/
def parseFields (interApp : Kingpin) (fields : List String) : ParseResult :=
  if fields.any (fun f => f.data.head? = some '-' || f.data.head? = some '@') then
    interApp.Parse fields
  else
    match fields with
    | ["verbose"] => selected "verbose" []
    | ["exit"] => selected "exit" []
    | ["quit"] => selected "quit" []
    | ["cluster", "list"] => selected "cluster list" []
    | ["cluster", "describe", clusterName] =>
      selected "cluster describe" [(.interClusterName, clusterName)]
    | ["container", "list", clusterName] =>
      selected "container list" [(.interClusterName, clusterName)]
    | ["container", "describe", clusterName, instanceArn] =>
      selected "container describe"
        [(.interClusterName, clusterName), (.interContainerArn, instanceArn)]
    | ["container", "describe-all", clusterName] =>
      selected "container describe-all" [(.interClusterName, clusterName)]
    | ["container", "new", clusterName] =>
      selected "container new" [(.interClusterName, clusterName)]
    | ["container", "stop", clusterName, instanceArn] =>
      selected "container stop"
        [(.interClusterName, clusterName), (.interContainerArn, instanceArn)]
    | ["task", "list", clusterName] => selected "task list" [(.interClusterName, clusterName)]
    | ["task", "describe-all", clusterName] =>
      selected "task describe-all" [(.interClusterName, clusterName)]
    | ["task", "run", clusterName, taskDefinition] =>
      selected "task run"
        [(.interClusterName, clusterName), (.interTaskDefinitionArn, taskDefinition)]
    | ["task", "stop", clusterName, taskArn] =>
      selected "task stop" [(.interClusterName, clusterName), (.interTaskArn, taskArn)]
    | ["task-definition", "list"] => selected "task-definition list" []
    | ["task-definition", "describe", taskDefinitionArn] =>
      selected "task-definition describe" [(.interTaskDefinitionArn, taskDefinitionArn)]
    | _ => interApp.Parse fields

/-- The call `interApp.Parse(fields)`: the command and the error, with the values
stored in the package variables. -/
def Parse (interApp : Kingpin) (fields : List String) (w : World) :
    (String × Option Error) × World :=
  let (result, values) := parseFields interApp fields
  (result, w.setValues values)

/-- The `switch` of `doICommand` on the full name of the selected command; `err`
stays nil when no case applies. -/
def doICommandSwitch (sdk : Sdk) (command : String) (svc : ECS) (awsConfig : AwsConfig)
    (w : World) : Except Panic (Option Error × World) :=
  if command = "verbose" then doVerbose w
  else if command = "exit" then doQuit w
  else if command = "quit" then doQuit w
  else if command = "cluster list" then doListClusters svc w
  else if command = "cluster describe" then doDescribeCluster svc w
  else if command = "task list" then doListTasks svc w
  else if command = "task describe-all" then doDescribeAllTasks sdk svc w
  else if command = "container list" then doListContainerInstances svc w
  else if command = "container describe" then doDescribeContainerInstance sdk svc w
  else if command = "container describe-all" then doDescribeAllContainerInstances sdk svc w
  else if command = "container new" then doNewContainerInstance awsConfig w
  else if command = "container stop" then doTerminateContainerInstance svc awsConfig w
  else if command = "task-definition list" then doListTaskDefinitions svc w
  else if command = "task-definition describe" then doDescribeTaskDefinition svc w
  else if command = "task run" then doRunTask sdk svc w
  else if command = "task stop" then doStopTask svc w
  else .ok (none, w)

/-- The function `doICommand`. -/
def doICommand (interApp : Kingpin) (sdk : Sdk) (line : String) (svc : ECS)
    (awsConfig : AwsConfig) (w : World) : Except Panic (Option Error × World) :=
  let w0 := { w with interTestString := [] }
  let fields := Fields (TrimRight line '\n')
  if fields.length ≤ 0 then .ok (none, w0)
  else
    let ((command, err), w1) := Parse interApp fields w0
    match err with
    | some e =>
      .ok (none,
        w1.print ("Command error: " ++ e.text ++ ".\nType help for a list of commands.\n"))
    | none => doICommandSwitch sdk command svc awsConfig w1

/-- One answer of `readline.String`: the line and the error. -/
abbrev Read := String × Option Error

/-- One pass through the body of the loop of `promptLoop`, for one answer of
`readline.String`: the new value of `moreCommands` and the world after it. -/
def promptStep (process : String → World → Except Panic (Option Error × World)) (read : Read)
    (w : World) : Except Panic (Bool × World) :=
  match read.2 with
  | some e =>
    if e = .EOF then .ok (false, w)
    else .ok (true, w.print ("Error - " ++ e.text ++ ".\n"))
  | none =>
    match process read.1 { w with history := w.history ++ [read.1] } with
    | .error p => .error p
    | .ok (some e, w1) =>
      if e = .EOF then .ok (false, w1)
      else .ok (true, w1.print ("Error - " ++ e.text ++ ".\n"))
    | .ok (none, w1) => .ok (true, w1)

/-- Where `promptLoop` stands after the answers of `readline.String` supplied so
far: whether it still loops (`moreCommands`; it then waits for the next line),
the answers it has not consumed, and the world. -/
structure LoopState where
  moreCommands : Bool
  unread : List Read
  world : World
  deriving DecidableEq, Repr

/-- The function `promptLoop`, run on a finite script of answers of
`readline.String`. -/
def promptLoop (prompt : String) (process : String → World → Except Panic (Option Error × World)) :
    List Read → World → Except Panic LoopState
  | [], w => .ok { moreCommands := true, unread := [], world := w }
  | read :: rest, w =>
    match promptStep process read w with
    | .error p => .error p
    | .ok (moreCommands, w1) =>
      if moreCommands then promptLoop prompt process rest w1
      else .ok { moreCommands := false, unread := rest, world := w1 }

/-- The function `DoInteractive`, on a script of answers of `readline.String`. -/
def DoInteractive (interApp : Kingpin) (sdk : Sdk) (svc : ECS) (config : AwsConfig)
    (reads : List Read) (w : World) : Except Panic LoopState :=
  promptLoop "> " (fun line => doICommand interApp sdk line svc config) reads w

/-! ## Vocabulary of the statements about the merge -/

/-- The last element of a list that satisfies `p`, if there is one. -/
def lastWith {α : Type} (p : α → Bool) : List α → Option α
  | [] => none
  | a :: rest =>
    match lastWith p rest with
    | some b => some b
    | none => if p a then some a else none

/-- The last described instance of a list that carries the identifier `k`. -/
def lastInstance (S : List EcsContainerInstance) (k : String) : Option EcsContainerInstance :=
  lastWith (fun i => decide (i.ContainerInstanceArn = some k)) S

/-- The last failure of a list that carries the identifier `k`. -/
def lastFailure (F : List Failure) (k : String) : Option Failure :=
  lastWith (fun f => decide (f.Arn = some k)) F

/-- The success parts present in the entries of an instance map. -/
def ContainerInstanceMap.successParts (m : ContainerInstanceMap) : List EcsContainerInstance :=
  m.filterMap (fun e => e.2.Instance)

/-- The failure parts present in the entries of an instance map. -/
def ContainerInstanceMap.failureParts (m : ContainerInstanceMap) : List Failure :=
  m.filterMap (fun e => e.2.Failure)

/-- An entry of a task map corresponds to an entry of an instance map under a
relation `R` between tasks and instances: same key, success parts related by `R`
(or both absent), same failure part. -/
def EntryRel (R : Task → EcsContainerInstance → Prop) (a : String × ContainerTask)
    (b : String × ContainerInstance) : Prop :=
  a.1 = b.1 ∧ Option.Rel R a.2.Task b.2.Instance ∧ a.2.Failure = b.2.Failure

/-- Two merge results correspond under `R`: both are the same panic, or both are
maps whose entries correspond one by one. -/
def ResultRel (R : Task → EcsContainerInstance → Prop) :
    Except Panic ContainerTaskMap → Except Panic ContainerInstanceMap → Prop
  | .ok ctMap, .ok ciMap => List.Forall₂ (EntryRel R) ctMap ciMap
  | .error p, .error q => p = q
  | _, _ => False

/-- The entry the merge rule prescribes for an identifier whose last success
record is `s` and whose last failure is `f`: no entry when both are missing. -/
def mergedEntry (s : Option EcsContainerInstance) (f : Option Failure) :
    Option ContainerInstance :=
  match s, f with
  | none, none => none
  | s, f => some { Instance := s, Failure := f }

/-! ## Vocabulary of the statements about the shell -/

/-- The orchestration service never answers with the error value `io.EOF`. -/
def ECS.NeverEOF (svc : ECS) : Prop :=
  (∀ past n, (svc.ListClusters past n).2 ≠ some .EOF) ∧
  (∀ past cs, (svc.DescribeClusters past cs).2 ≠ some .EOF) ∧
  (∀ past c n, (svc.ListContainerInstances past c n).2 ≠ some .EOF) ∧
  (∀ past c is, (svc.DescribeContainerInstances past c is).2 ≠ some .EOF) ∧
  (∀ past c n, (svc.ListTasks past c n).2 ≠ some .EOF) ∧
  (∀ past c ts, (svc.DescribeTasks past c ts).2 ≠ some .EOF) ∧
  (∀ past c d n, (svc.RunTask past c d n).2 ≠ some .EOF) ∧
  (∀ past c t, (svc.StopTask past c t).2 ≠ some .EOF) ∧
  (∀ past n, (svc.ListTaskDefinitions past n).2 ≠ some .EOF) ∧
  (∀ past d, (svc.DescribeTaskDefinition past d).2 ≠ some .EOF)

/-- The host service never answers with the error value `io.EOF`. -/
def EC2.NeverEOF (ec2Svc : EC2) : Prop :=
  (∀ past i, (ec2Svc.TerminateInstances past i).2 ≠ some .EOF) ∧
  (∀ past c, (ec2Svc.RunInstances past c).2 ≠ some .EOF)

/-- The command that `doICommand` dispatches for a line: none for a blank line
and for a line that the parser rejects. -/
def selectedCommand (interApp : Kingpin) (line : String) : Option String :=
  let fields := Fields (TrimRight line '\n')
  if fields.length ≤ 0 then none
  else
    match (parseFields interApp fields).1 with
    | (command, none) => some command
    | (_, some _) => none

/-- An answer of `readline.String` that is the end-of-input signal, or a line
that selects the command `exit` or `quit`. -/
def Read.isEndOrQuit (interApp : Kingpin) (read : Read) : Prop :=
  read.2 = some .EOF ∨
    (read.2 = none ∧
      (selectedCommand interApp read.1 = some "exit" ∨
        selectedCommand interApp read.1 = some "quit"))

/-- The world after `doVerbose` has run twice. -/
def doVerboseTwice (w : World) : Except Panic World :=
  match doVerbose w with
  | .error p => .error p
  | .ok (_, w1) =>
    match doVerbose w1 with
    | .error p => .error p
    | .ok (_, w2) => .ok w2

/-! ## Sample responses -/

/-- A described instance with identifier `a`. -/
def sampleInstanceA : EcsContainerInstance :=
  { ContainerInstanceArn := some "a", Ec2InstanceId := some "i-1" }

/-- A second record for identifier `a`, on another host. -/
def sampleInstanceA2 : EcsContainerInstance :=
  { ContainerInstanceArn := some "a", Ec2InstanceId := some "i-2" }

/-- A described instance with identifier `c`. -/
def sampleInstanceC : EcsContainerInstance :=
  { ContainerInstanceArn := some "c", Ec2InstanceId := some "i-3" }

/-- A failure for identifier `a`. -/
def sampleFailureA : Failure := { Arn := some "a", Reason := some "MISSING" }

/-- A failure for identifier `b`. -/
def sampleFailureB : Failure := { Arn := some "b", Reason := some "MISSING" }

/-- A described task with identifier `a`. -/
def sampleTaskA : Task := { TaskArn := some "a", ClusterArn := some "cl" }

/-- A describe response with a repeated identifier, an identifier on both lists
and an identifier on the failure list only. -/
def sampleDcio : DescribeContainerInstancesOutput :=
  { ContainerInstances := [sampleInstanceA, sampleInstanceC, sampleInstanceA2],
    Failures := [sampleFailureA, sampleFailureB] }

/-- The map the merge builds from `sampleDcio`. -/
def sampleCiMap : ContainerInstanceMap :=
  [("a", { Instance := some sampleInstanceA2, Failure := some sampleFailureA }),
   ("c", { Instance := some sampleInstanceC, Failure := none }),
   ("b", { Instance := none, Failure := some sampleFailureB })]

/-- A task response shaped like `sampleDcio`. -/
def sampleDto : DescribeTasksOutput :=
  { Tasks := [sampleTaskA], Failures := [sampleFailureA, sampleFailureB] }

/-- The map the merge builds from `sampleDto`. -/
def sampleCtMap : ContainerTaskMap :=
  [("a", { Task := some sampleTaskA, Failure := some sampleFailureA }),
   ("b", { Task := none, Failure := some sampleFailureB })]

/-- The error with which the sample library rejects a line; the wording of the
kingpin library is not reproduced. -/
def parseError (fields : List String) : Error :=
  .msg ("cannot parse '" ++ " ".intercalate fields ++ "'")

/-- A sample behaviour of the library: it rejects every line that `init` does not
settle, and stores nothing. -/
def rejectingKingpin : Kingpin where
  Parse := fun fields => (("", some (parseError fields)), [])

/-- A sample behaviour of the library that knows the flag `--help`: on
`quit --help` it selects `quit`; it rejects every other line that `init` does
not settle. -/
def helpingKingpin : Kingpin where
  Parse := fun fields =>
    if fields = ["quit", "--help"] then (("quit", none), [])
    else (("", some (parseError fields)), [])

/-- A remote service that answers every request with an empty response and no
error. -/
def quietSvc : ECS where
  ListClusters := fun _ _ => ({}, none)
  DescribeClusters := fun _ _ => ({}, none)
  ListContainerInstances := fun _ _ _ => ({}, none)
  DescribeContainerInstances := fun _ _ _ => ({}, none)
  ListTasks := fun _ _ _ => ({}, none)
  DescribeTasks := fun _ _ _ => ({}, none)
  RunTask := fun _ _ _ _ => ({}, none)
  StopTask := fun _ _ _ => ({}, none)
  ListTaskDefinitions := fun _ _ => ({}, none)
  DescribeTaskDefinition := fun _ _ => ({}, none)

/-- A host service that answers every request with a response and no error. -/
def quietEc2 : EC2 where
  TerminateInstances := fun _ _ => (some { text := "terminated" }, none)
  RunInstances := fun _ _ => (some { text := "launched" }, none)

/-- The quiet service, except that every describe call for container instances
succeeds with the response `d`. -/
def describingSvc (d : DescribeContainerInstancesOutput) : ECS :=
  { quietSvc with DescribeContainerInstances := fun _ _ _ => (d, none) }

/-- The quiet service, except that every list request for container instances
succeeds with one identifier: a cluster with an instance and no task. -/
def instancesOnlySvc : ECS :=
  { quietSvc with
    ListContainerInstances := fun _ _ _ => ({ ContainerInstanceArns := ["arn:ci:1"] }, none) }

/-- The orchestration service that answers the list request for clusters with
the error value `io.EOF`, and every other request like the quiet service. -/
def eofSvc : ECS := { quietSvc with ListClusters := fun _ _ => ({}, some .EOF) }

/-- String methods for the samples. -/
def sampleSdk : Sdk := { failureString := fun _ => "failure", taskString := fun _ => "task" }

/-- Where the loop stands after the lines `verbose`, `quit --help`, `verbose` with
the quiet services and the library that knows `--help`: stopped after the second
line. -/
def sampleQuitState : LoopState :=
  { moreCommands := false, unread := [("verbose", none)],
    world := { out := ["Verbose is on.\n"], history := ["verbose", "quit --help"],
               iVerbose := true } }

/-- Where the loop stands after the lines `cluster list`, `verbose` when the
list request is answered with `io.EOF`: stopped after the first line. -/
def sampleEofState : LoopState :=
  { moreCommands := false, unread := [("verbose", none)],
    world := { calls := [.ListClusters 100], history := ["cluster list"] } }

/-- The quiet service, except that every list request for clusters succeeds with
the identifiers `arns`. -/
def listingSvc (arns : List String) : ECS :=
  { quietSvc with ListClusters := fun _ _ => ({ ClusterArns := arns }, none) }

/-- The quiet service, except that every list request for tasks succeeds with
the identifiers `arns` and every describe request for tasks with `dto`. -/
def taskSvc (arns : List String) (dto : DescribeTasksOutput) : ECS :=
  { quietSvc with
    ListTasks := fun _ _ _ => ({ TaskArns := arns }, none)
    DescribeTasks := fun _ _ _ => (dto, none) }

/-- A task with every field that the shell prints unguarded. -/
def sampleStoppedTask : Task :=
  { TaskArn := some "arn:task:123", ClusterArn := some "arn:cluster:mycluster",
    ContainerInstanceArn := some "arn:ci:1" }

/-- The quiet service, except that every stop request succeeds and hands back
the task `t`. -/
def stoppingSvc (t : Task) : ECS :=
  { quietSvc with StopTask := fun _ _ _ => ({ Task := some t }, none) }

/-! ## Vocabulary of the statements about the formatting functions -/

/-- Every field of the cluster that `printCluster` reads is present. -/
def EcsCluster.complete (c : EcsCluster) : Bool :=
  c.ClusterName.isSome && c.ClusterArn.isSome && c.RegisteredContainerInstancesCount.isSome &&
    c.PendingTasksCount.isSome && c.RunningTasksCount.isSome && c.ActiveServicesCount.isSome &&
    c.Status.isSome

/-- The type of the resource is present, and so is the value field that
`resourceValue` reads for that type. -/
def Resource.valuePresent (r : Resource) : Bool :=
  match r.Type_ with
  | none => false
  | some t =>
    if t = "INTEGER" then r.IntegerValue.isSome
    else if t = "DOUBLE" then r.DoubleValue.isSome
    else if t = "LONG" then r.LongValue.isSome
    else true

/-- The name of the resource and the value for its type are present. -/
def Resource.complete (r : Resource) : Bool := r.Name.isSome && r.valuePresent

/-- The name of the attribute is present; its value may be absent. -/
def Attribute.complete (a : Attribute) : Bool := a.Name.isSome

/-- Every field that `ContainerInstanceDescriptionToString` reads unguarded is
present; `AgentUpdateStatus` may be absent. -/
def EcsContainerInstance.complete (c : EcsContainerInstance) : Bool :=
  c.ContainerInstanceArn.isSome && c.Ec2InstanceId.isSome && c.Status.isSome &&
    c.RunningTasksCount.isSome && c.PendingTasksCount.isSome &&
    c.RegisteredResources.all Resource.complete && c.RemainingResources.all Resource.complete &&
    c.AgentConnected.isSome && c.Attributes.all Attribute.complete

/-- Every field of the network binding is present. -/
def NetworkBinding.complete (n : NetworkBinding) : Bool :=
  n.BindIP.isSome && n.ContainerPort.isSome && n.HostPort.isSome && n.Protocol.isSome

/-- Every field of the sub-container that `ContainerTaskDescriptionToString`
reads unguarded is present; `Reason` and `ExitCode` may be absent. -/
def Container.complete (c : Container) : Bool :=
  c.Name.isSome && c.ContainerArn.isSome && c.TaskArn.isSome && c.LastStatus.isSome &&
    c.NetworkBindings.all NetworkBinding.complete

/-- Every field of the task that `ContainerTaskDescriptionToString` reads
unguarded is present. -/
def Task.complete (t : Task) : Bool :=
  t.TaskArn.isSome && t.ClusterArn.isSome && t.ContainerInstanceArn.isSome &&
    t.Containers.all Container.complete

/-- The instances described in the map are complete. -/
def ContainerInstanceMap.complete (m : ContainerInstanceMap) : Bool :=
  m.all (fun e => match e.2.Instance with
    | some i => i.complete
    | none => true)

/-- The tasks described in the map are complete. -/
def ContainerTaskMap.complete (m : ContainerTaskMap) : Bool :=
  m.all (fun e => match e.2.Task with
    | some t => t.complete
    | none => true)

/-- A sub-container that has not exited: no reason and no exit code. -/
def samplePendingContainer : Container :=
  { Name := some "web", ContainerArn := some "arn:container:1", TaskArn := some "arn:task:123",
    LastStatus := some "PENDING" }

/-- A complete task with that sub-container. -/
def samplePendingTask : Task :=
  { TaskArn := some "arn:task:123", ClusterArn := some "arn:cluster:mycluster",
    ContainerInstanceArn := some "arn:ci:1", Containers := [samplePendingContainer] }

/-- A sub-container that has exited, with a reason, an exit code and a network
binding. -/
def sampleExitedContainer : Container :=
  { Name := some "init", ContainerArn := some "arn:container:0", TaskArn := some "arn:task:123",
    Reason := some "done", LastStatus := some "STOPPED", ExitCode := some 0,
    NetworkBindings := [{ BindIP := some "0.0.0.0", ContainerPort := some 80,
                          HostPort := some 8080, Protocol := some "tcp" }] }

/-- A complete task with an exited sub-container followed by one that has not
exited. -/
def sampleMixedTask : Task :=
  { TaskArn := some "arn:task:123", ClusterArn := some "arn:cluster:mycluster",
    ContainerInstanceArn := some "arn:ci:1",
    Containers := [sampleExitedContainer, samplePendingContainer] }

/-- A complete instance whose agent was never asked to update, with an attribute
without value. -/
def sampleFullInstance : EcsContainerInstance :=
  { ContainerInstanceArn := some "arn:ci:1", Ec2InstanceId := some "i-1", Status := some "ACTIVE",
    RunningTasksCount := some 1, PendingTasksCount := some 0,
    RegisteredResources := [{ Name := some "CPU", Type_ := some "INTEGER", IntegerValue := some 1024 }],
    AgentConnected := some true, Attributes := [{ Name := some "ecs.ami-id" }] }

/-- An orchestration service with a transient fault: the first request it gets,
a list request for tasks, is answered with an error; later list requests are
answered with the identifier `arn:task:123` and describe requests with the
description of that task. -/
def flakyTaskSvc : ECS :=
  { quietSvc with
    ListTasks := fun past _ _ =>
      if past = [] then ({}, some (.msg "RequestError: send request failed"))
      else ({ TaskArns := ["arn:task:123"] }, none)
    DescribeTasks := fun _ _ _ => ({ Tasks := [samplePendingTask] }, none) }

/-! ## Lemmas on maps -/

theorem GoMap.get_set {α : Type} (m : GoMap α) (k k' : String) (v : α) :
    (m.set k v).get k' = if k = k' then some v else m.get k' := by
  induction m with
  | nil => simp [GoMap.set, GoMap.get]
  | cons hd tl ih =>
    obtain ⟨a, b⟩ := hd
    by_cases h : a = k
    · subst h
      by_cases h' : a = k' <;> simp [GoMap.set, GoMap.get, h']
    · by_cases h' : a = k'
      · subst h'
        have : ¬ k = a := fun e => h e.symm
        simp [GoMap.set, GoMap.get, h, this]
      · simp [GoMap.set, GoMap.get, h, h', ih]

theorem GoMap.mem_set {α : Type} (m : GoMap α) (k : String) (v : α) (x : String × α)
    (hx : x ∈ m.set k v) : x = (k, v) ∨ x ∈ m := by
  induction m with
  | nil => simpa [GoMap.set] using hx
  | cons hd tl ih =>
    obtain ⟨a, b⟩ := hd
    by_cases h : a = k
    · simp [GoMap.set, h] at hx
      rcases hx with hx | hx
      · exact Or.inl hx
      · exact Or.inr (List.mem_cons_of_mem _ hx)
    · simp [GoMap.set, h] at hx
      rcases hx with hx | hx
      · exact Or.inr (by simp [hx])
      · rcases ih hx with h1 | h1
        · exact Or.inl h1
        · exact Or.inr (List.mem_cons_of_mem _ h1)

theorem GoMap.get_eq_some_of_mem {α : Type} (m : GoMap α) (hm : m.keys.Nodup) (k : String)
    (v : α) (h : (k, v) ∈ m) : m.get k = some v := by
  induction m with
  | nil => simp at h
  | cons hd tl ih =>
    obtain ⟨a, b⟩ := hd
    simp [GoMap.keys] at hm
    rcases List.mem_cons.mp h with h | h
    · cases h
      simp [GoMap.get]
    · have hne : ¬ a = k := by
        intro e
        subst e
        exact hm.1 v h
      simp only [GoMap.get, hne, if_false]
      exact ih (by simpa [GoMap.keys] using hm.2) h

theorem GoMap.mem_of_get_eq_some {α : Type} (m : GoMap α) (k : String) (v : α)
    (h : m.get k = some v) : (k, v) ∈ m := by
  induction m with
  | nil => simp [GoMap.get] at h
  | cons hd tl ih =>
    obtain ⟨a, b⟩ := hd
    by_cases hk : a = k
    · simp [GoMap.get, hk] at h
      simp [hk, h]
    · simp [GoMap.get, hk] at h
      exact List.mem_cons_of_mem _ (ih h)

theorem GoMap.mem_keys_iff {α : Type} (m : GoMap α) (k : String) :
    k ∈ m.keys ↔ ∃ v, m.get k = some v := by
  induction m with
  | nil => simp [GoMap.keys, GoMap.get]
  | cons hd tl ih =>
    obtain ⟨a, b⟩ := hd
    by_cases hk : a = k
    · simp [GoMap.keys, GoMap.get, hk]
    · have hk' : ¬ k = a := fun e => hk e.symm
      simp only [GoMap.keys, List.map_cons, List.mem_cons, hk', false_or, GoMap.get, hk,
        if_false]
      exact ih

theorem GoMap.keys_set_nodup {α : Type} (m : GoMap α) (k : String) (v : α)
    (hm : m.keys.Nodup) : (m.set k v).keys.Nodup := by
  induction m with
  | nil => simp [GoMap.set, GoMap.keys]
  | cons hd tl ih =>
    obtain ⟨a, b⟩ := hd
    simp only [GoMap.keys, List.map_cons, List.nodup_cons] at hm
    by_cases h : a = k
    · subst h
      simpa [GoMap.set, GoMap.keys] using hm
    · simp only [GoMap.set, h, if_false, GoMap.keys, List.map_cons, List.nodup_cons]
      refine ⟨?_, ih hm.2⟩
      intro hmem
      obtain ⟨x, hx, hxa⟩ := List.mem_map.mp hmem
      rcases GoMap.mem_set tl k v x hx with h1 | h1
      · subst h1
        exact h hxa.symm
      · exact hm.1 (List.mem_map.mpr ⟨x, h1, hxa⟩)

/-! ## Lemmas on `lastWith` -/

theorem lastWith_some {α : Type} (p : α → Bool) (l : List α) (a : α)
    (h : lastWith p l = some a) : a ∈ l ∧ p a = true := by
  induction l with
  | nil => simp [lastWith] at h
  | cons hd tl ih =>
    unfold lastWith at h
    cases hr : lastWith p tl with
    | some b =>
      rw [hr] at h
      simp only [Option.some.injEq] at h
      subst h
      exact ⟨List.mem_cons_of_mem _ (ih hr).1, (ih hr).2⟩
    | none =>
      rw [hr] at h
      by_cases hp : p hd = true
      · simp [hp] at h
        subst h
        exact ⟨List.mem_cons_self _ _, hp⟩
      · simp [hp] at h

theorem lastWith_none {α : Type} (p : α → Bool) (l : List α)
    (h : lastWith p l = none) : ∀ x ∈ l, p x = false := by
  induction l with
  | nil => simp
  | cons hd tl ih =>
    unfold lastWith at h
    cases hr : lastWith p tl with
    | some b => rw [hr] at h; simp at h
    | none =>
      rw [hr] at h
      by_cases hp : p hd = true
      · simp [hp] at h
      · intro x hx
        rcases List.mem_cons.mp hx with hx | hx
        · subst hx
          simpa using hp
        · exact ih hr x hx

/-- The function `lastWith` picks the last element of the sublist of the elements
that satisfy `p`. -/
theorem lastWith_eq_getLast? {α : Type} (p : α → Bool) (l : List α) :
    lastWith p l = (l.filter p).getLast? := by
  induction l with
  | nil => simp [lastWith]
  | cons hd tl ih =>
    unfold lastWith
    rw [ih]
    by_cases hp : p hd = true
    · rw [List.filter_cons_of_pos hp, List.getLast?_cons]
      cases h : (tl.filter p).getLast? <;> simp [hp]
    · rw [List.filter_cons_of_neg hp]
      cases h : (tl.filter p).getLast? <;> simp [hp]

theorem lastWith_eq_of_iff {α : Type} (p : α → Bool) (l : List α) (o : Option α)
    (h : ∀ x, (x ∈ l ∧ p x = true) ↔ o = some x) : lastWith p l = o := by
  cases hr : lastWith p l with
  | some b => exact ((h b).mp (lastWith_some p l b hr)).symm
  | none =>
    cases o with
    | none => rfl
    | some x =>
      have hx := (h x).mpr rfl
      have := lastWith_none p l hr x hx.1
      rw [this] at hx
      exact absurd hx.2 (by simp)

theorem lastWith_isSome_iff {α : Type} (p : α → Bool) (l : List α) :
    (∃ a, lastWith p l = some a) ↔ ∃ x ∈ l, p x = true := by
  constructor
  · rintro ⟨a, ha⟩
    exact ⟨a, lastWith_some p l a ha⟩
  · rintro ⟨x, hx, hpx⟩
    cases hr : lastWith p l with
    | some b => exact ⟨b, rfl⟩
    | none =>
      have := lastWith_none p l hr x hx
      rw [this] at hpx
      exact absurd hpx (by simp)

/-! ## The two loops of the instance merge -/

theorem lastInstance_cons (hd : EcsContainerInstance) (tl : List EcsContainerInstance)
    (k : String) :
    lastInstance (hd :: tl) k = match lastInstance tl k with
      | some b => some b
      | none => if hd.ContainerInstanceArn = some k then some hd else none := by
  unfold lastInstance
  rw [lastWith]
  cases lastWith (fun i => decide (i.ContainerInstanceArn = some k)) tl <;> simp

theorem lastFailure_cons (hd : Failure) (tl : List Failure) (k : String) :
    lastFailure (hd :: tl) k = match lastFailure tl k with
      | some b => some b
      | none => if hd.Arn = some k then some hd else none := by
  unfold lastFailure
  rw [lastWith]
  cases lastWith (fun f => decide (f.Arn = some k)) tl <;> simp

theorem ciInstancesLoop_get (S : List EcsContainerInstance) (m m' : ContainerInstanceMap)
    (k : String) (h : ciInstancesLoop S m = .ok m') :
    m'.get k = match lastInstance S k with
      | some i => some { Instance := some i, Failure := none }
      | none => m.get k := by
  induction S generalizing m with
  | nil =>
    simp only [ciInstancesLoop, Except.ok.injEq] at h
    subst h
    simp [lastInstance, lastWith]
  | cons hd tl ih =>
    unfold ciInstancesLoop at h
    cases ha : hd.ContainerInstanceArn with
    | none => rw [ha] at h; simp at h
    | some arn =>
      rw [ha] at h
      simp only at h
      rw [ih _ h, lastInstance_cons]
      cases hr : lastInstance tl k with
      | some b => rfl
      | none =>
        simp only [GoMap.get_set, ha, Option.some.injEq]
        by_cases hk : arn = k <;> simp [hk]

theorem ciInstancesLoop_nodup (S : List EcsContainerInstance) (m m' : ContainerInstanceMap)
    (h : ciInstancesLoop S m = .ok m') (hm : m.keys.Nodup) : m'.keys.Nodup := by
  induction S generalizing m with
  | nil =>
    simp only [ciInstancesLoop, Except.ok.injEq] at h
    subst h
    exact hm
  | cons hd tl ih =>
    unfold ciInstancesLoop at h
    cases ha : hd.ContainerInstanceArn with
    | none => rw [ha] at h; simp at h
    | some arn =>
      rw [ha] at h
      exact ih _ h (GoMap.keys_set_nodup _ _ _ hm)

theorem ciInstancesLoop_ok_iff (S : List EcsContainerInstance) (m : ContainerInstanceMap) :
    (∃ m', ciInstancesLoop S m = .ok m') ↔ ∀ i ∈ S, i.ContainerInstanceArn ≠ none := by
  induction S generalizing m with
  | nil => simp [ciInstancesLoop]
  | cons hd tl ih =>
    unfold ciInstancesLoop
    cases ha : hd.ContainerInstanceArn with
    | none => simp [ha]
    | some arn => simp [ha, ih]

theorem ciFailuresLoop_get (F : List Failure) (m m' : ContainerInstanceMap)
    (k : String) (h : ciFailuresLoop F m = .ok m') :
    m'.get k = match lastFailure F k with
      | some f => some { Instance := (m.get k).bind (fun e => e.Instance), Failure := some f }
      | none => m.get k := by
  induction F generalizing m with
  | nil =>
    simp only [ciFailuresLoop, Except.ok.injEq] at h
    subst h
    simp [lastFailure, lastWith]
  | cons hd tl ih =>
    unfold ciFailuresLoop at h
    cases ha : hd.Arn with
    | none => rw [ha] at h; simp at h
    | some arn =>
      rw [ha] at h
      simp only at h
      cases hg : m.get arn with
      | none =>
        rw [hg] at h
        simp only at h
        rw [ih _ h, lastFailure_cons]
        cases hr : lastFailure tl k with
        | some b =>
          simp only [GoMap.get_set]
          by_cases hk : arn = k
          · subst hk; simp [hg]
          · simp [hk]
        | none =>
          simp only [GoMap.get_set, ha, Option.some.injEq]
          by_cases hk : arn = k
          · subst hk; simp [hg]
          · simp [hk]
      | some ci =>
        rw [hg] at h
        simp only at h
        rw [ih _ h, lastFailure_cons]
        cases hr : lastFailure tl k with
        | some b =>
          simp only [GoMap.get_set]
          by_cases hk : arn = k
          · subst hk; simp [hg]
          · simp [hk]
        | none =>
          simp only [GoMap.get_set, ha, Option.some.injEq]
          by_cases hk : arn = k
          · subst hk; simp [hg]
          · simp [hk]

theorem ciFailuresLoop_nodup (F : List Failure) (m m' : ContainerInstanceMap)
    (h : ciFailuresLoop F m = .ok m') (hm : m.keys.Nodup) : m'.keys.Nodup := by
  induction F generalizing m with
  | nil =>
    simp only [ciFailuresLoop, Except.ok.injEq] at h
    subst h
    exact hm
  | cons hd tl ih =>
    unfold ciFailuresLoop at h
    cases ha : hd.Arn with
    | none => rw [ha] at h; simp at h
    | some arn =>
      rw [ha] at h
      simp only at h
      cases hg : m.get arn with
      | none =>
        rw [hg] at h
        exact ih _ h (GoMap.keys_set_nodup _ _ _ hm)
      | some ci =>
        rw [hg] at h
        exact ih _ h (GoMap.keys_set_nodup _ _ _ hm)

theorem ciFailuresLoop_ok_iff (F : List Failure) (m : ContainerInstanceMap) :
    (∃ m', ciFailuresLoop F m = .ok m') ↔ ∀ f ∈ F, f.Arn ≠ none := by
  induction F generalizing m with
  | nil => simp [ciFailuresLoop]
  | cons hd tl ih =>
    unfold ciFailuresLoop
    cases ha : hd.Arn with
    | none => simp [ha]
    | some arn =>
      cases hg : m.get arn with
      | none => simp [ha, hg, ih]
      | some ci => simp [ha, hg, ih]

/-! ## The instance merge as a whole -/

theorem makeCIMap_ok_iff (dcio : DescribeContainerInstancesOutput) :
    (∃ m, makeCIMapFromDescribeContainerInstancesOutput dcio = .ok m) ↔
      (∀ i ∈ dcio.ContainerInstances, i.ContainerInstanceArn ≠ none) ∧
      (∀ f ∈ dcio.Failures, f.Arn ≠ none) := by
  unfold makeCIMapFromDescribeContainerInstancesOutput
  cases h : ciInstancesLoop dcio.ContainerInstances [] with
  | error p =>
    have h1 := (ciInstancesLoop_ok_iff dcio.ContainerInstances []).not
    simp only [h, exists_false, not_false_eq_true, true_iff, reduceCtorEq] at h1
    simp only [exists_false, reduceCtorEq, false_iff]
    exact fun hh => h1 hh.1
  | ok m1 =>
    have h1 := (ciInstancesLoop_ok_iff dcio.ContainerInstances []).mp ⟨m1, h⟩
    simp only [ciFailuresLoop_ok_iff]
    exact ⟨fun hh => ⟨h1, hh⟩, fun hh => hh.2⟩

theorem makeCIMap_get (dcio : DescribeContainerInstancesOutput) (m : ContainerInstanceMap)
    (k : String) (h : makeCIMapFromDescribeContainerInstancesOutput dcio = .ok m) :
    m.get k = mergedEntry (lastInstance dcio.ContainerInstances k)
      (lastFailure dcio.Failures k) := by
  unfold makeCIMapFromDescribeContainerInstancesOutput at h
  cases h1 : ciInstancesLoop dcio.ContainerInstances [] with
  | error p => rw [h1] at h; simp at h
  | ok m1 =>
    rw [h1] at h
    simp only at h
    rw [ciFailuresLoop_get _ _ _ k h, ciInstancesLoop_get _ _ _ k h1]
    cases lastInstance dcio.ContainerInstances k <;>
      cases lastFailure dcio.Failures k <;> simp [mergedEntry, GoMap.get]

theorem makeCIMap_nodup (dcio : DescribeContainerInstancesOutput) (m : ContainerInstanceMap)
    (h : makeCIMapFromDescribeContainerInstancesOutput dcio = .ok m) : m.keys.Nodup := by
  unfold makeCIMapFromDescribeContainerInstancesOutput at h
  cases h1 : ciInstancesLoop dcio.ContainerInstances [] with
  | error p => rw [h1] at h; simp at h
  | ok m1 =>
    rw [h1] at h
    exact ciFailuresLoop_nodup _ _ _ h
      (ciInstancesLoop_nodup _ _ _ h1 (by simp [GoMap.keys]))

theorem lastInstance_eq_some_iff_exists (S : List EcsContainerInstance) (k : String) :
    (∃ i, lastInstance S k = some i) ↔ ∃ i ∈ S, i.ContainerInstanceArn = some k := by
  unfold lastInstance
  rw [lastWith_isSome_iff]
  simp

theorem lastFailure_eq_some_iff_exists (F : List Failure) (k : String) :
    (∃ f, lastFailure F k = some f) ↔ ∃ f ∈ F, f.Arn = some k := by
  unfold lastFailure
  rw [lastWith_isSome_iff]
  simp

theorem lastInstance_arn (S : List EcsContainerInstance) (k : String) (i : EcsContainerInstance)
    (h : lastInstance S k = some i) : i ∈ S ∧ i.ContainerInstanceArn = some k := by
  have := lastWith_some _ _ _ h
  simpa using this

theorem lastFailure_arn (F : List Failure) (k : String) (f : Failure)
    (h : lastFailure F k = some f) : f ∈ F ∧ f.Arn = some k := by
  have := lastWith_some _ _ _ h
  simpa using this

theorem mergedEntry_eq_some_iff (s : Option EcsContainerInstance) (f : Option Failure) :
    (∃ e, mergedEntry s f = some e) ↔ (∃ i, s = some i) ∨ (∃ g, f = some g) := by
  cases s <;> cases f <;> simp [mergedEntry]

/-! ## Entries always carry one of their two parts -/

theorem ciInstancesLoop_inv (S : List EcsContainerInstance) (m m' : ContainerInstanceMap)
    (h : ciInstancesLoop S m = .ok m')
    (hm : ∀ x ∈ m, x.2.Instance ≠ none ∨ x.2.Failure ≠ none) :
    ∀ x ∈ m', x.2.Instance ≠ none ∨ x.2.Failure ≠ none := by
  induction S generalizing m with
  | nil =>
    simp only [ciInstancesLoop, Except.ok.injEq] at h
    subst h
    exact hm
  | cons hd tl ih =>
    unfold ciInstancesLoop at h
    cases ha : hd.ContainerInstanceArn with
    | none => rw [ha] at h; simp at h
    | some arn =>
      rw [ha] at h
      refine ih _ h ?_
      intro x hx
      rcases GoMap.mem_set _ _ _ _ hx with h1 | h1
      · subst h1; simp
      · exact hm x h1

theorem ciFailuresLoop_inv (F : List Failure) (m m' : ContainerInstanceMap)
    (h : ciFailuresLoop F m = .ok m')
    (hm : ∀ x ∈ m, x.2.Instance ≠ none ∨ x.2.Failure ≠ none) :
    ∀ x ∈ m', x.2.Instance ≠ none ∨ x.2.Failure ≠ none := by
  induction F generalizing m with
  | nil =>
    simp only [ciFailuresLoop, Except.ok.injEq] at h
    subst h
    exact hm
  | cons hd tl ih =>
    unfold ciFailuresLoop at h
    cases ha : hd.Arn with
    | none => rw [ha] at h; simp at h
    | some arn =>
      rw [ha] at h
      simp only at h
      cases hg : m.get arn with
      | none =>
        rw [hg] at h
        refine ih _ h ?_
        intro x hx
        rcases GoMap.mem_set _ _ _ _ hx with h1 | h1
        · subst h1; simp
        · exact hm x h1
      | some ci =>
        rw [hg] at h
        refine ih _ h ?_
        intro x hx
        rcases GoMap.mem_set _ _ _ _ hx with h1 | h1
        · subst h1; simp
        · exact hm x h1

theorem ctTasksLoop_inv (T : List Task) (m m' : ContainerTaskMap)
    (h : ctTasksLoop T m = .ok m')
    (hm : ∀ x ∈ m, x.2.Task ≠ none ∨ x.2.Failure ≠ none) :
    ∀ x ∈ m', x.2.Task ≠ none ∨ x.2.Failure ≠ none := by
  induction T generalizing m with
  | nil =>
    simp only [ctTasksLoop, Except.ok.injEq] at h
    subst h
    exact hm
  | cons hd tl ih =>
    unfold ctTasksLoop at h
    cases ha : hd.TaskArn with
    | none => rw [ha] at h; simp at h
    | some arn =>
      rw [ha] at h
      refine ih _ h ?_
      intro x hx
      rcases GoMap.mem_set _ _ _ _ hx with h1 | h1
      · subst h1; simp
      · exact hm x h1

theorem ctFailuresLoop_inv (F : List Failure) (m m' : ContainerTaskMap)
    (h : ctFailuresLoop F m = .ok m')
    (hm : ∀ x ∈ m, x.2.Task ≠ none ∨ x.2.Failure ≠ none) :
    ∀ x ∈ m', x.2.Task ≠ none ∨ x.2.Failure ≠ none := by
  induction F generalizing m with
  | nil =>
    simp only [ctFailuresLoop, Except.ok.injEq] at h
    subst h
    exact hm
  | cons hd tl ih =>
    unfold ctFailuresLoop at h
    cases ha : hd.Arn with
    | none => rw [ha] at h; simp at h
    | some arn =>
      rw [ha] at h
      simp only at h
      cases hg : m.get arn with
      | none =>
        rw [hg] at h
        refine ih _ h ?_
        intro x hx
        rcases GoMap.mem_set _ _ _ _ hx with h1 | h1
        · subst h1; simp
        · exact hm x h1
      | some ct =>
        rw [hg] at h
        refine ih _ h ?_
        intro x hx
        rcases GoMap.mem_set _ _ _ _ hx with h1 | h1
        · subst h1; simp
        · exact hm x h1

/-! ## The task merge runs exactly when the identifiers are present -/

theorem ctTasksLoop_ok_iff (T : List Task) (m : ContainerTaskMap) :
    (∃ m', ctTasksLoop T m = .ok m') ↔ ∀ t ∈ T, t.TaskArn ≠ none := by
  induction T generalizing m with
  | nil => simp [ctTasksLoop]
  | cons hd tl ih =>
    unfold ctTasksLoop
    cases ha : hd.TaskArn with
    | none => simp [ha]
    | some arn => simp [ha, ih]

theorem ctFailuresLoop_ok_iff (F : List Failure) (m : ContainerTaskMap) :
    (∃ m', ctFailuresLoop F m = .ok m') ↔ ∀ f ∈ F, f.Arn ≠ none := by
  induction F generalizing m with
  | nil => simp [ctFailuresLoop]
  | cons hd tl ih =>
    unfold ctFailuresLoop
    cases ha : hd.Arn with
    | none => simp [ha]
    | some arn =>
      cases hg : m.get arn with
      | none => simp [ha, hg, ih]
      | some ci => simp [ha, hg, ih]

theorem makeCTMap_ok_iff (dto : DescribeTasksOutput) :
    (∃ m, makeCTMapFromDescribeTasksOutput dto = .ok m) ↔
      (∀ t ∈ dto.Tasks, t.TaskArn ≠ none) ∧ (∀ f ∈ dto.Failures, f.Arn ≠ none) := by
  unfold makeCTMapFromDescribeTasksOutput
  cases h : ctTasksLoop dto.Tasks [] with
  | error p =>
    have h1 := (ctTasksLoop_ok_iff dto.Tasks []).not
    simp only [h, exists_false, not_false_eq_true, true_iff, reduceCtorEq] at h1
    simp only [exists_false, reduceCtorEq, false_iff]
    exact fun hh => h1 hh.1
  | ok m1 =>
    have h1 := (ctTasksLoop_ok_iff dto.Tasks []).mp ⟨m1, h⟩
    simp only [ctFailuresLoop_ok_iff]
    exact ⟨fun hh => ⟨h1, hh⟩, fun hh => hh.2⟩

/-! ## The task merge mirrors the instance merge -/

theorem EntryRel_get (R : Task → EcsContainerInstance → Prop) (m1 : ContainerTaskMap)
    (m2 : ContainerInstanceMap) (h : List.Forall₂ (EntryRel R) m1 m2) (k : String) :
    Option.Rel (fun a b => Option.Rel R a.Task b.Instance ∧ a.Failure = b.Failure)
      (m1.get k) (m2.get k) := by
  induction h with
  | nil => exact Option.Rel.none
  | @cons a b l1 l2 hab _ ih =>
    obtain ⟨k1, v1⟩ := a
    obtain ⟨k2, v2⟩ := b
    obtain ⟨hk, hv⟩ := hab
    simp only at hk hv
    subst hk
    by_cases hkk : k1 = k
    · simp only [GoMap.get, hkk, if_true]
      exact Option.Rel.some hv
    · simp only [GoMap.get, hkk, if_false]
      exact ih

theorem EntryRel_set (R : Task → EcsContainerInstance → Prop) (m1 : ContainerTaskMap)
    (m2 : ContainerInstanceMap) (h : List.Forall₂ (EntryRel R) m1 m2) (k : String)
    (v1 : ContainerTask) (v2 : ContainerInstance)
    (hv : Option.Rel R v1.Task v2.Instance ∧ v1.Failure = v2.Failure) :
    List.Forall₂ (EntryRel R) (m1.set k v1) (m2.set k v2) := by
  induction h with
  | nil => exact List.Forall₂.cons ⟨rfl, hv⟩ List.Forall₂.nil
  | @cons a b l1 l2 hab hl ih =>
    obtain ⟨k1, w1⟩ := a
    obtain ⟨k2, w2⟩ := b
    obtain ⟨hk, hw⟩ := hab
    simp only at hk hw
    subst hk
    by_cases hkk : k1 = k
    · simp only [GoMap.set, hkk, if_true]
      exact List.Forall₂.cons ⟨rfl, hv⟩ hl
    · simp only [GoMap.set, hkk, if_false]
      exact List.Forall₂.cons ⟨rfl, hw⟩ ih

theorem failuresLoop_rel (R : Task → EcsContainerInstance → Prop) (F : List Failure)
    (m1 : ContainerTaskMap) (m2 : ContainerInstanceMap)
    (h : List.Forall₂ (EntryRel R) m1 m2) :
    ResultRel R (ctFailuresLoop F m1) (ciFailuresLoop F m2) := by
  induction F generalizing m1 m2 with
  | nil => exact h
  | cons hd tl ih =>
    unfold ctFailuresLoop ciFailuresLoop
    cases ha : hd.Arn with
    | none => simp [ResultRel]
    | some arn =>
      simp only
      have hg := EntryRel_get R m1 m2 h arn
      cases h1 : m1.get arn with
      | none =>
        cases h2 : m2.get arn with
        | none =>
          simp only
          exact ih _ _ (EntryRel_set R m1 m2 h arn _ _ ⟨Option.Rel.none, rfl⟩)
        | some c2 => rw [h1, h2] at hg; cases hg
      | some c1 =>
        cases h2 : m2.get arn with
        | none => rw [h1, h2] at hg; cases hg
        | some c2 =>
          rw [h1, h2] at hg
          cases hg with
          | some hr =>
            simp only
            exact ih _ _ (EntryRel_set R m1 m2 h arn _ _ ⟨hr.1, rfl⟩)

theorem successLoop_rel (R : Task → EcsContainerInstance → Prop)
    (hR : ∀ t i, R t i → t.TaskArn = i.ContainerInstanceArn)
    (T : List Task) (S : List EcsContainerInstance) (hTS : List.Forall₂ R T S)
    (F : List Failure) (m1 : ContainerTaskMap) (m2 : ContainerInstanceMap)
    (h : List.Forall₂ (EntryRel R) m1 m2) :
    ResultRel R
      (match ctTasksLoop T m1 with
        | .error p => .error p
        | .ok ctMap => ctFailuresLoop F ctMap)
      (match ciInstancesLoop S m2 with
        | .error p => .error p
        | .ok ciMap => ciFailuresLoop F ciMap) := by
  induction hTS generalizing m1 m2 with
  | nil =>
    simp only [ctTasksLoop, ciInstancesLoop]
    exact failuresLoop_rel R F m1 m2 h
  | @cons t i T' S' hti _ ih =>
    unfold ctTasksLoop ciInstancesLoop
    have harn := hR t i hti
    cases ha : i.ContainerInstanceArn with
    | none =>
      rw [ha] at harn
      simp [harn, ResultRel]
    | some arn =>
      rw [ha] at harn
      simp only [harn]
      exact ih _ _ (EntryRel_set R m1 m2 h arn _ _ ⟨Option.Rel.some hti, rfl⟩)

/-! ## Re-merging the parts of a merged map -/

theorem mergedEntry_some (s : Option EcsContainerInstance) (f : Option Failure)
    (e : ContainerInstance) (h : mergedEntry s f = some e) :
    e.Instance = s ∧ e.Failure = f := by
  cases s <;> cases f <;> simp [mergedEntry] at h <;> subst h <;> simp

theorem makeCIMap_get_some (dcio : DescribeContainerInstancesOutput) (m : ContainerInstanceMap)
    (h : makeCIMapFromDescribeContainerInstancesOutput dcio = .ok m) (k : String)
    (e : ContainerInstance) (hk : m.get k = some e) :
    e.Instance = lastInstance dcio.ContainerInstances k ∧
      e.Failure = lastFailure dcio.Failures k ∧ mergedEntry e.Instance e.Failure = some e := by
  have hg := makeCIMap_get dcio m k h
  rw [hk] at hg
  have h1 := mergedEntry_some _ _ _ hg.symm
  refine ⟨h1.1, h1.2, ?_⟩
  rw [h1.1, h1.2]
  exact hg.symm

theorem successParts_lastInstance (dcio : DescribeContainerInstancesOutput)
    (m : ContainerInstanceMap)
    (h : makeCIMapFromDescribeContainerInstancesOutput dcio = .ok m)
    (S' : List EcsContainerInstance) (hS : S'.Perm m.successParts) (k : String) :
    lastInstance S' k = (m.get k).bind (fun e => e.Instance) := by
  unfold lastInstance
  apply lastWith_eq_of_iff
  intro x
  have hnd := makeCIMap_nodup dcio m h
  constructor
  · rintro ⟨hx, hp⟩
    have hx' : x ∈ m.successParts := hS.mem_iff.mp hx
    obtain ⟨⟨k', e⟩, hmem, hi⟩ := List.mem_filterMap.mp hx'
    simp only at hi
    have hk' := GoMap.get_eq_some_of_mem m hnd k' e hmem
    have hfacts := makeCIMap_get_some dcio m h k' e hk'
    have harn := (lastInstance_arn _ _ _ (hfacts.1 ▸ hi)).2
    have hxk : x.ContainerInstanceArn = some k := by simpa using hp
    rw [hxk] at harn
    simp only [Option.some.injEq] at harn
    subst harn
    simp [hk', hi]
  · intro hb
    cases hk : m.get k with
    | none => rw [hk] at hb; simp at hb
    | some e =>
      rw [hk] at hb
      simp only [Option.some_bind] at hb
      have hmem := GoMap.mem_of_get_eq_some m k e hk
      have hfacts := makeCIMap_get_some dcio m h k e hk
      refine ⟨hS.mem_iff.mpr (List.mem_filterMap.mpr ⟨(k, e), hmem, hb⟩), ?_⟩
      have harn := (lastInstance_arn _ _ _ (hfacts.1 ▸ hb)).2
      simpa using harn

theorem failureParts_lastFailure (dcio : DescribeContainerInstancesOutput)
    (m : ContainerInstanceMap)
    (h : makeCIMapFromDescribeContainerInstancesOutput dcio = .ok m)
    (F' : List Failure) (hF : F'.Perm m.failureParts) (k : String) :
    lastFailure F' k = (m.get k).bind (fun e => e.Failure) := by
  unfold lastFailure
  apply lastWith_eq_of_iff
  intro x
  have hnd := makeCIMap_nodup dcio m h
  constructor
  · rintro ⟨hx, hp⟩
    have hx' : x ∈ m.failureParts := hF.mem_iff.mp hx
    obtain ⟨⟨k', e⟩, hmem, hi⟩ := List.mem_filterMap.mp hx'
    simp only at hi
    have hk' := GoMap.get_eq_some_of_mem m hnd k' e hmem
    have hfacts := makeCIMap_get_some dcio m h k' e hk'
    have harn := (lastFailure_arn _ _ _ (hfacts.2.1 ▸ hi)).2
    have hxk : x.Arn = some k := by simpa using hp
    rw [hxk] at harn
    simp only [Option.some.injEq] at harn
    subst harn
    simp [hk', hi]
  · intro hb
    cases hk : m.get k with
    | none => rw [hk] at hb; simp at hb
    | some e =>
      rw [hk] at hb
      simp only [Option.some_bind] at hb
      have hmem := GoMap.mem_of_get_eq_some m k e hk
      have hfacts := makeCIMap_get_some dcio m h k e hk
      refine ⟨hF.mem_iff.mpr (List.mem_filterMap.mpr ⟨(k, e), hmem, hb⟩), ?_⟩
      have harn := (lastFailure_arn _ _ _ (hfacts.2.1 ▸ hb)).2
      simpa using harn

theorem parts_have_identifiers (dcio : DescribeContainerInstancesOutput)
    (m : ContainerInstanceMap)
    (h : makeCIMapFromDescribeContainerInstancesOutput dcio = .ok m) :
    (∀ i ∈ m.successParts, i.ContainerInstanceArn ≠ none) ∧
      (∀ f ∈ m.failureParts, f.Arn ≠ none) := by
  have hnd := makeCIMap_nodup dcio m h
  constructor
  · intro x hx
    obtain ⟨⟨k', e⟩, hmem, hi⟩ := List.mem_filterMap.mp hx
    simp only at hi
    have hfacts := makeCIMap_get_some dcio m h k' e (GoMap.get_eq_some_of_mem m hnd k' e hmem)
    rw [(lastInstance_arn _ _ _ (hfacts.1 ▸ hi)).2]
    simp
  · intro x hx
    obtain ⟨⟨k', e⟩, hmem, hi⟩ := List.mem_filterMap.mp hx
    simp only at hi
    have hfacts := makeCIMap_get_some dcio m h k' e (GoMap.get_eq_some_of_mem m hnd k' e hmem)
    rw [(lastFailure_arn _ _ _ (hfacts.2.1 ▸ hi)).2]
    simp

/-! ## The merge rule: the statements -/

theorem sample_merge : makeCIMapFromDescribeContainerInstancesOutput sampleDcio = .ok sampleCiMap := by
  rfl

theorem sample_task_merge : makeCTMapFromDescribeTasksOutput sampleDto = .ok sampleCtMap := by
  rfl

/-- C1: when every described instance and every failure carries its identifier,
`makeCIMapFromDescribeContainerInstancesOutput` returns a map whose keys are
exactly the identifiers of the success list together with those of the failure
list. -/
theorem makeCIMap_keys_eq_union (S : List EcsContainerInstance) (F : List Failure)
    (hS : ∀ i ∈ S, i.ContainerInstanceArn ≠ none) (hF : ∀ f ∈ F, f.Arn ≠ none) :
    ∃ m, makeCIMapFromDescribeContainerInstancesOutput
        { ContainerInstances := S, Failures := F } = .ok m ∧
      ∀ k, k ∈ m.keys ↔
        (∃ i ∈ S, i.ContainerInstanceArn = some k) ∨ (∃ f ∈ F, f.Arn = some k) := by
  obtain ⟨m, hm⟩ := (makeCIMap_ok_iff { ContainerInstances := S, Failures := F }).mpr ⟨hS, hF⟩
  refine ⟨m, hm, fun k => ?_⟩
  rw [GoMap.mem_keys_iff, makeCIMap_get _ m k hm, mergedEntry_eq_some_iff,
    lastInstance_eq_some_iff_exists, lastFailure_eq_some_iff_exists]

theorem makeCIMap_keys_eq_union_witness :
    (∀ i ∈ [sampleInstanceA, sampleInstanceC], i.ContainerInstanceArn ≠ none) ∧
    (∀ f ∈ [sampleFailureB], f.Arn ≠ none) ∧
    ∃ m, makeCIMapFromDescribeContainerInstancesOutput
        { ContainerInstances := [sampleInstanceA, sampleInstanceC],
          Failures := [sampleFailureB] } = .ok m ∧
      ∀ k, k ∈ m.keys ↔
        (∃ i ∈ [sampleInstanceA, sampleInstanceC], i.ContainerInstanceArn = some k) ∨
          (∃ f ∈ [sampleFailureB], f.Arn = some k) :=
  ⟨by decide, by decide,
    makeCIMap_keys_eq_union [sampleInstanceA, sampleInstanceC] [sampleFailureB]
      (by decide) (by decide)⟩

/-- C2: in every map built by `makeCIMapFromDescribeContainerInstancesOutput` or
by `makeCTMapFromDescribeTasksOutput`, each entry has its success part or its
failure part present. -/
theorem merged_entry_has_a_part (dcio : DescribeContainerInstancesOutput)
    (dto : DescribeTasksOutput) :
    (∀ m, makeCIMapFromDescribeContainerInstancesOutput dcio = .ok m →
      ∀ k e, (k, e) ∈ m → e.Instance ≠ none ∨ e.Failure ≠ none) ∧
    (∀ m, makeCTMapFromDescribeTasksOutput dto = .ok m →
      ∀ k e, (k, e) ∈ m → e.Task ≠ none ∨ e.Failure ≠ none) := by
  constructor
  · intro m h k e hmem
    unfold makeCIMapFromDescribeContainerInstancesOutput at h
    cases h1 : ciInstancesLoop dcio.ContainerInstances [] with
    | error p => rw [h1] at h; simp at h
    | ok m1 =>
      rw [h1] at h
      exact ciFailuresLoop_inv _ _ _ h
        (ciInstancesLoop_inv _ _ _ h1 (by simp)) (k, e) hmem
  · intro m h k e hmem
    unfold makeCTMapFromDescribeTasksOutput at h
    cases h1 : ctTasksLoop dto.Tasks [] with
    | error p => rw [h1] at h; simp at h
    | ok m1 =>
      rw [h1] at h
      exact ctFailuresLoop_inv _ _ _ h
        (ctTasksLoop_inv _ _ _ h1 (by simp)) (k, e) hmem

theorem merged_entry_has_a_part_witness :
    (makeCIMapFromDescribeContainerInstancesOutput sampleDcio = .ok sampleCiMap ∧
      ("b", ({ Instance := none, Failure := some sampleFailureB } : ContainerInstance))
        ∈ sampleCiMap ∧
      ((none : Option EcsContainerInstance) ≠ none ∨ some sampleFailureB ≠ none)) ∧
    (makeCTMapFromDescribeTasksOutput sampleDto = .ok sampleCtMap ∧
      ("b", ({ Task := none, Failure := some sampleFailureB } : ContainerTask))
        ∈ sampleCtMap ∧
      ((none : Option Task) ≠ none ∨ some sampleFailureB ≠ none)) :=
  ⟨⟨rfl, by decide,
      (merged_entry_has_a_part sampleDcio sampleDto).1 sampleCiMap rfl "b"
        { Instance := none, Failure := some sampleFailureB } (by decide)⟩,
    ⟨rfl, by decide,
      (merged_entry_has_a_part sampleDcio sampleDto).2 sampleCtMap rfl "b"
        { Task := none, Failure := some sampleFailureB } (by decide)⟩⟩

/-- C3: in the map returned by `makeCIMapFromDescribeContainerInstancesOutput`,
an identifier found only on the failure list has a failure-only entry, an
identifier found on both lists has the success record with the failure attached,
and an identifier found only on the success list has the record and no failure;
the parts are those of the last record of each list with that identifier. -/
theorem makeCIMap_entry (dcio : DescribeContainerInstancesOutput) (m : ContainerInstanceMap)
    (k : String) (h : makeCIMapFromDescribeContainerInstancesOutput dcio = .ok m) :
    ((∀ i ∈ dcio.ContainerInstances, i.ContainerInstanceArn ≠ some k) →
      (∃ f ∈ dcio.Failures, f.Arn = some k) →
      ∃ f, (dcio.Failures.filter (fun f => decide (f.Arn = some k))).getLast? = some f ∧
        m.get k = some { Instance := none, Failure := some f }) ∧
    ((∃ i ∈ dcio.ContainerInstances, i.ContainerInstanceArn = some k) →
      (∃ f ∈ dcio.Failures, f.Arn = some k) →
      ∃ i f,
        (dcio.ContainerInstances.filter
          (fun i => decide (i.ContainerInstanceArn = some k))).getLast? = some i ∧
        (dcio.Failures.filter (fun f => decide (f.Arn = some k))).getLast? = some f ∧
        m.get k = some { Instance := some i, Failure := some f }) ∧
    ((∃ i ∈ dcio.ContainerInstances, i.ContainerInstanceArn = some k) →
      (∀ f ∈ dcio.Failures, f.Arn ≠ some k) →
      ∃ i,
        (dcio.ContainerInstances.filter
          (fun i => decide (i.ContainerInstanceArn = some k))).getLast? = some i ∧
        m.get k = some { Instance := some i, Failure := none }) := by
  have hg := makeCIMap_get dcio m k h
  have hI := lastInstance_eq_some_iff_exists dcio.ContainerInstances k
  have hF := lastFailure_eq_some_iff_exists dcio.Failures k
  have eI : lastInstance dcio.ContainerInstances k = _ := lastWith_eq_getLast? _ _
  have eF : lastFailure dcio.Failures k = _ := lastWith_eq_getLast? _ _
  refine ⟨fun hno hf => ?_, fun hi hf => ?_, fun hi hno => ?_⟩
  · obtain ⟨f, hf'⟩ := hF.mpr hf
    have hnone : lastInstance dcio.ContainerInstances k = none := by
      cases hl : lastInstance dcio.ContainerInstances k with
      | none => rfl
      | some i =>
        obtain ⟨j, hj, hjk⟩ := hI.mp ⟨i, hl⟩
        exact absurd hjk (hno j hj)
    refine ⟨f, eF ▸ hf', ?_⟩
    rw [hg, hnone, hf']
    rfl
  · obtain ⟨f, hf'⟩ := hF.mpr hf
    obtain ⟨i, hi'⟩ := hI.mpr hi
    refine ⟨i, f, eI ▸ hi', eF ▸ hf', ?_⟩
    rw [hg, hi', hf']
    rfl
  · obtain ⟨i, hi'⟩ := hI.mpr hi
    have hnone : lastFailure dcio.Failures k = none := by
      cases hl : lastFailure dcio.Failures k with
      | none => rfl
      | some f =>
        obtain ⟨j, hj, hjk⟩ := hF.mp ⟨f, hl⟩
        exact absurd hjk (hno j hj)
    refine ⟨i, eI ▸ hi', ?_⟩
    rw [hg, hi', hnone]
    rfl

theorem makeCIMap_entry_witness :
    makeCIMapFromDescribeContainerInstancesOutput sampleDcio = .ok sampleCiMap ∧
    (∃ i ∈ sampleDcio.ContainerInstances, i.ContainerInstanceArn = some "a") ∧
    (∃ f ∈ sampleDcio.Failures, f.Arn = some "a") ∧
    ∃ i f,
      (sampleDcio.ContainerInstances.filter
        (fun i => decide (i.ContainerInstanceArn = some "a"))).getLast? = some i ∧
      (sampleDcio.Failures.filter (fun f => decide (f.Arn = some "a"))).getLast? = some f ∧
      sampleCiMap.get "a" = some { Instance := some i, Failure := some f } :=
  ⟨rfl, by decide, by decide,
    (makeCIMap_entry sampleDcio sampleCiMap "a" rfl).2.1 (by decide) (by decide)⟩

/-- C4, as stated, fails: a success record whose identifier is absent makes both
merge functions dereference a nil pointer, so no map is returned. -/
theorem merge_not_total :
    (makeCIMapFromDescribeContainerInstancesOutput
        { ContainerInstances := [{ Ec2InstanceId := some "i-1" }] } = .error .nilDereference ∧
      ¬ ∃ m, makeCIMapFromDescribeContainerInstancesOutput
        { ContainerInstances := [{ Ec2InstanceId := some "i-1" }] } = .ok m) ∧
    (makeCTMapFromDescribeTasksOutput
        { Tasks := [{ ClusterArn := some "cl" }] } = .error .nilDereference ∧
      ¬ ∃ m, makeCTMapFromDescribeTasksOutput
        { Tasks := [{ ClusterArn := some "cl" }] } = .ok m) := by
  refine ⟨⟨rfl, ?_⟩, ⟨rfl, ?_⟩⟩
  · rw [makeCIMap_ok_iff]
    simp
  · rw [makeCTMap_ok_iff]
    simp

/-- C4, amended: on every describe response whose success records and failure
records all carry their identifier, `makeCIMapFromDescribeContainerInstancesOutput`
and `makeCTMapFromDescribeTasksOutput` return a map. -/
theorem merge_total_of_identifiers (dcio : DescribeContainerInstancesOutput)
    (dto : DescribeTasksOutput)
    (h1 : ∀ i ∈ dcio.ContainerInstances, i.ContainerInstanceArn ≠ none)
    (h2 : ∀ f ∈ dcio.Failures, f.Arn ≠ none)
    (h3 : ∀ t ∈ dto.Tasks, t.TaskArn ≠ none)
    (h4 : ∀ f ∈ dto.Failures, f.Arn ≠ none) :
    (∃ m, makeCIMapFromDescribeContainerInstancesOutput dcio = .ok m) ∧
      (∃ m, makeCTMapFromDescribeTasksOutput dto = .ok m) :=
  ⟨(makeCIMap_ok_iff dcio).mpr ⟨h1, h2⟩, (makeCTMap_ok_iff dto).mpr ⟨h3, h4⟩⟩

theorem merge_total_of_identifiers_witness :
    (∀ i ∈ sampleDcio.ContainerInstances, i.ContainerInstanceArn ≠ none) ∧
    (∀ f ∈ sampleDcio.Failures, f.Arn ≠ none) ∧
    (∀ t ∈ sampleDto.Tasks, t.TaskArn ≠ none) ∧
    (∀ f ∈ sampleDto.Failures, f.Arn ≠ none) ∧
    (∃ m, makeCIMapFromDescribeContainerInstancesOutput sampleDcio = .ok m) ∧
      (∃ m, makeCTMapFromDescribeTasksOutput sampleDto = .ok m) :=
  ⟨by decide, by decide, by decide, by decide,
    merge_total_of_identifiers sampleDcio sampleDto (by decide) (by decide) (by decide)
      (by decide)⟩

/-- C5: the merge is idempotent.  When `m` is the map merged from a describe
response, merging any listing of the success parts of `m` with any listing of
the failure parts of `m` returns a map with the same entry as `m` under every
identifier (hence the same keys). -/
theorem merge_idempotent (dcio : DescribeContainerInstancesOutput) (m : ContainerInstanceMap)
    (h : makeCIMapFromDescribeContainerInstancesOutput dcio = .ok m)
    (S' : List EcsContainerInstance) (F' : List Failure)
    (hS : S'.Perm m.successParts) (hF : F'.Perm m.failureParts) :
    ∃ m', makeCIMapFromDescribeContainerInstancesOutput
        { ContainerInstances := S', Failures := F' } = .ok m' ∧
      (∀ k, m'.get k = m.get k) ∧ (∀ k, k ∈ m'.keys ↔ k ∈ m.keys) := by
  have hids := parts_have_identifiers dcio m h
  obtain ⟨m', hm'⟩ := (makeCIMap_ok_iff { ContainerInstances := S', Failures := F' }).mpr
    ⟨fun i hi => hids.1 i (hS.mem_iff.mp hi), fun f hf => hids.2 f (hF.mem_iff.mp hf)⟩
  have hget : ∀ k, m'.get k = m.get k := by
    intro k
    rw [makeCIMap_get _ m' k hm']
    simp only
    rw [successParts_lastInstance dcio m h S' hS k, failureParts_lastFailure dcio m h F' hF k]
    cases hk : m.get k with
    | none => rfl
    | some e => exact (makeCIMap_get_some dcio m h k e hk).2.2
  refine ⟨m', hm', hget, fun k => ?_⟩
  rw [GoMap.mem_keys_iff, GoMap.mem_keys_iff, hget]

theorem merge_idempotent_witness :
    makeCIMapFromDescribeContainerInstancesOutput sampleDcio = .ok sampleCiMap ∧
    [sampleInstanceC, sampleInstanceA2].Perm sampleCiMap.successParts ∧
    [sampleFailureB, sampleFailureA].Perm sampleCiMap.failureParts ∧
    ∃ m', makeCIMapFromDescribeContainerInstancesOutput
        { ContainerInstances := [sampleInstanceC, sampleInstanceA2],
          Failures := [sampleFailureB, sampleFailureA] } = .ok m' ∧
      (∀ k, m'.get k = sampleCiMap.get k) ∧ (∀ k, k ∈ m'.keys ↔ k ∈ sampleCiMap.keys) :=
  ⟨rfl, List.Perm.swap _ _ _, List.Perm.swap _ _ _,
    merge_idempotent sampleDcio sampleCiMap rfl [sampleInstanceC, sampleInstanceA2]
      [sampleFailureB, sampleFailureA] (List.Perm.swap _ _ _) (List.Perm.swap _ _ _)⟩

/-- C6: the task merge is the instance merge under the correspondence of tasks
with instances.  When the task list and the instance list correspond record by
record under a relation `R` that matches `TaskArn` with `ContainerInstanceArn`,
and the failure lists are equal, `makeCTMapFromDescribeTasksOutput` and
`makeCIMapFromDescribeContainerInstancesOutput` give corresponding results: the
same panic, or maps with the same keys, corresponding success parts and equal
failure parts, entry for entry. -/
theorem task_merge_mirrors_instance_merge (R : Task → EcsContainerInstance → Prop)
    (hR : ∀ t i, R t i → t.TaskArn = i.ContainerInstanceArn)
    (T : List Task) (S : List EcsContainerInstance) (F : List Failure)
    (hTS : List.Forall₂ R T S) :
    ResultRel R (makeCTMapFromDescribeTasksOutput { Tasks := T, Failures := F })
      (makeCIMapFromDescribeContainerInstancesOutput
        { ContainerInstances := S, Failures := F }) :=
  successLoop_rel R hR T S hTS F [] [] List.Forall₂.nil

theorem task_merge_mirrors_instance_merge_witness :
    (∀ t i, (fun (t : Task) (i : EcsContainerInstance) =>
        t.TaskArn = i.ContainerInstanceArn) t i → t.TaskArn = i.ContainerInstanceArn) ∧
    List.Forall₂ (fun (t : Task) (i : EcsContainerInstance) =>
        t.TaskArn = i.ContainerInstanceArn) [sampleTaskA] [sampleInstanceA] ∧
    ResultRel (fun t i => t.TaskArn = i.ContainerInstanceArn)
      (makeCTMapFromDescribeTasksOutput
        { Tasks := [sampleTaskA], Failures := [sampleFailureA, sampleFailureB] })
      (makeCIMapFromDescribeContainerInstancesOutput
        { ContainerInstances := [sampleInstanceA],
          Failures := [sampleFailureA, sampleFailureB] }) :=
  ⟨fun _ _ h => h, List.Forall₂.cons rfl List.Forall₂.nil,
    task_merge_mirrors_instance_merge (fun t i => t.TaskArn = i.ContainerInstanceArn)
      (fun _ _ h => h) [sampleTaskA] [sampleInstanceA] [sampleFailureA, sampleFailureB]
      (List.Forall₂.cons rfl List.Forall₂.nil)⟩

/-! ## The adapter functions: the statements -/

/-- C7: for every cluster name, service and state: when the list call for
container instances succeeds with zero identifiers,
`GetAllContainerInstanceDescriptions` returns an empty map and no error, and the
only request it has sent is that list request; and, independently, when the list
call for tasks succeeds with zero identifiers, `GetAllTaskDescriptions` returns
an empty map and no error, and the only request it has sent is that list
request.  In both cases no describe request is sent. -/
theorem describe_all_of_no_identifiers (clusterName : String) (svc : ECS) (w : World) :
    (svc.ListContainerInstances w.calls clusterName 100 =
        ({ ContainerInstanceArns := [] }, none) →
      GetAllContainerInstanceDescriptions clusterName svc w =
        .ok (([], none),
          { w with calls := w.calls ++ [.ListContainerInstances clusterName 100] })) ∧
    (svc.ListTasks w.calls clusterName 100 = ({ TaskArns := [] }, none) →
      GetAllTaskDescriptions clusterName svc w =
        .ok (([], none), { w with calls := w.calls ++ [.ListTasks clusterName 100] })) := by
  constructor
  · intro hci
    simp [GetAllContainerInstanceDescriptions, GetContainerInstances, hci, World.send]
  · intro hct
    simp [GetAllTaskDescriptions, ListTasksForCluster, hct, World.send]

theorem describe_all_of_no_identifiers_witness :
    ((taskSvc ["t1"] {}).ListContainerInstances ({} : World).calls "mycluster" 100 =
        ({ ContainerInstanceArns := [] }, none) ∧
      (taskSvc ["t1"] {}).ListTasks ({} : World).calls "mycluster" 100 =
        ({ TaskArns := ["t1"] }, none) ∧
      GetAllContainerInstanceDescriptions "mycluster" (taskSvc ["t1"] {}) {} =
        .ok (([], none), { ({} : World) with
          calls := ({} : World).calls ++ [.ListContainerInstances "mycluster" 100] })) ∧
    (instancesOnlySvc.ListTasks ({} : World).calls "mycluster" 100 = ({ TaskArns := [] }, none) ∧
      instancesOnlySvc.ListContainerInstances ({} : World).calls "mycluster" 100 =
        ({ ContainerInstanceArns := ["arn:ci:1"] }, none) ∧
      GetAllTaskDescriptions "mycluster" instancesOnlySvc {} =
        .ok (([], none), { ({} : World) with
          calls := ({} : World).calls ++ [.ListTasks "mycluster" 100] })) :=
  ⟨⟨rfl, rfl, (describe_all_of_no_identifiers "mycluster" (taskSvc ["t1"] {}) {}).1 rfl⟩,
    ⟨rfl, rfl, (describe_all_of_no_identifiers "mycluster" instancesOnlySvc {}).2 rfl⟩⟩

theorem getInstanceIdLoop_of_no_match (l : List EcsContainerInstance) (containerArn : String)
    (instanceId : Option String)
    (hids : ∀ i ∈ l, i.ContainerInstanceArn ≠ none)
    (hno : ∀ i ∈ l, i.ContainerInstanceArn ≠ some containerArn) :
    getInstanceIdLoop l containerArn instanceId = .ok instanceId := by
  induction l with
  | nil => rfl
  | cons hd tl ih =>
    unfold getInstanceIdLoop
    cases ha : hd.ContainerInstanceArn with
    | none => exact absurd ha (hids hd (List.mem_cons_self _ _))
    | some arn =>
      have hne : ¬ arn = containerArn := by
        intro e
        subst e
        exact hno hd (List.mem_cons_self _ _) ha
      simp only [hne, if_false]
      exact ih (fun i hi => hids i (List.mem_cons_of_mem _ hi))
        (fun i hi => hno i (List.mem_cons_of_mem _ hi))

/-- C8, as stated, fails: when the successful describe response holds an instance
whose identifier is absent (so no instance with the requested identifier),
`TerminateContainerInstance` dereferences a nil pointer in `getInstanceId` and
returns nothing, neither a response nor the local error. -/
theorem terminate_panics_on_absent_identifier :
    (describingSvc { ContainerInstances := [{ Ec2InstanceId := some "i-1" }] }).DescribeContainerInstances
        ({} : World).calls "mycluster" ["arn-1"] =
      ({ ContainerInstances := [{ Ec2InstanceId := some "i-1" }] }, none) ∧
    (∀ i ∈ [({ Ec2InstanceId := some "i-1" } : EcsContainerInstance)],
      i.ContainerInstanceArn ≠ some "arn-1") ∧
    TerminateContainerInstance "mycluster" "arn-1"
        (describingSvc { ContainerInstances := [{ Ec2InstanceId := some "i-1" }] }) quietEc2 {} =
      .error .nilDereference :=
  ⟨rfl, by decide, rfl⟩

/-- C8, amended: when the describe call succeeds and its response holds only
instances that carry an identifier, none of them the requested one,
`TerminateContainerInstance` returns no response and the local error with the
text "TerminateContainerInstance: Can't find the Ec2 Instance ID for container
arn: " followed by the identifier; the only request it has sent is the describe
request, so no termination request reaches the host service. -/
theorem terminate_of_unknown_instance (clusterName containerArn : String) (ecs_svc : ECS)
    (ec2Svc : EC2) (w : World) (resp : DescribeContainerInstancesOutput)
    (hresp : ecs_svc.DescribeContainerInstances w.calls clusterName [containerArn] = (resp, none))
    (hids : ∀ i ∈ resp.ContainerInstances, i.ContainerInstanceArn ≠ none)
    (hno : ∀ i ∈ resp.ContainerInstances, i.ContainerInstanceArn ≠ some containerArn) :
    TerminateContainerInstance clusterName containerArn ecs_svc ec2Svc w =
      .ok ((none, some (.msg
          ("TerminateContainerInstance: Can't find the Ec2 Instance ID for container arn: " ++
            containerArn))),
        { w with calls := w.calls ++ [.DescribeContainerInstances clusterName [containerArn]] }) := by
  unfold TerminateContainerInstance
  simp only [hresp, getInstanceId, getInstanceIdLoop_of_no_match _ _ _ hids hno, World.send]

theorem terminate_of_unknown_instance_witness :
    (describingSvc { ContainerInstances := [sampleInstanceC], Failures := [sampleFailureA] }).DescribeContainerInstances
        ({} : World).calls "mycluster" ["a"] =
      ({ ContainerInstances := [sampleInstanceC], Failures := [sampleFailureA] }, none) ∧
    (∀ i ∈ [sampleInstanceC], i.ContainerInstanceArn ≠ none) ∧
    (∀ i ∈ [sampleInstanceC], i.ContainerInstanceArn ≠ some "a") ∧
    TerminateContainerInstance "mycluster" "a"
        (describingSvc { ContainerInstances := [sampleInstanceC], Failures := [sampleFailureA] })
        quietEc2 {} =
      .ok ((none, some (.msg
          ("TerminateContainerInstance: Can't find the Ec2 Instance ID for container arn: " ++
            "a"))),
        { ({} : World) with
          calls := ({} : World).calls ++ [.DescribeContainerInstances "mycluster" ["a"]] }) :=
  ⟨rfl, by decide, by decide,
    terminate_of_unknown_instance "mycluster" "a"
      (describingSvc { ContainerInstances := [sampleInstanceC], Failures := [sampleFailureA] })
      quietEc2 {} { ContainerInstances := [sampleInstanceC], Failures := [sampleFailureA] }
      rfl (by decide) (by decide)⟩

/-! ## Only `doQuit` returns `io.EOF` when the services never do -/

theorem GetContainerInstanceDescription_err (svc : ECS) (h : svc.NeverEOF)
    (c a : String) (w w' : World) (m : ContainerInstanceMap) (e : Error)
    (hh : GetContainerInstanceDescription c a svc w = .ok ((m, some e), w')) : e ≠ .EOF := by
  unfold GetContainerInstanceDescription at hh
  have h1 := h.2.2.2.1 w.calls c [a]
  cases hr : svc.DescribeContainerInstances w.calls c [a] with
  | mk out err =>
    rw [hr] at hh h1
    simp only at hh h1
    split at hh
    · simp at hh
    · simp only [Except.ok.injEq, Prod.mk.injEq] at hh
      rw [hh.1.2] at h1
      simpa using h1

theorem GetAllContainerInstanceDescriptions_err (svc : ECS) (h : svc.NeverEOF)
    (c : String) (w w' : World) (m : ContainerInstanceMap) (e : Error)
    (hh : GetAllContainerInstanceDescriptions c svc w = .ok ((m, some e), w')) : e ≠ .EOF := by
  unfold GetAllContainerInstanceDescriptions GetContainerInstances at hh
  have h1 := h.2.2.1 w.calls c 100
  cases hr : svc.ListContainerInstances w.calls c 100 with
  | mk out err =>
    rw [hr] at hh h1
    cases err with
    | some e' =>
      simp only [Except.ok.injEq, Prod.mk.injEq, Option.some.injEq] at hh
      rw [← hh.1.2]
      simpa using h1
    | none =>
      simp only at hh
      split at hh
      · simp at hh
      · have h2 := h.2.2.2.1 (w.send (.ListContainerInstances c 100)).calls c
          out.ContainerInstanceArns
        split at hh
        · simp at hh
        · simp only [Except.ok.injEq, Prod.mk.injEq] at hh
          intro he
          subst he
          exact h2 hh.1.2

theorem GetAllTaskDescriptions_err (svc : ECS) (h : svc.NeverEOF)
    (c : String) (w w' : World) (m : ContainerTaskMap) (e : Error)
    (hh : GetAllTaskDescriptions c svc w = .ok ((m, some e), w')) : e ≠ .EOF := by
  unfold GetAllTaskDescriptions ListTasksForCluster at hh
  have h1 := h.2.2.2.2.1 w.calls c 100
  cases hr : svc.ListTasks w.calls c 100 with
  | mk out err =>
    rw [hr] at hh h1
    cases err with
    | some e' =>
      simp only [Except.ok.injEq, Prod.mk.injEq, Option.some.injEq] at hh
      rw [← hh.1.2]
      simpa using h1
    | none =>
      simp only at hh
      split at hh
      · simp at hh
      · have h2 := h.2.2.2.2.2.1 (w.send (.ListTasks c 100)).calls c out.TaskArns
        split at hh
        · simp at hh
        · simp only [Except.ok.injEq, Prod.mk.injEq] at hh
          intro he
          subst he
          exact h2 hh.1.2

theorem TerminateContainerInstance_err (svc : ECS) (h : svc.NeverEOF) (ec2Svc : EC2)
    (h' : ec2Svc.NeverEOF) (c a : String) (w w' : World) (r : Option TerminateInstancesOutput)
    (e : Error)
    (hh : TerminateContainerInstance c a svc ec2Svc w = .ok ((r, some e), w')) : e ≠ .EOF := by
  unfold TerminateContainerInstance at hh
  have h1 := h.2.2.2.1 w.calls c [a]
  cases hr : svc.DescribeContainerInstances w.calls c [a] with
  | mk out err =>
    rw [hr] at hh h1
    cases err with
    | some e' =>
      simp only [Except.ok.injEq, Prod.mk.injEq, Option.some.injEq] at hh
      rw [← hh.1.2]
      simpa using h1
    | none =>
      simp only at hh
      split at hh
      · simp at hh
      · simp only [Except.ok.injEq, Prod.mk.injEq, Option.some.injEq] at hh
        rw [← hh.1.2]
        simp
      · rename_i instanceId _
        have h2 := h'.1 (w.send (.DescribeContainerInstances c [a])).calls instanceId
        simp only [TerminateInstance, Except.ok.injEq, Prod.mk.injEq] at hh
        intro he
        subst he
        exact h2 (Prod.ext_iff.mp hh.1).2

theorem doListClusters_err (svc : ECS) (h : svc.NeverEOF) (w w' : World) (e : Error)
    (hh : doListClusters svc w = .ok (some e, w')) : e ≠ .EOF := by
  unfold doListClusters GetClusters at hh
  have h1 := h.1 w.calls 100
  cases hr : (svc.ListClusters w.calls 100).2 with
  | some e' =>
    simp only [hr, Except.ok.injEq, Prod.mk.injEq, Option.some.injEq] at hh
    rw [← hh.1]
    simpa [hr] using h1
  | none =>
    simp only [hr] at hh
    split at hh <;> simp at hh

theorem doDescribeCluster_err (svc : ECS) (h : svc.NeverEOF) (w w' : World) (e : Error)
    (hh : doDescribeCluster svc w = .ok (some e, w')) : e ≠ .EOF := by
  unfold doDescribeCluster DescribeCluster at hh
  have h1 := h.2.1 w.calls [w.interClusterName]
  cases hr : (svc.DescribeClusters w.calls [w.interClusterName]).2 with
  | some e' =>
    simp only [hr, Except.ok.injEq, Prod.mk.injEq, Option.some.injEq] at hh
    rw [← hh.1]
    simpa [hr] using h1
  | none =>
    simp only [hr] at hh
    split at hh
    · simp at hh
    · split at hh <;> simp at hh

theorem doListContainerInstances_err (svc : ECS) (h : svc.NeverEOF) (w w' : World) (e : Error)
    (hh : doListContainerInstances svc w = .ok (some e, w')) : e ≠ .EOF := by
  unfold doListContainerInstances GetContainerInstances at hh
  have h1 := h.2.2.1 w.calls w.interClusterName 100
  cases hr : (svc.ListContainerInstances w.calls w.interClusterName 100).2 with
  | some e' =>
    simp only [hr, Except.ok.injEq, Prod.mk.injEq, Option.some.injEq] at hh
    rw [← hh.1]
    simpa [hr] using h1
  | none =>
    simp [hr] at hh

theorem doDescribeContainerInstance_err (sdk : Sdk) (svc : ECS) (h : svc.NeverEOF)
    (w w' : World) (e : Error)
    (hh : doDescribeContainerInstance sdk svc w = .ok (some e, w')) : e ≠ .EOF := by
  unfold doDescribeContainerInstance at hh
  split at hh
  · simp at hh
  · rename_i ciMap err w1 heq
    cases err with
    | some e' =>
      simp only [Except.ok.injEq, Prod.mk.injEq, Option.some.injEq] at hh
      rw [← hh.1]
      exact GetContainerInstanceDescription_err svc h _ _ _ _ _ _ heq
    | none =>
      simp only at hh
      split at hh <;> simp at hh

theorem doDescribeAllContainerInstances_err (sdk : Sdk) (svc : ECS) (h : svc.NeverEOF)
    (w w' : World) (e : Error)
    (hh : doDescribeAllContainerInstances sdk svc w = .ok (some e, w')) : e ≠ .EOF := by
  unfold doDescribeAllContainerInstances at hh
  split at hh
  · simp at hh
  · rename_i ciMap err w1 heq
    cases err with
    | some e' =>
      simp only [Except.ok.injEq, Prod.mk.injEq, Option.some.injEq] at hh
      rw [← hh.1]
      exact GetAllContainerInstanceDescriptions_err svc h _ _ _ _ _ heq
    | none =>
      simp only at hh
      split at hh
      · simp at hh
      · split at hh <;> simp at hh

theorem doNewContainerInstance_err (awsConfig : AwsConfig) (h : awsConfig.ec2Svc.NeverEOF)
    (w w' : World) (e : Error)
    (hh : doNewContainerInstance awsConfig w = .ok (some e, w')) : e ≠ .EOF := by
  unfold doNewContainerInstance LaunchContainerInstance at hh
  have h1 := h.2 w.calls w.interClusterName
  cases hr : (awsConfig.ec2Svc.RunInstances w.calls w.interClusterName).2 with
  | some e' =>
    simp only [hr, Except.ok.injEq, Prod.mk.injEq, Option.some.injEq] at hh
    rw [← hh.1]
    simpa [hr] using h1
  | none =>
    simp [hr] at hh

theorem doTerminateContainerInstance_err (svc : ECS) (h : svc.NeverEOF) (awsConfig : AwsConfig)
    (h' : awsConfig.ec2Svc.NeverEOF) (w w' : World) (e : Error)
    (hh : doTerminateContainerInstance svc awsConfig w = .ok (some e, w')) : e ≠ .EOF := by
  unfold doTerminateContainerInstance at hh
  split at hh
  · simp at hh
  · rename_i resp err w1 heq
    cases err with
    | some e' =>
      simp only [Except.ok.injEq, Prod.mk.injEq, Option.some.injEq] at hh
      rw [← hh.1]
      exact TerminateContainerInstance_err svc h _ h' _ _ _ _ _ _ heq
    | none =>
      simp at hh

theorem doListTasks_err (svc : ECS) (h : svc.NeverEOF) (w w' : World) (e : Error)
    (hh : doListTasks svc w = .ok (some e, w')) : e ≠ .EOF := by
  unfold doListTasks at hh
  simp only at hh
  split at hh
  · simp at hh
  · rename_i tasksMap err w1 heq
    cases err with
    | some e' =>
      simp only [Except.ok.injEq, Prod.mk.injEq, Option.some.injEq] at hh
      rw [← hh.1]
      exact GetAllTaskDescriptions_err svc h _ _ _ _ _ heq
    | none =>
      simp only at hh
      split at hh <;> simp at hh

theorem doDescribeAllTasks_err (sdk : Sdk) (svc : ECS) (h : svc.NeverEOF) (w w' : World)
    (e : Error) (hh : doDescribeAllTasks sdk svc w = .ok (some e, w')) : e ≠ .EOF := by
  unfold doDescribeAllTasks at hh
  split at hh
  · simp at hh
  · rename_i resp err w1 heq
    cases err with
    | some e' =>
      simp only [Except.ok.injEq, Prod.mk.injEq, Option.some.injEq] at hh
      rw [← hh.1]
      exact GetAllTaskDescriptions_err svc h _ _ _ _ _ heq
    | none =>
      simp only at hh
      split at hh
      · simp at hh
      · split at hh <;> simp at hh

theorem doListTaskDefinitions_err (svc : ECS) (h : svc.NeverEOF) (w w' : World) (e : Error)
    (hh : doListTaskDefinitions svc w = .ok (some e, w')) : e ≠ .EOF := by
  unfold doListTaskDefinitions ListTaskDefinitions at hh
  have h1 := h.2.2.2.2.2.2.2.2.1 w.calls 100
  cases hr : (svc.ListTaskDefinitions w.calls 100).2 with
  | some e' =>
    simp only [hr, Except.ok.injEq, Prod.mk.injEq, Option.some.injEq] at hh
    rw [← hh.1]
    simpa [hr] using h1
  | none =>
    simp [hr] at hh

theorem doDescribeTaskDefinition_err (svc : ECS) (h : svc.NeverEOF) (w w' : World) (e : Error)
    (hh : doDescribeTaskDefinition svc w = .ok (some e, w')) : e ≠ .EOF := by
  unfold doDescribeTaskDefinition GetTaskDefinition at hh
  have h1 := h.2.2.2.2.2.2.2.2.2 w.calls w.interTaskDefinitionArn
  cases hr : (svc.DescribeTaskDefinition w.calls w.interTaskDefinitionArn).2 with
  | some e' =>
    simp only [hr, Except.ok.injEq, Prod.mk.injEq, Option.some.injEq] at hh
    rw [← hh.1]
    simpa [hr] using h1
  | none =>
    simp [hr] at hh

theorem doRunTask_err (sdk : Sdk) (svc : ECS) (h : svc.NeverEOF) (w w' : World) (e : Error)
    (hh : doRunTask sdk svc w = .ok (some e, w')) : e ≠ .EOF := by
  unfold doRunTask RunTask at hh
  have h1 := h.2.2.2.2.2.2.1 w.calls w.interClusterName w.interTaskDefinitionArn 1
  cases hr : (svc.RunTask w.calls w.interClusterName w.interTaskDefinitionArn 1).2 with
  | some e' =>
    simp only [hr, Except.ok.injEq, Prod.mk.injEq, Option.some.injEq] at hh
    rw [← hh.1]
    simpa [hr] using h1
  | none =>
    simp [hr] at hh

theorem doStopTask_err (svc : ECS) (h : svc.NeverEOF) (w w' : World) (e : Error)
    (hh : doStopTask svc w = .ok (some e, w')) : e ≠ .EOF := by
  unfold doStopTask StopTask at hh
  have h1 := h.2.2.2.2.2.2.2.1
    (w.print ("Stopping the task: " ++ w.interTaskArn ++ ".\n")).calls
    w.interClusterName w.interTaskArn
  cases hr : (svc.StopTask (w.print ("Stopping the task: " ++ w.interTaskArn ++ ".\n")).calls
      w.interClusterName w.interTaskArn).2 with
  | some e' =>
    have hr' : (svc.StopTask (w.print ("Stopping the task: " ++ w.interTaskArn ++ ".\n")).calls
      (w.print ("Stopping the task: " ++ w.interTaskArn ++ ".\n")).interClusterName
      (w.print ("Stopping the task: " ++ w.interTaskArn ++ ".\n")).interTaskArn).2 = some e' := hr
    simp only [hr', Except.ok.injEq, Prod.mk.injEq, Option.some.injEq] at hh
    rw [← hh.1]
    simpa [hr] using h1
  | none =>
    have hr' : (svc.StopTask (w.print ("Stopping the task: " ++ w.interTaskArn ++ ".\n")).calls
      (w.print ("Stopping the task: " ++ w.interTaskArn ++ ".\n")).interClusterName
      (w.print ("Stopping the task: " ++ w.interTaskArn ++ ".\n")).interTaskArn).2 = none := hr
    simp only [hr'] at hh
    split at hh <;> simp at hh

theorem doVerbose_err (w w' : World) (e : Error) (hh : doVerbose w = .ok (some e, w')) :
    e ≠ .EOF := by
  unfold doVerbose at hh
  split at hh
  split at hh <;> simp at hh

theorem doICommandSwitch_EOF (sdk : Sdk) (command : String) (svc : ECS) (awsConfig : AwsConfig)
    (hsvc : svc.NeverEOF) (hec2 : awsConfig.ec2Svc.NeverEOF) (w w' : World)
    (hh : doICommandSwitch sdk command svc awsConfig w = .ok (some .EOF, w')) :
    command = "exit" ∨ command = "quit" := by
  unfold doICommandSwitch at hh
  by_cases hc : command = "verbose"
  · rw [if_pos hc] at hh
    exact absurd rfl (doVerbose_err _ _ _ hh)
  rw [if_neg hc] at hh
  clear hc
  by_cases hc : command = "exit"
  · rw [if_pos hc] at hh
    exact Or.inl hc
  rw [if_neg hc] at hh
  clear hc
  by_cases hc : command = "quit"
  · rw [if_pos hc] at hh
    exact Or.inr hc
  rw [if_neg hc] at hh
  clear hc
  by_cases hc : command = "cluster list"
  · rw [if_pos hc] at hh
    exact absurd rfl (doListClusters_err svc hsvc _ _ _ hh)
  rw [if_neg hc] at hh
  clear hc
  by_cases hc : command = "cluster describe"
  · rw [if_pos hc] at hh
    exact absurd rfl (doDescribeCluster_err svc hsvc _ _ _ hh)
  rw [if_neg hc] at hh
  clear hc
  by_cases hc : command = "task list"
  · rw [if_pos hc] at hh
    exact absurd rfl (doListTasks_err svc hsvc _ _ _ hh)
  rw [if_neg hc] at hh
  clear hc
  by_cases hc : command = "task describe-all"
  · rw [if_pos hc] at hh
    exact absurd rfl (doDescribeAllTasks_err sdk svc hsvc _ _ _ hh)
  rw [if_neg hc] at hh
  clear hc
  by_cases hc : command = "container list"
  · rw [if_pos hc] at hh
    exact absurd rfl (doListContainerInstances_err svc hsvc _ _ _ hh)
  rw [if_neg hc] at hh
  clear hc
  by_cases hc : command = "container describe"
  · rw [if_pos hc] at hh
    exact absurd rfl (doDescribeContainerInstance_err sdk svc hsvc _ _ _ hh)
  rw [if_neg hc] at hh
  clear hc
  by_cases hc : command = "container describe-all"
  · rw [if_pos hc] at hh
    exact absurd rfl (doDescribeAllContainerInstances_err sdk svc hsvc _ _ _ hh)
  rw [if_neg hc] at hh
  clear hc
  by_cases hc : command = "container new"
  · rw [if_pos hc] at hh
    exact absurd rfl (doNewContainerInstance_err awsConfig hec2 _ _ _ hh)
  rw [if_neg hc] at hh
  clear hc
  by_cases hc : command = "container stop"
  · rw [if_pos hc] at hh
    exact absurd rfl (doTerminateContainerInstance_err svc hsvc awsConfig hec2 _ _ _ hh)
  rw [if_neg hc] at hh
  clear hc
  by_cases hc : command = "task-definition list"
  · rw [if_pos hc] at hh
    exact absurd rfl (doListTaskDefinitions_err svc hsvc _ _ _ hh)
  rw [if_neg hc] at hh
  clear hc
  by_cases hc : command = "task-definition describe"
  · rw [if_pos hc] at hh
    exact absurd rfl (doDescribeTaskDefinition_err svc hsvc _ _ _ hh)
  rw [if_neg hc] at hh
  clear hc
  by_cases hc : command = "task run"
  · rw [if_pos hc] at hh
    exact absurd rfl (doRunTask_err sdk svc hsvc _ _ _ hh)
  rw [if_neg hc] at hh
  clear hc
  by_cases hc : command = "task stop"
  · rw [if_pos hc] at hh
    exact absurd rfl (doStopTask_err svc hsvc _ _ _ hh)
  rw [if_neg hc] at hh
  clear hc
  simp at hh

theorem doICommandSwitch_quit (sdk : Sdk) (command : String) (svc : ECS) (awsConfig : AwsConfig)
    (w : World) (h : command = "exit" ∨ command = "quit") :
    doICommandSwitch sdk command svc awsConfig w = .ok (some .EOF, w) := by
  rcases h with h | h <;> subst h <;> rfl

/-- With services that never answer `io.EOF`, `doICommand` returns `io.EOF`
exactly for a line that selects `exit` or `quit`. -/
theorem doICommand_EOF_iff (interApp : Kingpin) (sdk : Sdk) (line : String) (svc : ECS)
    (awsConfig : AwsConfig)
    (hsvc : svc.NeverEOF) (hec2 : awsConfig.ec2Svc.NeverEOF) (w : World) :
    (∃ w', doICommand interApp sdk line svc awsConfig w = .ok (some .EOF, w')) ↔
      (selectedCommand interApp line = some "exit" ∨ selectedCommand interApp line = some "quit") := by
  unfold doICommand selectedCommand
  simp only
  by_cases hf : (Fields (TrimRight line '\n')).length ≤ 0
  · simp [hf]
  · simp only [hf, if_false, Parse]
    cases hp : (parseFields interApp (Fields (TrimRight line '\n'))).1 with
    | mk command err =>
      cases err with
      | some e => simp
      | none =>
        simp only [Option.some.injEq]
        constructor
        · rintro ⟨w', hw'⟩
          exact doICommandSwitch_EOF sdk command svc awsConfig hsvc hec2 _ _ hw'
        · intro h
          exact ⟨_, doICommandSwitch_quit sdk command svc awsConfig _ h⟩

/-! ## The prompt loop -/

theorem promptStep_stops_iff (interApp : Kingpin) (sdk : Sdk) (svc : ECS)
    (awsConfig : AwsConfig)
    (hsvc : svc.NeverEOF) (hec2 : awsConfig.ec2Svc.NeverEOF) (read : Read) (w w' : World)
    (more : Bool)
    (h : promptStep (fun line => doICommand interApp sdk line svc awsConfig) read w = .ok (more, w')) :
    more = false ↔ Read.isEndOrQuit interApp read := by
  obtain ⟨line, err⟩ := read
  unfold promptStep at h
  unfold Read.isEndOrQuit
  cases err with
  | some e =>
    simp only at h
    by_cases he : e = .EOF
    · simp only [he, if_true, Except.ok.injEq, Prod.mk.injEq] at h
      simp [he, ← h.1]
    · simp only [he, if_false, Except.ok.injEq, Prod.mk.injEq] at h
      simp [he, ← h.1]
  | none =>
    have hiff := doICommand_EOF_iff interApp sdk line svc awsConfig hsvc hec2
      { w with history := w.history ++ [line] }
    simp only at h
    simp only [reduceCtorEq, true_and, false_or]
    rw [← hiff]
    cases hp : doICommand interApp sdk line svc awsConfig { w with history := w.history ++ [line] } with
    | error p => rw [hp] at h; simp at h
    | ok r =>
      obtain ⟨e, w1⟩ := r
      rw [hp] at h
      cases e with
      | none =>
        simp only [Except.ok.injEq, Prod.mk.injEq] at h
        simp [← h.1]
      | some e =>
        simp only at h
        by_cases he : e = .EOF
        · simp only [he, if_true, Except.ok.injEq, Prod.mk.injEq] at h
          simp [he, ← h.1]
        · simp only [he, if_false, Except.ok.injEq, Prod.mk.injEq] at h
          simp [he, ← h.1]

theorem promptLoop_unread_length (prompt : String)
    (process : String → World → Except Panic (Option Error × World)) (reads : List Read)
    (w : World) (st : LoopState) (h : promptLoop prompt process reads w = .ok st)
    (hstop : st.moreCommands = false) : st.unread.length < reads.length := by
  induction reads generalizing w with
  | nil =>
    simp only [promptLoop, Except.ok.injEq] at h
    subst h
    simp at hstop
  | cons read rest ih =>
    unfold promptLoop at h
    cases hs : promptStep process read w with
    | error p => rw [hs] at h; simp at h
    | ok r =>
      obtain ⟨more, w1⟩ := r
      rw [hs] at h
      cases more with
      | true =>
        simp only [if_true] at h
        have := ih w1 h
        simp only [List.length_cons]
        omega
      | false =>
        simp only [Bool.false_eq_true, if_false, Except.ok.injEq] at h
        subst h
        simp

/-! ## The shell: the statements -/

/-- C10, as stated, fails: from the state with the verbose flag off and the
logging level INFO, two runs of `doVerbose` leave the level at ERROR. -/
theorem verbose_twice_changes_level :
    doVerboseTwice { iVerbose := false, logLevel := Level.INFO } =
      .ok { iVerbose := false, logLevel := Level.ERROR,
            out := ["Verbose is on.\n", "Verbose is off.\n"] } ∧
    Level.ERROR ≠ Level.INFO :=
  ⟨rfl, by decide⟩

/-- C10, amended: from every state two runs of `doVerbose` restore the verbose
flag and leave the logging level at DEBUG when the flag was on and at ERROR when
it was off; so the level is the one before the first run exactly when that level
was DEBUG with the flag on, or ERROR with the flag off. -/
theorem verbose_twice (w : World) :
    ∃ w2, doVerboseTwice w = .ok w2 ∧ w2.iVerbose = w.iVerbose ∧
      w2.logLevel = (if w.iVerbose then Level.DEBUG else Level.ERROR) ∧
      (w2.logLevel = w.logLevel ↔
        w.logLevel = (if w.iVerbose then Level.DEBUG else Level.ERROR)) := by
  cases hv : w.iVerbose <;>
    simp only [doVerboseTwice, doVerbose, toggleVerbose, hv] <;>
    exact ⟨_, rfl, rfl, rfl, ⟨fun h => h.symm, fun h => h.symm⟩⟩

/-- C9, as stated, fails: when the list request of `cluster list` is answered
with the error value `io.EOF`, `promptLoop` stops after that step, although the
step is neither the end-of-input signal nor an `exit` or `quit` command. -/
theorem promptLoop_stops_on_remote_EOF :
    promptLoop "> "
        (fun line => doICommand rejectingKingpin sampleSdk line eofSvc { ec2Svc := quietEc2 })
        [("cluster list", none), ("verbose", none)] {} = .ok sampleEofState ∧
    sampleEofState.moreCommands = false ∧
    sampleEofState.unread = [("verbose", none)] ∧
    (eofSvc.ListClusters [] 100).2 = some .EOF ∧
    ¬ Read.isEndOrQuit rejectingKingpin ("cluster list", none) := by
  refine ⟨rfl, rfl, rfl, rfl, ?_⟩
  have hsel : selectedCommand rejectingKingpin "cluster list" = some "cluster list" := by rfl
  unfold Read.isEndOrQuit
  rw [hsel]
  decide

/-- C9, amended: whatever the kingpin library does on the lines that `init` does
not settle, with remote services whose errors are never the value `io.EOF`, and
for every run of `promptLoop` on a script of `readline` answers that no command
crashes, the loop stops after a step (with the later answers unread) exactly
when that step is the end-of-input signal or a line on which `interApp.Parse`
selects `exit` or `quit` (with a flag such as `--help` too, when the library
takes it), and no earlier step was one; every other error of a remote call
leaves the loop running. -/
theorem promptLoop_stops_after_iff (interApp : Kingpin) (sdk : Sdk) (svc : ECS)
    (awsConfig : AwsConfig)
    (hsvc : svc.NeverEOF) (hec2 : awsConfig.ec2Svc.NeverEOF) (prompt : String)
    (pre : List Read) (read : Read) (post : List Read) (w : World) (st : LoopState)
    (h : promptLoop prompt (fun line => doICommand interApp sdk line svc awsConfig)
      (pre ++ read :: post) w = .ok st) :
    (st.moreCommands = false ∧ st.unread = post) ↔
      (Read.isEndOrQuit interApp read ∧ ∀ r ∈ pre, ¬ Read.isEndOrQuit interApp r) := by
  induction pre generalizing w with
  | nil =>
    simp only [List.nil_append] at h
    unfold promptLoop at h
    cases hs : promptStep (fun line => doICommand interApp sdk line svc awsConfig) read w with
    | error p => rw [hs] at h; simp at h
    | ok r =>
      obtain ⟨more, w1⟩ := r
      rw [hs] at h
      have hstep := promptStep_stops_iff interApp sdk svc awsConfig hsvc hec2 read w w1 more hs
      cases more with
      | true =>
        simp only [if_true] at h
        have hno : ¬ Read.isEndOrQuit interApp read := fun hq => by simpa using hstep.mpr hq
        constructor
        · rintro ⟨h1, h2⟩
          have := promptLoop_unread_length _ _ _ _ _ h h1
          rw [h2] at this
          omega
        · rintro ⟨h1, _⟩
          exact absurd h1 hno
      | false =>
        simp only [Bool.false_eq_true, if_false, Except.ok.injEq] at h
        subst h
        simpa using hstep.mp rfl
  | cons p pre' ih =>
    simp only [List.cons_append] at h
    unfold promptLoop at h
    cases hs : promptStep (fun line => doICommand interApp sdk line svc awsConfig) p w with
    | error e => rw [hs] at h; simp at h
    | ok r =>
      obtain ⟨more, w1⟩ := r
      rw [hs] at h
      have hstep := promptStep_stops_iff interApp sdk svc awsConfig hsvc hec2 p w w1 more hs
      cases more with
      | true =>
        simp only [if_true] at h
        have hno : ¬ Read.isEndOrQuit interApp p := fun hq => by simpa using hstep.mpr hq
        rw [ih w1 h]
        simp [hno]
      | false =>
        simp only [Bool.false_eq_true, if_false, Except.ok.injEq] at h
        subst h
        have hq : Read.isEndOrQuit interApp p := hstep.mp rfl
        constructor
        · rintro ⟨_, h2⟩
          have := congrArg List.length h2
          simp at this
          omega
        · rintro ⟨_, h2⟩
          exact absurd hq (h2 p (List.mem_cons_self _ _))

theorem quietSvc_neverEOF : quietSvc.NeverEOF := by
  simp [ECS.NeverEOF, quietSvc]

theorem quietEc2_neverEOF : quietEc2.NeverEOF := by
  simp [EC2.NeverEOF, quietEc2]

theorem promptLoop_stops_after_iff_witness :
    quietSvc.NeverEOF ∧ quietEc2.NeverEOF ∧
    promptLoop "> "
        (fun line => doICommand helpingKingpin sampleSdk line quietSvc { ec2Svc := quietEc2 })
        ([("verbose", none)] ++ ("quit --help", none) :: [("verbose", none)]) {} =
      .ok sampleQuitState ∧
    ((sampleQuitState.moreCommands = false ∧ sampleQuitState.unread = [("verbose", none)]) ↔
      (Read.isEndOrQuit helpingKingpin ("quit --help", none) ∧
        ∀ r ∈ [(("verbose", none) : Read)], ¬ Read.isEndOrQuit helpingKingpin r)) :=
  ⟨quietSvc_neverEOF, quietEc2_neverEOF, rfl,
    promptLoop_stops_after_iff helpingKingpin sampleSdk quietSvc { ec2Svc := quietEc2 }
      quietSvc_neverEOF quietEc2_neverEOF "> " [("verbose", none)] ("quit --help", none)
      [("verbose", none)] {} sampleQuitState rfl⟩

/-! ## The commands: the statements -/

theorem doListClustersLoop_ok (arns : List String) (i : Nat) (w : World) :
    doListClustersLoop (arns.map (fun arn => ({ Arn := some arn } : Cluster))) i w =
      .ok { w with out := w.out ++
        (arns.enumFrom i).map (fun p => toString (p.1 + 1) ++ ": " ++ p.2 ++ "\n") } := by
  induction arns generalizing i w with
  | nil => simp [doListClustersLoop]
  | cons a rest ih =>
    simp only [List.map_cons, doListClustersLoop, ih, List.enumFrom_cons, World.print,
      List.append_assoc, List.singleton_append]

theorem doICommand_cluster_list (interApp : Kingpin) (sdk : Sdk) (svc : ECS)
    (awsConfig : AwsConfig) (w : World) :
    doICommand interApp sdk "cluster list" svc awsConfig w =
      doListClusters svc { w with interTestString := [] } := by
  rfl

/-- C11: when the list request succeeds with the cluster identifiers `arns`, the
line `cluster list` sends that one request, prints "There are n clusters" and
then one line "i: identifier" per identifier, numbered from 1 in the order of
the response, and returns no error. -/
theorem cluster_list_prints (interApp : Kingpin) (sdk : Sdk) (svc : ECS) (awsConfig : AwsConfig)
    (w : World)
    (arns : List String)
    (h : svc.ListClusters w.calls 100 = ({ ClusterArns := arns }, none)) :
    doICommand interApp sdk "cluster list" svc awsConfig w =
      .ok (none, { w with
        interTestString := []
        calls := w.calls ++ [.ListClusters 100]
        out := w.out ++ ("There are " ++ toString arns.length ++ " clusters\n") ::
          arns.enum.map (fun p => toString (p.1 + 1) ++ ": " ++ p.2 ++ "\n") }) := by
  rw [doICommand_cluster_list]
  unfold doListClusters GetClusters
  simp only [h, World.send, World.print, doListClustersLoop_ok, List.length_map, List.enum,
    List.append_assoc, List.singleton_append]

theorem cluster_list_prints_witness :
    (listingSvc ["arn1", "arn2"]).ListClusters ({} : World).calls 100 =
      ({ ClusterArns := ["arn1", "arn2"] }, none) ∧
    doICommand rejectingKingpin sampleSdk "cluster list" (listingSvc ["arn1", "arn2"])
        { ec2Svc := quietEc2 } {} =
      .ok (none, { calls := [.ListClusters 100],
                   out := ["There are 2 clusters\n", "1: arn1\n", "2: arn2\n"] }) :=
  ⟨rfl, cluster_list_prints rejectingKingpin sampleSdk (listingSvc ["arn1", "arn2"])
    { ec2Svc := quietEc2 } {} ["arn1", "arn2"] rfl⟩

theorem getInstanceIdLoop_eq (l : List EcsContainerInstance) (a : String) (acc : Option String)
    (hids : ∀ i ∈ l, i.ContainerInstanceArn ≠ none) :
    getInstanceIdLoop l a acc = .ok (match lastInstance l a with
      | some i => i.Ec2InstanceId
      | none => acc) := by
  induction l generalizing acc with
  | nil => simp [getInstanceIdLoop, lastInstance, lastWith]
  | cons hd tl ih =>
    have htl : ∀ i ∈ tl, i.ContainerInstanceArn ≠ none :=
      fun i hi => hids i (List.mem_cons_of_mem _ hi)
    unfold getInstanceIdLoop
    rw [lastInstance_cons]
    cases ha : hd.ContainerInstanceArn with
    | none => exact absurd ha (hids hd (List.mem_cons_self _ _))
    | some arn =>
      simp only
      by_cases hk : arn = a
      · subst hk
        simp only [if_true, ih _ htl]
        cases lastInstance tl arn <;> rfl
      · have hk' : ¬ some arn = some a := fun e => hk (Option.some.inj e)
        simp only [hk, hk', if_false, ih _ htl]
        cases lastInstance tl a <;> rfl

/-- C17: on a list of instances that all carry an identifier, `getInstanceId`
returns the host identifier of the last instance whose identifier is `a`; it
returns nil exactly when no instance has the identifier `a` or that last
matching instance has no host identifier. -/
theorem getInstanceId_last (S : List EcsContainerInstance) (a : String)
    (hids : ∀ i ∈ S, i.ContainerInstanceArn ≠ none) :
    getInstanceId S a = .ok
      ((S.filter (fun i => decide (i.ContainerInstanceArn = some a))).getLast?.bind
        (fun i => i.Ec2InstanceId)) ∧
    (getInstanceId S a = .ok none ↔
      (∀ i ∈ S, i.ContainerInstanceArn ≠ some a) ∨
      ∃ i, (S.filter (fun i => decide (i.ContainerInstanceArn = some a))).getLast? = some i ∧
        i.Ec2InstanceId = none) := by
  have hl : lastInstance S a = _ := lastWith_eq_getLast? _ _
  have hex := lastInstance_eq_some_iff_exists S a
  have h1 : getInstanceId S a = .ok ((lastInstance S a).bind (fun i => i.Ec2InstanceId)) := by
    unfold getInstanceId
    rw [getInstanceIdLoop_eq S a none hids]
    cases lastInstance S a <;> rfl
  rw [← hl]
  refine ⟨h1, ?_⟩
  rw [h1]
  cases hlast : lastInstance S a with
  | none =>
    simp only [Option.none_bind, true_iff]
    left
    intro i hi hia
    have := hex.mpr ⟨i, hi, hia⟩
    simp [hlast] at this
  | some i =>
    simp only [Option.some_bind, Except.ok.injEq, Option.some.injEq, exists_eq_left']
    constructor
    · intro h
      exact Or.inr h
    · rintro (h | h)
      · have := (lastInstance_arn S a i hlast)
        exact absurd this.2 (h i this.1)
      · exact h

theorem getInstanceId_last_witness :
    (∀ i ∈ [sampleInstanceA, sampleInstanceC, sampleInstanceA2],
      i.ContainerInstanceArn ≠ none) ∧
    getInstanceId [sampleInstanceA, sampleInstanceC, sampleInstanceA2] "a" = .ok (some "i-2") :=
  ⟨by decide,
    (getInstanceId_last [sampleInstanceA, sampleInstanceC, sampleInstanceA2] "a" (by decide)).1⟩

/-- What `doStopTask` does on a successful stop: the wait it schedules is for the
task named by `interTaskDefinitionArn`, whatever `interTaskArn` is. -/
theorem doStopTask_ok (svc : ECS) (w : World) (task : Option Task) (text : String)
    (hstop : svc.StopTask w.calls w.interClusterName w.interTaskArn = ({ Task := task }, none))
    (htext : ContainerTaskDescriptionToString task = .ok text) :
    doStopTask svc w = .ok (none, { w with
      calls := w.calls ++ [.StopTask w.interClusterName w.interTaskArn]
      out := w.out ++ ["Stopping the task: " ++ w.interTaskArn ++ ".\n",
        "This task is scheduled to stop.\n", text ++ "\n"]
      waits := w.waits ++
        [{ kind := .stopped, cluster := w.interClusterName, task := w.interTaskDefinitionArn }] }) := by
  unfold doStopTask StopTask
  simp only [World.print, World.send, hstop, htext, OnTaskStopped, List.append_assoc,
    List.singleton_append, List.cons_append, List.nil_append]

/-- C14, the code at the failing input: in a fresh shell the line
`task stop mycluster arn:task:123` with a successful stop prints the messages
and the description, but the wait it schedules is for the task with the empty
identifier (the value of `interTaskDefinitionArn`), not `arn:task:123`; after a
`task run mycluster mydef` the wait is for `mydef`. -/
theorem task_stop_waits_for_wrong_task (interApp : Kingpin) :
    doICommand interApp sampleSdk "task stop mycluster arn:task:123"
        (stoppingSvc sampleStoppedTask) { ec2Svc := quietEc2 } {} =
      .ok (none,
        { calls := [.StopTask "mycluster" "arn:task:123"],
          out := ["Stopping the task: arn:task:123.\n", "This task is scheduled to stop.\n",
            "Task ARN: arn:task:123\nCluster ARN: arn:cluster:mycluster\n" ++
              "Container ARN: arn:ci:1\nThere are (0) associated containers.\n\n"],
          waits := [{ kind := .stopped, cluster := "mycluster", task := "" }],
          interClusterName := "mycluster", interTaskArn := "arn:task:123" }) ∧
    (DoInteractive interApp sampleSdk (stoppingSvc sampleStoppedTask) { ec2Svc := quietEc2 }
        [("task run mycluster mydef", none), ("task stop mycluster arn:task:123", none)] {}).map
        (fun st => st.world.waits) =
      .ok [{ kind := .running, cluster := "mycluster", task := "mydef" },
           { kind := .stopped, cluster := "mycluster", task := "mydef" }] :=
  ⟨rfl, rfl⟩

/-- C18, the code at the failing input: when the describe request succeeds with
an empty list of clusters, as for an unknown cluster name, `doDescribeCluster`
indexes the empty list and the line `cluster describe nosuch` crashes. -/
theorem cluster_describe_panics_on_empty (interApp : Kingpin) :
    quietSvc.DescribeClusters [] ["nosuch"] = ({ Clusters := [] }, none) ∧
    doDescribeCluster quietSvc { interClusterName := "nosuch" } = .error .indexOutOfRange ∧
    doICommand interApp sampleSdk "cluster describe nosuch" quietSvc { ec2Svc := quietEc2 } {} =
      .error .indexOutOfRange :=
  ⟨rfl, rfl, rfl⟩

/-- C19, the code at the failing inputs: when a listed task has only a failure
record in the merged map, or no record at all, `doListTasks` reads through a nil
pointer and the line `task list mycluster` crashes. -/
theorem task_list_panics_without_description (interApp : Kingpin) :
    makeCTMapFromDescribeTasksOutput { Failures := [{ Arn := some "t1", Reason := some "MISSING" }] } =
      .ok [("t1", { Task := none, Failure := some { Arn := some "t1", Reason := some "MISSING" } })] ∧
    doICommand interApp sampleSdk "task list mycluster"
        (taskSvc ["t1"] { Failures := [{ Arn := some "t1", Reason := some "MISSING" }] })
        { ec2Svc := quietEc2 } {} = .error .nilDereference ∧
    makeCTMapFromDescribeTasksOutput {} = .ok [] ∧
    doICommand interApp sampleSdk "task list mycluster" (taskSvc ["t1"] {}) { ec2Svc := quietEc2 } {} =
      .error .nilDereference :=
  ⟨rfl, rfl, rfl, rfl⟩

theorem setValues_frame (w : World) (values : List (Var × String)) :
    (w.setValues values).calls = w.calls ∧ (w.setValues values).waits = w.waits ∧
      (w.setValues values).out = w.out ∧ (w.setValues values).history = w.history := by
  induction values generalizing w with
  | nil => simp [World.setValues]
  | cons hd tl ih =>
    obtain ⟨v, s⟩ := hd
    cases v <;> simp [World.setValues, ih]

theorem FieldsLoop_of_spaces (cs : List Char) (acc : List String)
    (h : ∀ c ∈ cs, isSpace c = true) : FieldsLoop cs [] acc = acc.reverse := by
  induction cs with
  | nil => simp [FieldsLoop]
  | cons c rest ih =>
    have hc := h c (List.mem_cons_self _ _)
    simp only [FieldsLoop, hc, if_true]
    exact ih (fun x hx => h x (List.mem_cons_of_mem _ hx))

theorem Fields_of_blank (line : String) (h : ∀ c ∈ line.data, isSpace c = true) :
    Fields (TrimRight line '\n') = [] := by
  unfold Fields TrimRight
  rw [FieldsLoop_of_spaces]
  · rfl
  · intro c hc
    simp only [List.mem_reverse] at hc
    exact h c (List.mem_reverse.mp ((List.dropWhile_sublist _).subset hc))

/-- C16: whatever the kingpin library does on the lines that `init` does not
settle, for a line on which `interApp.Parse` reports an error `e`, `doICommand`
prints on standard output the one hint "Command error: e. Type help for a list
of commands.", sends no request, schedules no wait and returns no error, so
that the loop goes on; for a line that is empty or all white space it returns no
error and changes nothing (it clears `interTestString`): nothing is parsed,
printed or sent. -/
theorem rejected_or_blank_line (interApp : Kingpin) (sdk : Sdk) (svc : ECS)
    (awsConfig : AwsConfig) (line : String) (w : World) :
    (∀ e, Fields (TrimRight line '\n') ≠ [] →
      (parseFields interApp (Fields (TrimRight line '\n'))).1.2 = some e →
      (∃ w', doICommand interApp sdk line svc awsConfig w = .ok (none, w') ∧
        w'.out = w.out ++
          ["Command error: " ++ e.text ++ ".\nType help for a list of commands.\n"] ∧
        w'.calls = w.calls ∧ w'.waits = w.waits) ∧
      (∃ w', promptStep (fun l => doICommand interApp sdk l svc awsConfig) (line, none) w =
          .ok (true, w') ∧
        w'.out = w.out ++
          ["Command error: " ++ e.text ++ ".\nType help for a list of commands.\n"] ∧
        w'.calls = w.calls ∧ w'.waits = w.waits)) ∧
    ((∀ c ∈ line.data, isSpace c = true) →
      doICommand interApp sdk line svc awsConfig w = .ok (none, { w with interTestString := [] }) ∧
      promptStep (fun l => doICommand interApp sdk l svc awsConfig) (line, none) w =
        .ok (true, { w with interTestString := [], history := w.history ++ [line] })) := by
  constructor
  · intro e hne hrej
    have hlen : ¬ (Fields (TrimRight line '\n')).length ≤ 0 := by
      cases hf : Fields (TrimRight line '\n') with
      | nil => exact absurd hf hne
      | cons a b => simp
    have hdo : ∀ w0 : World, doICommand interApp sdk line svc awsConfig w0 = .ok (none,
        (({ w0 with interTestString := [] } : World).setValues
          (parseFields interApp (Fields (TrimRight line '\n'))).2).print
          ("Command error: " ++ e.text ++ ".\nType help for a list of commands.\n")) := by
      intro w0
      unfold doICommand Parse
      simp only [hlen, if_false, hrej]
    constructor
    · refine ⟨_, hdo w, ?_, ?_, ?_⟩
      · simp [World.print, (setValues_frame _ _).2.2.1]
      · simp [World.print, (setValues_frame _ _).1]
      · simp [World.print, (setValues_frame _ _).2.1]
    · unfold promptStep
      simp only [hdo]
      refine ⟨_, rfl, ?_, ?_, ?_⟩
      · simp [World.print, (setValues_frame _ _).2.2.1]
      · simp [World.print, (setValues_frame _ _).1]
      · simp [World.print, (setValues_frame _ _).2.1]
  · intro hblank
    have hdo : ∀ w0 : World, doICommand interApp sdk line svc awsConfig w0 =
        .ok (none, { w0 with interTestString := [] }) := by
      intro w0
      unfold doICommand
      simp [Fields_of_blank line hblank]
    refine ⟨hdo w, ?_⟩
    unfold promptStep
    simp only [hdo]

theorem rejected_or_blank_line_witness :
    (Fields (TrimRight "container list @nosuchfile" '\n') ≠ [] ∧
      (parseFields rejectingKingpin (Fields (TrimRight "container list @nosuchfile" '\n'))).1.2 =
        some (parseError ["container", "list", "@nosuchfile"]) ∧
      (∃ w', doICommand rejectingKingpin sampleSdk "container list @nosuchfile" quietSvc
            { ec2Svc := quietEc2 } {} = .ok (none, w') ∧
        w'.out = ({} : World).out ++
          ["Command error: " ++ (parseError ["container", "list", "@nosuchfile"]).text ++
            ".\nType help for a list of commands.\n"] ∧
        w'.calls = ({} : World).calls ∧ w'.waits = ({} : World).waits) ∧
      (∃ w', promptStep
            (fun l => doICommand rejectingKingpin sampleSdk l quietSvc { ec2Svc := quietEc2 })
            ("container list @nosuchfile", none) {} = .ok (true, w') ∧
        w'.out = ({} : World).out ++
          ["Command error: " ++ (parseError ["container", "list", "@nosuchfile"]).text ++
            ".\nType help for a list of commands.\n"] ∧
        w'.calls = ({} : World).calls ∧ w'.waits = ({} : World).waits)) ∧
    ((∀ c ∈ "  \t".data, isSpace c = true) ∧
      doICommand rejectingKingpin sampleSdk "  \t" quietSvc { ec2Svc := quietEc2 } {} =
        .ok (none, { ({} : World) with interTestString := [] }) ∧
      promptStep (fun l => doICommand rejectingKingpin sampleSdk l quietSvc { ec2Svc := quietEc2 })
          ("  \t", none) {} =
        .ok (true, { ({} : World) with
          interTestString := [], history := ({} : World).history ++ ["  \t"] })) :=
  ⟨⟨by decide, rfl,
      (rejected_or_blank_line rejectingKingpin sampleSdk quietSvc { ec2Svc := quietEc2 }
        "container list @nosuchfile" {}).1
        (parseError ["container", "list", "@nosuchfile"]) (by decide) rfl⟩,
    ⟨by decide,
      (rejected_or_blank_line rejectingKingpin sampleSdk quietSvc { ec2Svc := quietEc2 }
        "  \t" {}).2 (by decide)⟩⟩

/-! ## The formatting functions return exactly on complete records -/

theorem deref_bind_ok_iff {α β : Type} (o : Option α) (f : α → Except Panic β) :
    (∃ y, (deref o >>= f) = .ok y) ↔ ∃ x, o = some x ∧ ∃ y, f x = .ok y := by
  cases o with
  | none => simp [deref, bind, Except.bind]
  | some a => simp [deref, bind, Except.bind]

theorem bind_ok_iff {α β : Type} (m : Except Panic α) (f : α → Except Panic β) :
    (∃ y, (m >>= f) = .ok y) ↔ ∃ x, m = .ok x ∧ ∃ y, f x = .ok y := by
  cases m with
  | error p => simp [bind, Except.bind]
  | ok a => simp [bind, Except.bind]

theorem printCluster_ok_iff (c : EcsCluster) (w : World) :
    (∃ w', printCluster c w = .ok w') ↔ c.complete = true := by
  unfold printCluster
  simp only [deref_bind_ok_iff, pure, Except.pure, EcsCluster.complete, Bool.and_eq_true,
    Option.isSome_iff_exists]
  simp [and_assoc]

theorem resourceValue_ok_iff (r : Resource) :
    (∃ v, resourceValue r = .ok v) ↔ r.valuePresent = true := by
  unfold resourceValue Resource.valuePresent
  cases ht : r.Type_ with
  | none => simp [deref, bind, Except.bind]
  | some t =>
    simp only [deref, bind, Except.bind]
    by_cases h1 : t = "INTEGER"
    · simp only [h1, if_true]
      cases r.IntegerValue <;> simp [pure, Except.pure]
    · by_cases h2 : t = "DOUBLE"
      · simp only [h1, h2, if_true, if_false]
        cases r.DoubleValue <;> simp [pure, Except.pure]
      · by_cases h3 : t = "LONG"
        · simp only [h1, h2, h3, if_true, if_false]
          cases r.LongValue <;> simp [pure, Except.pure]
        · by_cases h4 : t = "STRINGSET" <;> simp [h1, h2, h3, h4, pure, Except.pure]

theorem attributeString_ok_iff (a : Attribute) :
    (∃ s, attributeString a = .ok s) ↔ a.complete = true := by
  unfold attributeString Attribute.complete
  cases a.Name <;> simp [deref, bind, Except.bind, pure, Except.pure]

theorem resourceLines_ok_iff (l : List Resource) (i : Nat) (s : String) :
    (∃ r, resourceLines l i s = .ok r) ↔ l.all Resource.complete = true := by
  induction l generalizing i s with
  | nil => simp [resourceLines]
  | cons hd tl ih =>
    unfold resourceLines
    simp only [deref_bind_ok_iff, bind_ok_iff, ih, List.all_cons, Bool.and_eq_true,
      Resource.complete, Option.isSome_iff_exists, ← resourceValue_ok_iff]
    constructor
    · rintro ⟨x, hx, v, hv, h⟩
      exact ⟨⟨⟨x, hx⟩, ⟨v, hv⟩⟩, h⟩
    · rintro ⟨⟨⟨x, hx⟩, ⟨v, hv⟩⟩, h⟩
      exact ⟨x, hx, v, hv, h⟩

theorem attributeLines_ok_iff (l : List Attribute) (i : Nat) (s : String) :
    (∃ r, attributeLines l i s = .ok r) ↔ l.all Attribute.complete = true := by
  induction l generalizing i s with
  | nil => simp [attributeLines]
  | cons hd tl ih =>
    unfold attributeLines
    simp only [bind_ok_iff, ih, List.all_cons, Bool.and_eq_true, ← attributeString_ok_iff]
    constructor
    · rintro ⟨x, hx, h⟩
      exact ⟨⟨x, hx⟩, h⟩
    · rintro ⟨⟨x, hx⟩, h⟩
      exact ⟨x, hx, h⟩

theorem ContainerInstanceDescriptionToString_ok_iff (c : EcsContainerInstance) :
    (∃ s, ContainerInstanceDescriptionToString c = .ok s) ↔ c.complete = true := by
  unfold ContainerInstanceDescriptionToString
  simp only [deref_bind_ok_iff, bind_ok_iff, resourceLines_ok_iff, attributeLines_ok_iff,
    EcsContainerInstance.complete, Bool.and_eq_true, Option.isSome_iff_exists]
  constructor
  · rintro ⟨x1, h1, x2, h2, x3, h3, x4, h4, x5, h5, r1, hr1, r2, hr2, x6, h6, h7⟩
    exact ⟨⟨⟨⟨⟨⟨⟨⟨⟨x1, h1⟩, ⟨x2, h2⟩⟩, ⟨x3, h3⟩⟩, ⟨x4, h4⟩⟩, ⟨x5, h5⟩⟩,
      (resourceLines_ok_iff _ _ _).mp ⟨r1, hr1⟩⟩,
      (resourceLines_ok_iff _ _ _).mp ⟨r2, hr2⟩⟩, ⟨x6, h6⟩⟩, h7⟩
  · rintro ⟨⟨⟨⟨⟨⟨⟨⟨⟨x1, h1⟩, ⟨x2, h2⟩⟩, ⟨x3, h3⟩⟩, ⟨x4, h4⟩⟩, ⟨x5, h5⟩⟩, hr1⟩, hr2⟩, ⟨x6, h6⟩⟩, h7⟩
    obtain ⟨r1, hr1'⟩ := (resourceLines_ok_iff c.RegisteredResources 0 _).mpr hr1
    obtain ⟨r2, hr2'⟩ := (resourceLines_ok_iff c.RemainingResources 0 _).mpr hr2
    exact ⟨x1, h1, x2, h2, x3, h3, x4, h4, x5, h5, r1, hr1', r2, hr2', x6, h6, h7⟩

theorem networkLines_ok_iff (l : List NetworkBinding) (j : Nat) (s : String) :
    (∃ r, networkLines l j s = .ok r) ↔ l.all NetworkBinding.complete = true := by
  induction l generalizing j s with
  | nil => simp [networkLines]
  | cons hd tl ih =>
    unfold networkLines
    simp only [deref_bind_ok_iff, ih, List.all_cons, Bool.and_eq_true, NetworkBinding.complete,
      Option.isSome_iff_exists]
    constructor
    · rintro ⟨x1, h1, x2, h2, x3, h3, x4, h4, h⟩
      exact ⟨⟨⟨⟨⟨x1, h1⟩, ⟨x2, h2⟩⟩, ⟨x3, h3⟩⟩, ⟨x4, h4⟩⟩, h⟩
    · rintro ⟨⟨⟨⟨⟨x1, h1⟩, ⟨x2, h2⟩⟩, ⟨x3, h3⟩⟩, ⟨x4, h4⟩⟩, h⟩
      exact ⟨x1, h1, x2, h2, x3, h3, x4, h4, h⟩

theorem containerLines_ok_iff (l : List Container) (i : Nat) (s : String) :
    (∃ r, containerLines l i s = .ok r) ↔ l.all Container.complete = true := by
  induction l generalizing i s with
  | nil => simp [containerLines]
  | cons hd tl ih =>
    unfold containerLines
    simp only [deref_bind_ok_iff, bind_ok_iff, ih, List.all_cons, Bool.and_eq_true,
      Container.complete, Option.isSome_iff_exists]
    constructor
    · rintro ⟨x1, h1, x2, h2, x3, h3, x4, h4, r, hr, h⟩
      exact ⟨⟨⟨⟨⟨⟨x1, h1⟩, ⟨x2, h2⟩⟩, ⟨x3, h3⟩⟩, ⟨x4, h4⟩⟩,
        (networkLines_ok_iff _ _ _).mp ⟨r, hr⟩⟩, h⟩
    · rintro ⟨⟨⟨⟨⟨⟨x1, h1⟩, ⟨x2, h2⟩⟩, ⟨x3, h3⟩⟩, ⟨x4, h4⟩⟩, hn⟩, h⟩
      obtain ⟨r, hr⟩ := (networkLines_ok_iff hd.NetworkBindings 0 _).mpr hn
      exact ⟨x1, h1, x2, h2, x3, h3, x4, h4, r, hr, h⟩

theorem ContainerTaskDescriptionToString_ok_iff (t : Task) :
    (∃ s, ContainerTaskDescriptionToString (some t) = .ok s) ↔ t.complete = true := by
  unfold ContainerTaskDescriptionToString
  simp only [deref_bind_ok_iff, Task.complete, Bool.and_eq_true, Option.isSome_iff_exists,
    Option.some.injEq, exists_eq_left']
  by_cases hlen : t.Containers.length > 0
  · simp only [hlen, if_true, containerLines_ok_iff]
    simp [and_assoc]
  · have hnil : t.Containers = [] := by
      cases hc : t.Containers with
      | nil => rfl
      | cons a b => simp [hc] at hlen
    simp [hnil, pure, Except.pure, and_assoc]

theorem ContainerInstanceMapToStringLoop_ok_iff (sdk : Sdk) (m : List (String × ContainerInstance))
    (s : String) :
    (∃ r, ContainerInstanceMapToStringLoop sdk m s = .ok r) ↔
      ContainerInstanceMap.complete m = true := by
  induction m generalizing s with
  | nil => simp [ContainerInstanceMapToStringLoop, ContainerInstanceMap.complete]
  | cons hd tl ih =>
    obtain ⟨k, inst, failure⟩ := hd
    have ih' : ∀ s, (∃ r, ContainerInstanceMapToStringLoop sdk tl s = .ok r) ↔
        List.all tl (fun e => match e.2.Instance with
          | some i => i.complete
          | none => true) = true := ih
    unfold ContainerInstanceMapToStringLoop
    cases inst with
    | none =>
      simp only [ContainerInstanceMap.complete, List.all_cons, Bool.and_eq_true, bind_ok_iff, ih',
        pure, Except.pure, Except.ok.injEq, exists_eq_left', true_and]
    | some inst =>
      simp only [ContainerInstanceMap.complete, List.all_cons, Bool.and_eq_true, bind_ok_iff, ih',
        ← ContainerInstanceDescriptionToString_ok_iff]
      constructor
      · rintro ⟨x, hx, h⟩
        exact ⟨⟨x, hx⟩, h⟩
      · rintro ⟨⟨x, hx⟩, h⟩
        exact ⟨x, hx, h⟩

theorem ContainerTaskMapToStringLoop_ok_iff (sdk : Sdk) (m : List (String × ContainerTask))
    (count : Nat) (s : String) :
    (∃ r, ContainerTaskMapToStringLoop sdk m count s = .ok r) ↔
      ContainerTaskMap.complete m = true := by
  induction m generalizing count s with
  | nil => simp [ContainerTaskMapToStringLoop, ContainerTaskMap.complete]
  | cons hd tl ih =>
    obtain ⟨k, ct⟩ := hd
    unfold ContainerTaskMapToStringLoop
    have ih' : ∀ count s, (∃ r, ContainerTaskMapToStringLoop sdk tl count s = .ok r) ↔
        List.all tl (fun e => match e.2.Task with
          | some t => t.complete
          | none => true) = true := ih
    simp only [ContainerTaskMap.complete, List.all_cons, Bool.and_eq_true]
    cases hi : ct.Task with
    | none => simp [ih']
    | some task =>
      simp only [bind_ok_iff, ih', ← ContainerTaskDescriptionToString_ok_iff]
      constructor
      · rintro ⟨x, hx, h⟩
        exact ⟨⟨x, hx⟩, h⟩
      · rintro ⟨⟨x, hx⟩, h⟩
        exact ⟨x, hx, h⟩

/-! ## The text of the formatting functions -/

theorem ok_bind_ok {α β : Type} (m : Except Panic α) (f : α → Except Panic β) (y : β)
    (h : (m >>= f) = .ok y) : ∃ x, m = .ok x ∧ f x = .ok y := by
  cases m with
  | error p => simp [bind, Except.bind] at h
  | ok a => exact ⟨a, rfl, h⟩

theorem deref_bind_ok {α β : Type} (o : Option α) (f : α → Except Panic β) (y : β)
    (h : (deref o >>= f) = .ok y) : ∃ x, o = some x ∧ f x = .ok y := by
  cases o with
  | none => simp [deref, bind, Except.bind] at h
  | some a => exact ⟨a, rfl, h⟩

theorem networkLines_eq (l : List NetworkBinding) (j : Nat) (s : String) :
    networkLines l j s = (networkLines l j "").map (fun x => s ++ x) := by
  induction l generalizing j s with
  | nil => simp [networkLines, Except.map]
  | cons hd tl ih =>
    unfold networkLines
    cases hd.BindIP <;> cases hd.ContainerPort <;> cases hd.HostPort <;> cases hd.Protocol <;>
      simp only [deref, bind, Except.bind, Except.map]
    conv_lhs => rw [ih]
    conv_rhs => rw [ih]
    cases networkLines tl (j + 1) "" <;> simp [Except.map, String.append_assoc]

theorem resourceLines_eq (l : List Resource) (i : Nat) (s : String) :
    resourceLines l i s = (resourceLines l i "").map (fun x => s ++ x) := by
  induction l generalizing i s with
  | nil => simp [resourceLines, Except.map]
  | cons hd tl ih =>
    unfold resourceLines
    cases hd.Name <;> cases resourceValue hd <;>
      simp only [deref, bind, Except.bind, Except.map]
    conv_lhs => rw [ih]
    conv_rhs => rw [ih]
    cases resourceLines tl (i + 1) "" <;> simp [Except.map, String.append_assoc]

theorem attributeLines_eq (l : List Attribute) (i : Nat) (s : String) :
    attributeLines l i s = (attributeLines l i "").map (fun x => s ++ x) := by
  induction l generalizing i s with
  | nil => simp [attributeLines, Except.map]
  | cons hd tl ih =>
    unfold attributeLines
    cases attributeString hd <;>
      simp only [deref, bind, Except.bind, Except.map]
    conv_lhs => rw [ih]
    conv_rhs => rw [ih]
    cases attributeLines tl (i + 1) "" <;> simp [Except.map, String.append_assoc]

theorem containerLines_eq (l : List Container) (i : Nat) (s : String) :
    containerLines l i s = (containerLines l i "").map (fun x => s ++ x) := by
  induction l generalizing i s with
  | nil => simp [containerLines, Except.map]
  | cons hd tl ih =>
    unfold containerLines
    cases hd.Name <;> cases hd.ContainerArn <;> cases hd.TaskArn <;> cases hd.LastStatus <;>
      simp only [deref, bind, Except.bind, Except.map]
    conv_lhs => rw [networkLines_eq]
    conv_rhs => rw [networkLines_eq]
    cases networkLines hd.NetworkBindings 0 "" with
    | error p => cases hd.ExitCode <;> simp [Except.map]
    | ok b =>
      simp only [Except.map]
      conv_lhs => rw [ih]
      conv_rhs => rw [ih]
      cases containerLines tl (i + 1) "" <;> cases hd.ExitCode <;>
        simp [Except.map, String.append_assoc]

theorem containerLines_split (pre rest : List Container) (i : Nat) (s : String) :
    containerLines (pre ++ rest) i s =
      (containerLines pre i s >>= fun h => containerLines rest (i + pre.length) h) := by
  induction pre generalizing i s with
  | nil => simp [containerLines, bind, Except.bind]
  | cons hd tl ih =>
    simp only [List.cons_append, List.length_cons, containerLines]
    cases hd.Name <;> cases hd.ContainerArn <;> cases hd.TaskArn <;> cases hd.LastStatus <;>
      simp only [deref, bind, Except.bind]
    cases networkLines hd.NetworkBindings 0 _ with
    | error p => rfl
    | ok b =>
      have hlen : i + (tl.length + 1) = i + 1 + tl.length := by omega
      rw [hlen]
      exact ih (i + 1) b

/-- The text of a complete task, around one of its sub-containers. -/
theorem ContainerTaskDescriptionToString_at (task : Task) (pre post : List Container)
    (c : Container) (ht : task.complete = true) (hcont : task.Containers = pre ++ c :: post) :
    ∃ taskArn clusterArn instanceArn head name arn tarn status bindings tail,
      task.TaskArn = some taskArn ∧ task.ClusterArn = some clusterArn ∧
      task.ContainerInstanceArn = some instanceArn ∧
      containerLines pre 0 "" = .ok head ∧
      c.Name = some name ∧ c.ContainerArn = some arn ∧ c.TaskArn = some tarn ∧
      c.LastStatus = some status ∧
      networkLines c.NetworkBindings 0 "" = .ok bindings ∧
      containerLines post (pre.length + 1) "" = .ok tail ∧
      ContainerTaskDescriptionToString (some task) = .ok
        ("Task ARN: " ++ taskArn ++ "\n" ++ "Cluster ARN: " ++ clusterArn ++ "\n" ++
          "Container ARN: " ++ instanceArn ++ "\n" ++
          "There are (" ++ toString task.Containers.length ++ ") associated containers.\n" ++
          head ++
          "\t" ++ toString (pre.length + 1) ++ ". Name: " ++ name ++ "\n" ++
          "\tContainer Arn: " ++ arn ++ "\n" ++
          "\tTask Arn: " ++ tarn ++ "\n" ++
          "\tReason: " ++ (match c.Reason with
            | some r => r
            | none => "<empty>") ++ "\n" ++
          "\tLast Status: " ++ status ++ "\n" ++
          "\tExit Code: " ++ (match c.ExitCode with
            | some x => toString x
            | none => "<empty>") ++ "\n" ++
          "\tContainer Network Bindings:\n" ++
          bindings ++ tail) := by
  simp only [Task.complete, Bool.and_eq_true, Option.isSome_iff_exists] at ht
  obtain ⟨⟨⟨⟨taskArn, h1⟩, ⟨clusterArn, h2⟩⟩, ⟨instanceArn, h3⟩⟩, hall⟩ := ht
  rw [hcont, List.all_append, List.all_cons, Bool.and_eq_true, Bool.and_eq_true] at hall
  obtain ⟨hpre, hc, hpost⟩ := hall
  obtain ⟨head, hhead⟩ := (containerLines_ok_iff pre 0 "").mpr hpre
  obtain ⟨tail, htail⟩ := (containerLines_ok_iff post (pre.length + 1) "").mpr hpost
  simp only [Container.complete, Bool.and_eq_true, Option.isSome_iff_exists] at hc
  obtain ⟨⟨⟨⟨⟨name, h4⟩, ⟨arn, h5⟩⟩, ⟨tarn, h6⟩⟩, ⟨status, h7⟩⟩, hnet⟩ := hc
  obtain ⟨bindings, hbind⟩ := (networkLines_ok_iff c.NetworkBindings 0 "").mpr hnet
  refine ⟨taskArn, clusterArn, instanceArn, head, name, arn, tarn, status, bindings, tail,
    h1, h2, h3, hhead, h4, h5, h6, h7, hbind, htail, ?_⟩
  have hlen : (pre ++ c :: post).length > 0 := by simp
  unfold ContainerTaskDescriptionToString
  simp only [deref, bind, Except.bind, h1, h2, h3, hcont, hlen, if_true]
  rw [containerLines_split, containerLines_eq, hhead]
  simp only [Except.map, bind, Except.bind, containerLines, deref, h4, h5, h6, h7]
  rw [networkLines_eq, hbind]
  simp only [Except.map]
  rw [containerLines_eq, Nat.zero_add, htail]
  simp only [Except.map, Except.ok.injEq]
  cases c.ExitCode <;> simp only [String.append_assoc, String.empty_append]

/-- The text of a complete instance whose agent-update status is absent. -/
theorem ContainerInstanceDescriptionToString_at (container : EcsContainerInstance)
    (hc : container.complete = true) (hs : container.AgentUpdateStatus = none) :
    ∃ arn id status running pending connected registered remaining attributes,
      container.ContainerInstanceArn = some arn ∧ container.Ec2InstanceId = some id ∧
      container.Status = some status ∧ container.RunningTasksCount = some running ∧
      container.PendingTasksCount = some pending ∧ container.AgentConnected = some connected ∧
      resourceLines container.RegisteredResources 0 "" = .ok registered ∧
      resourceLines container.RemainingResources 0 "" = .ok remaining ∧
      attributeLines container.Attributes 0 "" = .ok attributes ∧
      ContainerInstanceDescriptionToString container = .ok
        ("Container ARN: " ++ arn ++ "\n" ++ "EC2-ID: " ++ id ++ "\n" ++
          "Status:  " ++ status ++ "\n" ++
          "Running Task Count: " ++ toString running ++ ".\n" ++
          "Pending Task Count: " ++ toString pending ++ "\n" ++
          "There are (" ++ toString container.RegisteredResources.length ++
            ") registered resources.\n" ++
          registered ++
          "There are (" ++ toString container.RemainingResources.length ++
            ") remaining resources.\n" ++
          remaining ++
          "Agent connected: " ++ boolText connected ++ "\n" ++
          "Agent updated status: never requested.\n" ++
          "There are (" ++ toString container.Attributes.length ++ ") attributes.\n" ++
          attributes) := by
  simp only [EcsContainerInstance.complete, Bool.and_eq_true, Option.isSome_iff_exists] at hc
  obtain ⟨⟨⟨⟨⟨⟨⟨⟨⟨arn, h1⟩, ⟨id, h2⟩⟩, ⟨status, h3⟩⟩, ⟨running, h4⟩⟩, ⟨pending, h5⟩⟩, hr1⟩, hr2⟩,
    ⟨connected, h6⟩⟩, ha⟩ := hc
  obtain ⟨registered, hreg⟩ := (resourceLines_ok_iff container.RegisteredResources 0 "").mpr hr1
  obtain ⟨remaining, hrem⟩ := (resourceLines_ok_iff container.RemainingResources 0 "").mpr hr2
  obtain ⟨attributes, hattr⟩ := (attributeLines_ok_iff container.Attributes 0 "").mpr ha
  refine ⟨arn, id, status, running, pending, connected, registered, remaining, attributes,
    h1, h2, h3, h4, h5, h6, hreg, hrem, hattr, ?_⟩
  unfold ContainerInstanceDescriptionToString
  simp only [deref, bind, Except.bind, h1, h2, h3, h4, h5, h6, hs]
  rw [resourceLines_eq, hreg]
  simp only [Except.map]
  rw [resourceLines_eq, hrem]
  simp only [Except.map]
  rw [attributeLines_eq, hattr]
  simp only [Except.map, Except.ok.injEq, String.append_assoc, String.empty_append]
  rfl

/-! ## The formatting functions: the statements -/

set_option maxRecDepth 8000 in
/-- The text of the sample tasks and of the sample instance. -/
theorem sample_descriptions :
    ContainerTaskDescriptionToString (some samplePendingTask) = .ok
      ("Task ARN: arn:task:123\nCluster ARN: arn:cluster:mycluster\nContainer ARN: arn:ci:1\n" ++
        "There are (1) associated containers.\n\t1. Name: web\n" ++
        "\tContainer Arn: arn:container:1\n\tTask Arn: arn:task:123\n\tReason: <empty>\n" ++
        "\tLast Status: PENDING\n\tExit Code: <empty>\n\tContainer Network Bindings:\n") ∧
    ContainerTaskDescriptionToString (some sampleMixedTask) = .ok
      ("Task ARN: arn:task:123\nCluster ARN: arn:cluster:mycluster\nContainer ARN: arn:ci:1\n" ++
        "There are (2) associated containers.\n\t1. Name: init\n" ++
        "\tContainer Arn: arn:container:0\n\tTask Arn: arn:task:123\n\tReason: done\n" ++
        "\tLast Status: STOPPED\n\tExit Code: 0\n\tContainer Network Bindings:\n" ++
        "\t\t1. IP: 0.0.0.0 Conatiner Port: 80 -> Host Port: 8080  (tcp)\n" ++
        "\t2. Name: web\n" ++
        "\tContainer Arn: arn:container:1\n\tTask Arn: arn:task:123\n\tReason: <empty>\n" ++
        "\tLast Status: PENDING\n\tExit Code: <empty>\n\tContainer Network Bindings:\n") ∧
    ContainerInstanceDescriptionToString sampleFullInstance = .ok
      ("Container ARN: arn:ci:1\nEC2-ID: i-1\nStatus:  ACTIVE\nRunning Task Count: 1.\n" ++
        "Pending Task Count: 0\nThere are (1) registered resources.\n\t 1. CPU: 1024\n" ++
        "There are (0) remaining resources.\nAgent connected: true\n" ++
        "Agent updated status: never requested.\nThere are (1) attributes.\n" ++
        "\t1.  ecs.ami-id: nil\n") :=
  ⟨rfl, rfl, rfl⟩

/-- C12, as stated, fails: with a field absent that they read unguarded, the
formatting functions dereference a nil pointer. -/
theorem formatting_panics_on_absent_field :
    printCluster { ClusterArn := some "arn" } {} = .error .nilDereference ∧
    ContainerInstanceDescriptionToString { sampleFullInstance with Status := none } =
      .error .nilDereference ∧
    ContainerInstanceMapToString sampleSdk
      [("arn:ci:1", { Instance := some { sampleFullInstance with Status := none } })] =
      .error .nilDereference ∧
    ContainerTaskDescriptionToString (some { samplePendingTask with ClusterArn := none }) =
      .error .nilDereference ∧
    ContainerTaskMapToString sampleSdk
      [("arn:task:123", { Task := some { samplePendingTask with ClusterArn := none } })] =
      .error .nilDereference ∧
    resourceValue { Name := some "CPU", Type_ := some "INTEGER" } = .error .nilDereference ∧
    attributeString { Value := some "v" } = .error .nilDereference :=
  ⟨rfl, rfl, rfl, rfl, rfl, rfl, rfl⟩

/-- C12, amended: each formatting function returns its text exactly when the
fields it reads without a guard are present (`complete`, `valuePresent`); the
fields `Reason`, `ExitCode`, `AgentUpdateStatus` and the value of an attribute
may be absent. -/
theorem formatting_returns_iff_complete (sdk : Sdk) (w : World) (cluster : EcsCluster)
    (container : EcsContainerInstance) (ciMap : ContainerInstanceMap) (task : Task)
    (ctMap : ContainerTaskMap) (r : Resource) (attr : Attribute) :
    ((∃ w', printCluster cluster w = .ok w') ↔ cluster.complete = true) ∧
    ((∃ s, ContainerInstanceDescriptionToString container = .ok s) ↔ container.complete = true) ∧
    ((∃ s, ContainerInstanceMapToString sdk ciMap = .ok s) ↔ ciMap.complete = true) ∧
    ((∃ s, ContainerTaskDescriptionToString (some task) = .ok s) ↔ task.complete = true) ∧
    ((∃ s, ContainerTaskMapToString sdk ctMap = .ok s) ↔ ctMap.complete = true) ∧
    ((∃ v, resourceValue r = .ok v) ↔ r.valuePresent = true) ∧
    ((∃ s, attributeString attr = .ok s) ↔ attr.complete = true) :=
  ⟨printCluster_ok_iff cluster w, ContainerInstanceDescriptionToString_ok_iff container,
    ContainerInstanceMapToStringLoop_ok_iff sdk ciMap "",
    ContainerTaskDescriptionToString_ok_iff task,
    ContainerTaskMapToStringLoop_ok_iff sdk ctMap 1 "", resourceValue_ok_iff r,
    attributeString_ok_iff attr⟩

/-- C13: absent optional fields are rendered as placeholders, each in its place.
For a task whose other fields are present and each of its sub-containers `c`
(the sub-containers `pre` before it, `post` after it),
`ContainerTaskDescriptionToString` returns the four header lines, the text of
the sub-containers before, the block of `c` and the text of the sub-containers
after; in the block of `c` the line after "Task Arn" is "\tReason: <empty>" when
the reason of `c` is absent (and "\tReason: r" for a reason `r`), and the line
after "Last Status" is "\tExit Code: <empty>" when its exit code is absent (and
"\tExit Code: x" for a code `x`).  For an attribute with a name and no value,
`attributeString` returns "name: nil".  For an instance whose other fields are
present and whose agent-update status is absent,
`ContainerInstanceDescriptionToString` returns the text whose line after
"Agent connected" is "Agent updated status: never requested.". -/
theorem absent_fields_render_as_placeholders (task : Task) (pre post : List Container)
    (c : Container) (name : String) (container : EcsContainerInstance) :
    (task.complete = true → task.Containers = pre ++ c :: post →
      ∃ taskArn clusterArn instanceArn head name arn tarn status bindings tail,
        task.TaskArn = some taskArn ∧ task.ClusterArn = some clusterArn ∧
        task.ContainerInstanceArn = some instanceArn ∧
        containerLines pre 0 "" = .ok head ∧
        c.Name = some name ∧ c.ContainerArn = some arn ∧ c.TaskArn = some tarn ∧
        c.LastStatus = some status ∧
        networkLines c.NetworkBindings 0 "" = .ok bindings ∧
        containerLines post (pre.length + 1) "" = .ok tail ∧
        ContainerTaskDescriptionToString (some task) = .ok
          ("Task ARN: " ++ taskArn ++ "\n" ++ "Cluster ARN: " ++ clusterArn ++ "\n" ++
            "Container ARN: " ++ instanceArn ++ "\n" ++
            "There are (" ++ toString task.Containers.length ++ ") associated containers.\n" ++
            head ++
            "\t" ++ toString (pre.length + 1) ++ ". Name: " ++ name ++ "\n" ++
            "\tContainer Arn: " ++ arn ++ "\n" ++
            "\tTask Arn: " ++ tarn ++ "\n" ++
            "\tReason: " ++ (match c.Reason with
              | some r => r
              | none => "<empty>") ++ "\n" ++
            "\tLast Status: " ++ status ++ "\n" ++
            "\tExit Code: " ++ (match c.ExitCode with
              | some x => toString x
              | none => "<empty>") ++ "\n" ++
            "\tContainer Network Bindings:\n" ++
            bindings ++ tail)) ∧
    attributeString { Name := some name, Value := none } = .ok (name ++ ": nil") ∧
    (container.complete = true → container.AgentUpdateStatus = none →
      ∃ arn id status running pending connected registered remaining attributes,
        container.ContainerInstanceArn = some arn ∧ container.Ec2InstanceId = some id ∧
        container.Status = some status ∧ container.RunningTasksCount = some running ∧
        container.PendingTasksCount = some pending ∧ container.AgentConnected = some connected ∧
        resourceLines container.RegisteredResources 0 "" = .ok registered ∧
        resourceLines container.RemainingResources 0 "" = .ok remaining ∧
        attributeLines container.Attributes 0 "" = .ok attributes ∧
        ContainerInstanceDescriptionToString container = .ok
          ("Container ARN: " ++ arn ++ "\n" ++ "EC2-ID: " ++ id ++ "\n" ++
            "Status:  " ++ status ++ "\n" ++
            "Running Task Count: " ++ toString running ++ ".\n" ++
            "Pending Task Count: " ++ toString pending ++ "\n" ++
            "There are (" ++ toString container.RegisteredResources.length ++
              ") registered resources.\n" ++
            registered ++
            "There are (" ++ toString container.RemainingResources.length ++
              ") remaining resources.\n" ++
            remaining ++
            "Agent connected: " ++ boolText connected ++ "\n" ++
            "Agent updated status: never requested.\n" ++
            "There are (" ++ toString container.Attributes.length ++ ") attributes.\n" ++
            attributes)) := by
  refine ⟨fun ht hcont => ContainerTaskDescriptionToString_at task pre post c ht hcont, ?_,
    fun hc hs => ContainerInstanceDescriptionToString_at container hc hs⟩
  simp only [attributeString, deref, bind, Except.bind, pure, Except.pure, Except.ok.injEq]
  rw [String.append_assoc]
  rfl

theorem absent_fields_render_as_placeholders_witness :
    (sampleMixedTask.complete = true ∧
      sampleMixedTask.Containers = [sampleExitedContainer] ++ samplePendingContainer :: [] ∧
      ∃ taskArn clusterArn instanceArn head name arn tarn status bindings tail,
        sampleMixedTask.TaskArn = some taskArn ∧ sampleMixedTask.ClusterArn = some clusterArn ∧
        sampleMixedTask.ContainerInstanceArn = some instanceArn ∧
        containerLines [sampleExitedContainer] 0 "" = .ok head ∧
        samplePendingContainer.Name = some name ∧ samplePendingContainer.ContainerArn = some arn ∧ samplePendingContainer.TaskArn = some tarn ∧
        samplePendingContainer.LastStatus = some status ∧
        networkLines samplePendingContainer.NetworkBindings 0 "" = .ok bindings ∧
        containerLines [] ([sampleExitedContainer].length + 1) "" = .ok tail ∧
        ContainerTaskDescriptionToString (some sampleMixedTask) = .ok
          ("Task ARN: " ++ taskArn ++ "\n" ++ "Cluster ARN: " ++ clusterArn ++ "\n" ++
            "Container ARN: " ++ instanceArn ++ "\n" ++
            "There are (" ++ toString sampleMixedTask.Containers.length ++ ") associated containers.\n" ++
            head ++
            "\t" ++ toString ([sampleExitedContainer].length + 1) ++ ". Name: " ++ name ++ "\n" ++
            "\tContainer Arn: " ++ arn ++ "\n" ++
            "\tTask Arn: " ++ tarn ++ "\n" ++
            "\tReason: " ++ (match samplePendingContainer.Reason with
              | some r => r
              | none => "<empty>") ++ "\n" ++
            "\tLast Status: " ++ status ++ "\n" ++
            "\tExit Code: " ++ (match samplePendingContainer.ExitCode with
              | some x => toString x
              | none => "<empty>") ++ "\n" ++
            "\tContainer Network Bindings:\n" ++
            bindings ++ tail)) ∧
    attributeString { Name := some "ecs.ami-id", Value := none } = .ok ("ecs.ami-id" ++ ": nil") ∧
    (sampleFullInstance.complete = true ∧ sampleFullInstance.AgentUpdateStatus = none ∧
      ∃ arn id status running pending connected registered remaining attributes,
        sampleFullInstance.ContainerInstanceArn = some arn ∧ sampleFullInstance.Ec2InstanceId = some id ∧
        sampleFullInstance.Status = some status ∧ sampleFullInstance.RunningTasksCount = some running ∧
        sampleFullInstance.PendingTasksCount = some pending ∧ sampleFullInstance.AgentConnected = some connected ∧
        resourceLines sampleFullInstance.RegisteredResources 0 "" = .ok registered ∧
        resourceLines sampleFullInstance.RemainingResources 0 "" = .ok remaining ∧
        attributeLines sampleFullInstance.Attributes 0 "" = .ok attributes ∧
        ContainerInstanceDescriptionToString sampleFullInstance = .ok
          ("Container ARN: " ++ arn ++ "\n" ++ "EC2-ID: " ++ id ++ "\n" ++
            "Status:  " ++ status ++ "\n" ++
            "Running Task Count: " ++ toString running ++ ".\n" ++
            "Pending Task Count: " ++ toString pending ++ "\n" ++
            "There are (" ++ toString sampleFullInstance.RegisteredResources.length ++
              ") registered resources.\n" ++
            registered ++
            "There are (" ++ toString sampleFullInstance.RemainingResources.length ++
              ") remaining resources.\n" ++
            remaining ++
            "Agent connected: " ++ boolText connected ++ "\n" ++
            "Agent updated status: never requested.\n" ++
            "There are (" ++ toString sampleFullInstance.Attributes.length ++ ") attributes.\n" ++
            attributes)) :=
  ⟨⟨by decide, rfl,
      (absent_fields_render_as_placeholders sampleMixedTask [sampleExitedContainer] []
        samplePendingContainer "ecs.ami-id" sampleFullInstance).1 (by decide) rfl⟩,
    (absent_fields_render_as_placeholders sampleMixedTask [sampleExitedContainer] []
      samplePendingContainer "ecs.ami-id" sampleFullInstance).2.1,
    ⟨by decide, rfl,
      (absent_fields_render_as_placeholders sampleMixedTask [sampleExitedContainer] []
        samplePendingContainer "ecs.ami-id" sampleFullInstance).2.2 (by decide) rfl⟩⟩

/-! ## Adapter errors and the commands -/

/-- Every command hands back the error of its adapter call (for `doListTasks`:
of its second adapter call) without printing or sending anything after it. -/
theorem command_returns_adapter_error (sdk : Sdk) (svc : ECS) (awsConfig : AwsConfig)
    (w : World) (e : Error) :
    ((GetClusters svc w).1.2 = some e →
      doListClusters svc w = .ok (some e, (GetClusters svc w).2)) ∧
    ((DescribeCluster w.interClusterName svc w).1.2 = some e →
      doDescribeCluster svc w = .ok (some e, (DescribeCluster w.interClusterName svc w).2)) ∧
    ((GetContainerInstances w.interClusterName svc w).1.2 = some e →
      doListContainerInstances svc w =
        .ok (some e, (GetContainerInstances w.interClusterName svc w).2)) ∧
    (∀ m w1, GetContainerInstanceDescription w.interClusterName w.interContainerArn svc w =
        .ok ((m, some e), w1) →
      doDescribeContainerInstance sdk svc w = .ok (some e, w1)) ∧
    (∀ m w1, GetAllContainerInstanceDescriptions w.interClusterName svc w =
        .ok ((m, some e), w1) →
      doDescribeAllContainerInstances sdk svc w = .ok (some e, w1)) ∧
    ((LaunchContainerInstance w.interClusterName awsConfig.ec2Svc w).1.2 = some e →
      doNewContainerInstance awsConfig w =
        .ok (some e, (LaunchContainerInstance w.interClusterName awsConfig.ec2Svc w).2)) ∧
    (∀ r w1, TerminateContainerInstance w.interClusterName w.interContainerArn svc
        awsConfig.ec2Svc w = .ok ((r, some e), w1) →
      doTerminateContainerInstance svc awsConfig w = .ok (some e, w1)) ∧
    (∀ m w1, GetAllTaskDescriptions w.interClusterName svc
        (ListTasksForCluster w.interClusterName svc w).2 = .ok ((m, some e), w1) →
      doListTasks svc w = .ok (some e, w1)) ∧
    (∀ m w1, GetAllTaskDescriptions w.interClusterName svc w = .ok ((m, some e), w1) →
      doDescribeAllTasks sdk svc w = .ok (some e, w1)) ∧
    ((ListTaskDefinitions svc w).1.2 = some e →
      doListTaskDefinitions svc w = .ok (some e, (ListTaskDefinitions svc w).2)) ∧
    ((GetTaskDefinition w.interTaskDefinitionArn svc w).1.2 = some e →
      doDescribeTaskDefinition svc w =
        .ok (some e, (GetTaskDefinition w.interTaskDefinitionArn svc w).2)) ∧
    ((RunTask w.interClusterName w.interTaskDefinitionArn svc w).1.2 = some e →
      doRunTask sdk svc w =
        .ok (some e, (RunTask w.interClusterName w.interTaskDefinitionArn svc w).2)) ∧
    ((StopTask w.interClusterName w.interTaskArn svc
        (w.print ("Stopping the task: " ++ w.interTaskArn ++ ".\n"))).1.2 = some e →
      doStopTask svc w = .ok (some e, (StopTask w.interClusterName w.interTaskArn svc
        (w.print ("Stopping the task: " ++ w.interTaskArn ++ ".\n"))).2)) := by
  refine ⟨?_, ?_, ?_, ?_, ?_, ?_, ?_, ?_, ?_, ?_, ?_, ?_, ?_⟩
  · intro h
    unfold doListClusters
    simp only [h]
  · intro h
    unfold doDescribeCluster
    simp only [h]
  · intro h
    unfold doListContainerInstances
    simp only [h]
  · intro m w1 h
    unfold doDescribeContainerInstance
    simp only [h]
  · intro m w1 h
    unfold doDescribeAllContainerInstances
    simp only [h]
  · intro h
    unfold doNewContainerInstance
    simp only [h]
  · intro r w1 h
    unfold doTerminateContainerInstance
    simp only [h]
  · intro m w1 h
    unfold doListTasks
    have hn : (ListTasksForCluster w.interClusterName svc w).2.interClusterName =
        w.interClusterName := rfl
    simp only [hn, h]
  · intro m w1 h
    unfold doDescribeAllTasks
    simp only [h]
  · intro h
    unfold doListTaskDefinitions
    simp only [h]
  · intro h
    unfold doDescribeTaskDefinition
    simp only [h]
  · intro h
    unfold doRunTask
    simp only [h]
  · intro h
    unfold doStopTask
    have h' : (StopTask
        (w.print ("Stopping the task: " ++ w.interTaskArn ++ ".\n")).interClusterName
        (w.print ("Stopping the task: " ++ w.interTaskArn ++ ".\n")).interTaskArn svc
        (w.print ("Stopping the task: " ++ w.interTaskArn ++ ".\n"))).1.2 = some e := h
    simp only [h']
    rfl

/-- An error other than `io.EOF` that the command of a line returns is printed
once, as "Error - " followed by the error, and the loop goes on. -/
theorem promptStep_prints_error (process : String → World → Except Panic (Option Error × World))
    (line : String) (w w1 : World) (e : Error) (he : e ≠ .EOF)
    (h : process line { w with history := w.history ++ [line] } = .ok (some e, w1)) :
    promptStep process (line, none) w = .ok (true, w1.print ("Error - " ++ e.text ++ ".\n")) := by
  unfold promptStep
  simp only [h, he, if_false]

/-- C15, the code at the failing input: with a service whose first answer is an
error and whose later answers succeed, the first adapter call of `task list`
(`ListTasksForCluster`) returns the error, and the command goes on: it prints
the task count from the failed call, no message "Error - ..." appears and the
error is lost. -/
theorem task_list_drops_first_error (interApp : Kingpin) :
    (ListTasksForCluster "mycluster" flakyTaskSvc {}).1 =
      ([], some (.msg "RequestError: send request failed")) ∧
    DoInteractive interApp sampleSdk flakyTaskSvc { ec2Svc := quietEc2 }
        [("task list mycluster", none)] {} =
      .ok { moreCommands := true, unread := [],
            world := {
              calls := [.ListTasks "mycluster" 100, .ListTasks "mycluster" 100,
                .DescribeTasks "mycluster" ["arn:task:123"]],
              out := ["There are (0) tasks for cluster: mycluster\n"],
              history := ["task list mycluster"], interClusterName := "mycluster" } } :=
  ⟨rfl, rfl⟩

end EcsPilot
